import Mathlib

/-!
# The R bridge of JASP: filter evaluation and dataset marshalling

A shallow embedding of `Engine/rbridge.cpp`, and of `CSVImporter::initColumn` and
`CSVImporter::deEuropeanise` of `JASP-Desktop/importers/csvimporter.cpp`.

* Calls into the R interface (`jaspRCPP_*`) and into `R_FunctionWhiteList` are
  recorded, in program order, in a trace of `RCall`s; what those calls answer is
  supplied by a `Runtime` record, so every theorem holds for every runtime.
* A `filterException` is the `Except.error` of the result, carrying `what()`.
* Row counts, payload positions and label counts are natural numbers. The source
  keeps them in `int` and `size_t`, which denote the same number for every count
  below `2 ^ 31`; stored codes are `Int`s in the range of a C++ `int`.
* A `double` is its 64-bit IEEE-754 pattern, so that copying a value verbatim is
  equality of patterns. The two floating-point expressions of the quantisation
  fallback are parameters of the bridge; `ieeeBridge` computes them on the patterns.
* `boost::lexical_cast` is a parameter of the importer.
* `ColumnEncoder` is not among the sources read here: an encoder is the record of
  the methods that `rbridge_encodeColumnName` and `rbridge_decodeColumnName` call.
* A call through a null `rbridge_dataSet` ends an invocation in `nullDereference`.
-/

namespace RBridge

/-! ## The script runtime and the trace of calls -/

/-- One call that leaves `rbridge.cpp` towards the R interface or the whitelist. -/
inductive RCall where
  | scriptIsSafe (script : String)
  | runScript (script : String)
  | runFilter (script : String)
  | evalRCode (script : String) (setWd : Bool)
  | getLastErrorMsg
  | resetErrorMsg
  | setErrorMsg (msg : String)
  | freeArrayPointer
  deriving DecidableEq, Repr

/-- What `jaspRCPP_runFilter` hands back: the returned `int` and the array that
`arrayPointer` points to afterwards. -/
structure FilterRun where
  arrayLength : Int
  arrayPointer : List Bool
  deriving DecidableEq, Repr

/-- The collaborators of the filter evaluator that live outside `rbridge.cpp`.
`scriptIsSafe` answers `some msg` when `R_FunctionWhiteList::scriptIsSafe` throws a
`filterException` whose `what()` is `msg`, and `none` when it returns. -/
structure Runtime where
  encodeRScript : String → String
  decodeAll : String → String
  scriptIsSafe : String → Option String
  runFilter : String → FilterRun
  evalRCode : String → Bool → String
  lastErrorMsg : String

/-- A finished invocation: the calls it issued, oldest first, and its result. -/
structure Outcome (α : Type) where
  trace : List RCall
  result : Except String α

/-- `rbridge_encodeColumnNamesInScript`. -/
def rbridge_encodeColumnNamesInScript (rt : Runtime) (filterCode : String) : String :=
  rt.encodeRScript filterCode

/-- The script that `rbridge_setupRCodeEnvReadData` runs. -/
def setupReadDataScript (dataname readFunction : String) : String :=
  dataname ++ " <- " ++ readFunction ++ ";\n" ++
  "attach(" ++ dataname ++ ");" ++ "\n" ++
  "options(warn=1, showWarnCalls=TRUE, showErrorCalls=TRUE, show.error.messages=TRUE);" ++ "\n"

/-- `rbridge_setupRCodeEnvReadData`: one `jaspRCPP_runScript`. -/
def rbridge_setupRCodeEnvReadData (dataname readFunction : String) : List RCall :=
  [RCall.runScript (setupReadDataScript dataname readFunction)]

/-- `rbridge_setupRCodeEnv`: binds `rowcount`, then reads and attaches the data. -/
def rbridge_setupRCodeEnv (rowCount : Int) (dataname : String) : List RCall :=
  RCall.runScript ("rowcount    <- " ++ toString rowCount ++ ";") ::
    rbridge_setupRCodeEnvReadData dataname ".readFilterDatasetToEnd()"

/-- The script of `rbridge_detachRCodeEnv`. -/
def detachScript (dataname : String) : String :=
  "detach(" ++ dataname ++ ")"

/-- `rbridge_detachRCodeEnv`: one `jaspRCPP_runScript`. -/
def rbridge_detachRCodeEnv (dataname : String) : List RCall :=
  [RCall.runScript (detachScript dataname)]

/-- The loop of `rbridge_applyFilter` that copies `arrayPointer[0 .. arrayLength)`
into `returnThis` and raises `atLeastOneRow` at the first `true`. -/
def buildBoolVector (arrayPointer : List Bool) : Nat → List Bool × Bool
  | 0 => ([], false)
  | i + 1 =>
    let prev := buildBoolVector arrayPointer i
    let b := arrayPointer.getD i false
    (prev.1 ++ [b], prev.2 || b)

/-- The text of the `filterException` for a result of the wrong length. -/
def shapeMismatchMsg (rowCount arrayLength : Int) : String :=
  "Filter did not return a logical vector of length " ++ toString rowCount ++
  " as expected, instead it returned a logical vector of length " ++ toString arrayLength ++ "\n"

/-- The text of the `filterException` for a result without a `true`. -/
def filteredOutAllMsg : String := "Filtered out all data.."

/-- The text used when the runtime failed but left no message. -/
def incomprehensibleMsg : String :=
  "Filter returned something incomprehensible, make sure you entered all columnnames *exactly* right."

/-- The local `filter64` of `rbridge_applyFilter`: the generated code and the
filter, joined by a newline, with the column names encoded, inside `local({...})`. -/
def filter64 (rt : Runtime) (filterCode generatedFilterCode : String) : String :=
  "local(\x7b" ++ rbridge_encodeColumnNamesInScript rt (generatedFilterCode ++ "\n" ++ filterCode) ++ "\x7d)"

/-- The local `rCode64` of `rbridge_evalRCodeWhiteListed`. -/
def rCode64 (rt : Runtime) (rCode : String) : String :=
  "local(\x7b" ++ rbridge_encodeColumnNamesInScript rt rCode ++ "\x7d)"

/-- `rbridge_applyFilter`, with `dataSetRowCount` the answer of
`rbridge_dataSetSource()`: `none` for `nullptr`, else the dataset's `rowCount()`. -/
def rbridge_applyFilter (rt : Runtime) (dataSetRowCount : Option Nat)
    (filterCode generatedFilterCode : String) : Outcome (List Bool) :=
  match dataSetRowCount with
  | none => ⟨[], .error "rbridge_dataSet == nullptr!"⟩
  | some n =>
    let rowCount : Int := n
    if filterCode = "*" ∨ filterCode = "" then
      ⟨[], .ok (List.replicate rowCount.toNat true)⟩
    else
      let script := filter64 rt filterCode generatedFilterCode
      match rt.scriptIsSafe script with
      | some msg => ⟨[RCall.scriptIsSafe script], .error msg⟩
      | none =>
        let run := rt.runFilter script
        let arrayLength := run.arrayLength
        let t1 := [RCall.scriptIsSafe script] ++ rbridge_setupRCodeEnv rowCount "data" ++
                  [RCall.runFilter script] ++ rbridge_detachRCodeEnv "data"
        if arrayLength < 0 then
          let errorMsg := rt.decodeAll rt.lastErrorMsg
          let errorMsg := if errorMsg = "" then incomprehensibleMsg else errorMsg
          ⟨t1 ++ [RCall.getLastErrorMsg], .error errorMsg⟩
        else
          let built : List Bool × Bool :=
            if arrayLength = rowCount then buildBoolVector run.arrayPointer arrayLength.toNat
            else ([], false)
          let returnThis := built.1
          let atLeastOneRow := built.2
          let t2 := t1 ++ [RCall.freeArrayPointer]
          if !atLeastOneRow then ⟨t2, .error filteredOutAllMsg⟩
          else if arrayLength ≠ rowCount then ⟨t2, .error (shapeMismatchMsg rowCount arrayLength)⟩
          else ⟨t2, .ok returnThis⟩

/-- `rbridge_evalRCodeWhiteListed`; an absent dataset gives `rowCount = 0`. -/
def rbridge_evalRCodeWhiteListed (rt : Runtime) (dataSetRowCount : Option Nat)
    (rCode : String) (setWd : Bool) : Outcome String :=
  let rowCount : Int := match dataSetRowCount with
    | none => 0
    | some n => n
  let script := rCode64 rt rCode
  match rt.scriptIsSafe script with
  | some what =>
    ⟨[RCall.resetErrorMsg, RCall.scriptIsSafe script, RCall.setErrorMsg what],
      .ok ("R code is not safe because of: " ++ what)⟩
  | none =>
    let result := rt.evalRCode script setWd
    ⟨[RCall.resetErrorMsg, RCall.scriptIsSafe script] ++ rbridge_setupRCodeEnv rowCount "data" ++
      [RCall.evalRCode script setWd, RCall.runScript "detach(data)", RCall.getLastErrorMsg,
       RCall.setErrorMsg (rt.decodeAll rt.lastErrorMsg)],
      .ok result⟩

/-- A call that makes the R runtime execute script text. -/
def RCall.isExecution : RCall → Bool
  | .runScript _ => true
  | .runFilter _ => true
  | .evalRCode _ _ => true
  | _ => false

/-- A call to the script runtime or to the safety check. -/
def RCall.isScriptOrSafety : RCall → Bool
  | .scriptIsSafe _ => true
  | c => c.isExecution

/-- A sample runtime: names are left as they are, every script is safe, and the
filter run answers `run`. -/
def sampleRuntime (run : FilterRun) : Runtime where
  encodeRScript := id
  decodeAll := id
  scriptIsSafe := fun _ => none
  runFilter := fun _ => run
  evalRCode := fun _ _ => ""
  lastErrorMsg := ""

/-- A sample runtime whose whitelist rejects every script with `what`. -/
def rejectingRuntime (what : String) : Runtime where
  encodeRScript := id
  decodeAll := id
  scriptIsSafe := fun _ => some what
  runFilter := fun _ => ⟨-1, []⟩
  evalRCode := fun _ _ => ""
  lastErrorMsg := ""

/-! ## The dataset and the exchange buffer -/

/-- The `columnType` enumeration. -/
inductive columnType where
  | unknown
  | nominal
  | nominalText
  | ordinal
  | scale
  deriving DecidableEq, Repr

/-- A C++ `double`, as its 64-bit IEEE-754 pattern. -/
structure Dbl where
  bits : Nat
  deriving DecidableEq, Repr

/-- The eleven exponent bits. -/
def Dbl.exponent (d : Dbl) : Nat := (d.bits / 2 ^ 52) % 2 ^ 11

/-- The fifty-two fraction bits. -/
def Dbl.mantissa (d : Dbl) : Nat := d.bits % 2 ^ 52

/-- The sign bit. -/
def Dbl.signBit (d : Dbl) : Bool := decide ((d.bits / 2 ^ 63) % 2 = 1)

/-- `std::isnan`. -/
def Dbl.isnan (d : Dbl) : Bool := decide (d.exponent = 2047 ∧ d.mantissa ≠ 0)

/-- `std::isfinite`. -/
def Dbl.isfinite (d : Dbl) : Bool := decide (d.exponent ≠ 2047)

/-- Both zeros. -/
def Dbl.isZero (d : Dbl) : Bool := decide (d.exponent = 0 ∧ d.mantissa = 0)

/-- The comparison `value < 0`. -/
def Dbl.ltZero (d : Dbl) : Bool := d.signBit && !d.isnan && !d.isZero

/-- The comparison `value > 0`. -/
def Dbl.gtZero (d : Dbl) : Bool := !d.signBit && !d.isnan && !d.isZero

/-- The value `0.0` that `calloc` leaves in a fresh `double` cell. -/
def Dbl.zero : Dbl := ⟨0⟩

/-- `std::numeric_limits<int>::lowest()`, the missing-value sentinel of coded columns. -/
def intLowest : Int := -2147483648

/-- `std::numeric_limits<int>::max()`. -/
def intMax : Int := 2147483647

/-- A `Label` as `rbridge.cpp` reads it: `value()` and `label(false)`. -/
structure Label where
  value : Int
  label : String
  deriving DecidableEq, Repr

/-- A `Column` as `rbridge.cpp` reads it. -/
structure Column where
  name : String
  type : columnType
  ints : List Int
  dbls : List Dbl
  labels : List Label
  deriving DecidableEq, Repr

/-- The `Filter` of a dataset: `filtered()` and `filteredRowCount()`. -/
structure Filter where
  filtered : List Bool
  filteredRowCount : Nat
  deriving DecidableEq, Repr

/-- A `DataSet` as `rbridge.cpp` reads it. -/
structure DataSet where
  rowCount : Nat
  columns : List Column
  filter : Filter
  deriving DecidableEq, Repr

/-- Modelled from the spec: `Dataset.column(name) -> Column` of `dataset.h`, which is
not among the sources. The column is looked up by name among `columns()`; `none`
stands for the failure of the call when no column bears the name. -/
def DataSet.column (dataSet : DataSet) (name : String) : Option Column :=
  dataSet.columns.find? (fun c => c.name == name)

/-- One entry of `colHeaders`; `type` is the header's `int` read as `columnType(...)`. -/
structure RBridgeColumnType where
  name : String
  type : columnType
  deriving DecidableEq, Repr

/-- One record of the exchange buffer. A pointer field is `none` for `nullptr`. -/
structure RBridgeColumn where
  name : Option String
  isScale : Bool
  hasLabels : Bool
  isOrdinal : Bool
  doubles : Option (List Dbl)
  ints : Option (List Int)
  labels : Option (List String)
  nbRows : Nat
  nbLabels : Nat
  deriving DecidableEq, Repr

/-- A record as `calloc` leaves it. -/
def RBridgeColumn.zeroed : RBridgeColumn :=
  ⟨none, false, false, false, none, none, none, 0, 0⟩

/-- The `int` cells of a record; a null pointer holds none. -/
def RBridgeColumn.intCells (c : RBridgeColumn) : List Int := c.ints.getD []

/-- The `double` cells of a record; a null pointer holds none. -/
def RBridgeColumn.doubleCells (c : RBridgeColumn) : List Dbl := c.doubles.getD []

/-- The label texts of a record; a null pointer holds none. -/
def RBridgeColumn.labelTexts (c : RBridgeColumn) : List String := c.labels.getD []

/-- A `std::map<int, int>`, most recent assignment first. -/
abbrev intintmap := List (Int × Int)

/-- The assignment `m[key] = value`. -/
def intintmap.assign (m : intintmap) (key value : Int) : intintmap := (key, value) :: m

/-- The read `m[key]`, which is `0` for a key that was never assigned. -/
def intintmap.at (m : intintmap) (key : Int) : Int := (List.lookup key m).getD 0

/-- The `insert` of a `std::set<int>`, kept as its ascending list of members. -/
def intsetInsert (x : Int) : List Int → List Int
  | [] => [x]
  | y :: ys => if x < y then x :: y :: ys else if x = y then y :: ys else y :: intsetInsert x ys

/-- The parts of the dataset bridge that live outside `rbridge.cpp`, and the two
floating-point computations of the quantisation fallback:
`truncTimes1000 value` is `(int)(value * 1000)` and `toStringDiv1000 value` is
`std::to_string((double)value / 1000)`. -/
structure DataBridge where
  dataSetSource : Option DataSet
  decode : String → String
  truncTimes1000 : Dbl → Int
  toStringDiv1000 : Int → String

/-- `rbridge_getLabels(const Labels &, size_t &)`: the label array and `nbLevels`. -/
def rbridge_getLabels (levels : List Label) : List String × Nat :=
  if levels.length = 0 then (["."], 0)
  else (levels.map (fun level => level.label), levels.length)

/-- `rbridge_getLabels(const std::vector<std::string> &, size_t &)`. -/
def rbridge_getLabelsOfStrings (levels : List String) : List String × Nat :=
  if levels.length = 0 then (["."], 0)
  else (levels, levels.length)

/-- The row-number loop of `rbridge_readDataSet`, one iteration: the state is the
payload of the trailing record and `filteredRow`. -/
def rowNumberStep (obeyFilter : Bool) (filtered : List Bool) (nbRows : Nat)
    (st : List Int × Nat) (i : Nat) : List Int × Nat :=
  if st.2 < nbRows ∧ (obeyFilter = false ∨ (filtered.length > i ∧ filtered.getD i false = true)) then
    (st.1.set st.2 ((i : Int) + 1), st.2 + 1)
  else st

/-- The row-number loop of `rbridge_readDataSet` over `i = 0 .. rowCount - 1`,
started on the zeroed payload. -/
def rowNumbers (obeyFilter : Bool) (filtered : List Bool) (rowCount nbRows : Nat) : List Int :=
  ((List.range rowCount).foldl (rowNumberStep obeyFilter filtered nbRows)
    (List.replicate nbRows 0, 0)).1

/-- The copy loop shared by the four type branches of `rbridge_readDataSet`:
`for (value : values) if (rowNo < filteredRowCount && (!obeyFilter ||
filtered[dataSetRowNo++])) out[rowNo++] = conv(value)`. The state is the payload,
`rowNo` and `dataSetRowNo`. A read of `filtered` past its end, undefined in the
source, reads `false`. -/
def copyRows {α β : Type} (obeyFilter : Bool) (filtered : List Bool) (filteredRowCount : Nat)
    (conv : α → β) : List α → List β → Nat → Nat → List β × Nat × Nat
  | [], out, rowNo, dataSetRowNo => (out, rowNo, dataSetRowNo)
  | value :: rest, out, rowNo, dataSetRowNo =>
    if rowNo < filteredRowCount then
      if obeyFilter then
        if filtered.getD dataSetRowNo false then
          copyRows obeyFilter filtered filteredRowCount conv rest
            (out.set rowNo (conv value)) (rowNo + 1) (dataSetRowNo + 1)
        else
          copyRows obeyFilter filtered filteredRowCount conv rest out rowNo (dataSetRowNo + 1)
      else
        copyRows obeyFilter filtered filteredRowCount conv rest
          (out.set rowNo (conv value)) (rowNo + 1) dataSetRowNo
    else
      copyRows obeyFilter filtered filteredRowCount conv rest out rowNo dataSetRowNo

/-- The payload a copy loop leaves in a zeroed array of `filteredRowCount` cells. -/
def copiedPayload {α β : Type} (dataSet : DataSet) (obeyFilter : Bool) (filteredRowCount : Nat)
    (zero : β) (conv : α → β) (values : List α) : List β :=
  (copyRows obeyFilter dataSet.filter.filtered filteredRowCount conv values
    (List.replicate filteredRowCount zero) 0 0).1

/-- The `int` array of a record: `nullptr` when `filteredRowCount == 0`. -/
def intArray (filteredRowCount : Nat) (cells : List Int) : Option (List Int) :=
  if filteredRowCount = 0 then none else some cells

/-- The loop `for (label : column->labels()) indices[label->value()] = i++`. -/
def buildIndices : List Label → Int → intintmap → intintmap
  | [], _, indices => indices
  | label :: rest, i, indices => buildIndices rest (i + 1) (indices.assign label.value i)

/-- The map `indices` of `setResultColIntsLabels`. -/
def labelIndices (requestedType : columnType) (column : Column) : intintmap :=
  if requestedType ≠ columnType.scale ∨ column.type = columnType.nominalText then
    buildIndices column.labels 1 []
  else []

/-- What `setResultColIntsLabels` stores for one stored code. -/
def labelIndexOf (indices : intintmap) (value : Int) : Int :=
  if value = intLowest then intLowest else indices.at value

/-- The lambda `setResultColIntsLabels` of `rbridge_readDataSet`. -/
def setResultColIntsLabels (dataSet : DataSet) (obeyFilter : Bool) (filteredRowCount : Nat)
    (requestedType : columnType) (column : Column) (resultCol : RBridgeColumn) : RBridgeColumn :=
  let indices := labelIndices requestedType column
  let cells := copiedPayload dataSet obeyFilter filteredRowCount (0 : Int)
    (labelIndexOf indices) column.ints
  let got := rbridge_getLabels column.labels
  { resultCol with
    isScale := false
    hasLabels := true
    ints := intArray filteredRowCount cells
    isOrdinal := decide (requestedType = columnType.ordinal)
    labels := some got.1
    nbLabels := got.2 }

/-- The bucket of one value in the quantisation fallback. -/
def bucketOf (b : DataBridge) (value : Dbl) : Int :=
  if value.isfinite then b.truncTimes1000 value
  else if value.ltZero then intLowest
  else intMax

/-- The first loop of the quantisation fallback: the set `uniqueValues`. -/
def collectUniqueValues (b : DataBridge) : List Dbl → List Int → List Int
  | [], uniqueValues => uniqueValues
  | value :: rest, uniqueValues =>
    if value.isnan then collectUniqueValues b rest uniqueValues
    else collectUniqueValues b rest (intsetInsert (bucketOf b value) uniqueValues)

/-- The label text of one bucket. -/
def bucketLabel (b : DataBridge) (value : Int) : String :=
  if value = intMax then "Inf"
  else if value = intLowest then "-Inf"
  else b.toStringDiv1000 value

/-- The second loop of the quantisation fallback: `valueToIndex` and `labels`,
started with `index`. -/
def indexBuckets (b : DataBridge) : List Int → Int → intintmap × List String → intintmap × List String
  | [], _, acc => acc
  | value :: rest, index, acc =>
    indexBuckets b rest (index + 1) (acc.1.assign value index, acc.2 ++ [bucketLabel b value])

/-- What the third loop of the quantisation fallback stores for one value. -/
def bucketIndexOf (b : DataBridge) (valueToIndex : intintmap) (value : Dbl) : Int :=
  if value.isnan then intLowest
  else if value.isfinite then 1 + valueToIndex.at (b.truncTimes1000 value)
  else if value.gtZero then 1 + valueToIndex.at intMax
  else 1 + valueToIndex.at intLowest

/-- The quantisation fallback of `rbridge_readDataSet`: a scale column read as a
nominal or ordinal one. -/
def scaleToNominal (b : DataBridge) (dataSet : DataSet) (obeyFilter : Bool) (filteredRowCount : Nat)
    (column : Column) (resultCol : RBridgeColumn) : RBridgeColumn :=
  let uniqueValues := collectUniqueValues b column.dbls []
  let indexed := indexBuckets b uniqueValues 0 ([], [])
  let cells := copiedPayload dataSet obeyFilter filteredRowCount (0 : Int)
    (bucketIndexOf b indexed.1) column.dbls
  let got := rbridge_getLabelsOfStrings indexed.2
  { resultCol with
    isScale := false
    hasLabels := true
    isOrdinal := false
    ints := intArray filteredRowCount cells
    labels := some got.1
    nbLabels := got.2 }

/-- The requested type of a header, with `unknown` resolved to the column's type. -/
def resolveRequestedType (columnInfo : RBridgeColumnType) (column : Column) : columnType :=
  if columnInfo.type = columnType.unknown then column.type else columnInfo.type

/-- The body of the column loop of `rbridge_readDataSet`, once the column is found. -/
def readColumn (b : DataBridge) (dataSet : DataSet) (obeyFilter : Bool) (filteredRowCount : Nat)
    (columnInfo : RBridgeColumnType) (column : Column) : RBridgeColumn :=
  let colType := column.type
  let requestedType := resolveRequestedType columnInfo column
  let resultCol : RBridgeColumn :=
    { RBridgeColumn.zeroed with name := some columnInfo.name, nbRows := filteredRowCount }
  if requestedType = columnType.scale then
    if colType = columnType.scale then
      { resultCol with
        isScale := true
        hasLabels := false
        doubles := some (copiedPayload dataSet obeyFilter filteredRowCount Dbl.zero id column.dbls) }
    else if colType = columnType.ordinal ∨ colType = columnType.nominal then
      { resultCol with
        isScale := false
        hasLabels := false
        ints := intArray filteredRowCount
          (copiedPayload dataSet obeyFilter filteredRowCount (0 : Int) id column.ints) }
    else
      setResultColIntsLabels dataSet obeyFilter filteredRowCount requestedType column resultCol
  else
    if colType ≠ columnType.scale then
      setResultColIntsLabels dataSet obeyFilter filteredRowCount requestedType column resultCol
    else
      scaleToNominal b dataSet obeyFilter filteredRowCount column resultCol

/-- How a call of `rbridge_readDataSet` ends. -/
inductive ReadResult where
  | null
  | buffer (records : List RBridgeColumn)
  | columnNotFound (name : String)
  deriving DecidableEq, Repr

/-- The column loop of `rbridge_readDataSet` from `colNo` on, over the buffer
`datasetStatic`; it stops with the name of the first column that is not found. -/
def readColumns (b : DataBridge) (dataSet : DataSet) (obeyFilter : Bool) (filteredRowCount : Nat) :
    List RBridgeColumnType → Nat → List RBridgeColumn → Option String × List RBridgeColumn
  | [], _, datasetStatic => (none, datasetStatic)
  | columnInfo :: rest, colNo, datasetStatic =>
    let columnName := b.decode columnInfo.name
    match dataSet.column columnName with
    | none =>
      (some columnName,
        datasetStatic.set colNo { RBridgeColumn.zeroed with name := some columnInfo.name })
    | some column =>
      readColumns b dataSet obeyFilter filteredRowCount rest (colNo + 1)
        (datasetStatic.set colNo (readColumn b dataSet obeyFilter filteredRowCount columnInfo column))

/-- The single buffer slot: the statics `datasetStatic` and `datasetColMax`. -/
structure Slot where
  datasetStatic : Option (List RBridgeColumn)
  datasetColMax : Nat
  deriving DecidableEq, Repr

/-- `freeRBridgeColumns`, on the slot. -/
def freeRBridgeColumns (slot : Slot) : Slot :=
  match slot.datasetStatic with
  | none => slot
  | some _ => ⟨none, 0⟩

/-- The count `filteredRowCount` of `rbridge_readDataSet`. -/
def effectiveRowCount (dataSet : DataSet) (obeyFilter : Bool) : Nat :=
  if obeyFilter then dataSet.filter.filteredRowCount else dataSet.rowCount

/-- The trailing record of row numbers, `datasetStatic[colMax]`. -/
def rowNumberRecord (dataSet : DataSet) (obeyFilter : Bool) : RBridgeColumn :=
  let filteredRowCount := effectiveRowCount dataSet obeyFilter
  { RBridgeColumn.zeroed with
    ints := intArray filteredRowCount
      (rowNumbers obeyFilter dataSet.filter.filtered dataSet.rowCount filteredRowCount)
    nbRows := filteredRowCount }

/-- `rbridge_readDataSet`. `colHeaders` is `none` for `nullptr` and else holds the
`colMax` headers; the result comes with the slot the call leaves behind. -/
def rbridge_readDataSet (b : DataBridge) (colHeaders : Option (List RBridgeColumnType))
    (obeyFilter : Bool) (slot : Slot) : ReadResult × Slot :=
  match colHeaders with
  | none => (ReadResult.null, slot)
  | some headers =>
    match b.dataSetSource with
    | none => (ReadResult.null, slot)
    | some dataSet =>
      let colMax := headers.length
      let slot := if slot.datasetStatic ≠ none then freeRBridgeColumns slot else slot
      let slot : Slot := { slot with datasetColMax := colMax }
      let datasetStatic := List.replicate (slot.datasetColMax + 1) RBridgeColumn.zeroed
      let filteredRowCount := effectiveRowCount dataSet obeyFilter
      let datasetStatic := datasetStatic.set colMax (rowNumberRecord dataSet obeyFilter)
      match readColumns b dataSet obeyFilter filteredRowCount headers 0 datasetStatic with
      | (some columnName, datasetStatic) =>
        (ReadResult.columnNotFound columnName, { slot with datasetStatic := some datasetStatic })
      | (none, datasetStatic) =>
        (ReadResult.buffer datasetStatic, { slot with datasetStatic := some datasetStatic })

/-! ## Reading the buffer back -/

/-- Whether the loops of `rbridge_readDataSet` keep row `i`: always without the
filter, and else when `filtered()[i]` is set. -/
def rowKept (obeyFilter : Bool) (filtered : List Bool) (i : Nat) : Bool :=
  !obeyFilter || filtered.getD i false

/-- The kept rows among the first `n`, in row order. -/
def keptRows (obeyFilter : Bool) (filtered : List Bool) (n : Nat) : List Nat :=
  (List.range n).filter (rowKept obeyFilter filtered)

/-- The 0-based rows of the dataset that survive, in row order. -/
def survivingRows (dataSet : DataSet) (obeyFilter : Bool) : List Nat :=
  keptRows obeyFilter dataSet.filter.filtered dataSet.rowCount

/-- The number of rows a column stores: doubles when it is a scale column, codes
otherwise. -/
def Column.storedRows (c : Column) : Nat :=
  if c.type = columnType.scale then c.dbls.length else c.ints.length

/-- The mask has one entry per row and `filteredRowCount` counts its `true`s. -/
def DataSet.maskConsistent (dataSet : DataSet) : Prop :=
  dataSet.filter.filtered.length = dataSet.rowCount ∧
    dataSet.filter.filtered.count true = dataSet.filter.filteredRowCount

/-- Every column stores one value per row. -/
def DataSet.columnsConsistent (dataSet : DataSet) : Prop :=
  ∀ c ∈ dataSet.columns, c.storedRows = dataSet.rowCount

/-- One payload cell, whichever array of the record holds it. -/
inductive Cell where
  | dbl (value : Dbl)
  | int (value : Int)
  deriving DecidableEq, Repr

/-- The payload of a record: its doubles when `isScale`, else its ints. -/
def RBridgeColumn.cells (c : RBridgeColumn) : List Cell :=
  if c.isScale then c.doubleCells.map Cell.dbl else c.intCells.map Cell.int

/-- The value of source row `row` of `column` after the conversion of the type
branch that the header `columnInfo` selects. -/
def convertedValue (b : DataBridge) (columnInfo : RBridgeColumnType) (column : Column)
    (row : Nat) : Cell :=
  let requestedType := resolveRequestedType columnInfo column
  if requestedType = columnType.scale then
    if column.type = columnType.scale then Cell.dbl (column.dbls.getD row Dbl.zero)
    else if column.type = columnType.ordinal ∨ column.type = columnType.nominal then
      Cell.int (column.ints.getD row 0)
    else Cell.int (labelIndexOf (labelIndices requestedType column) (column.ints.getD row 0))
  else
    if column.type ≠ columnType.scale then
      Cell.int (labelIndexOf (labelIndices requestedType column) (column.ints.getD row 0))
    else
      Cell.int (bucketIndexOf b
        (indexBuckets b (collectUniqueValues b column.dbls []) 0 ([], [])).1
        (column.dbls.getD row Dbl.zero))

/-- The record that the column loop leaves for one header. -/
def recordFor (b : DataBridge) (dataSet : DataSet) (obeyFilter : Bool)
    (columnInfo : RBridgeColumnType) : RBridgeColumn :=
  match dataSet.column (b.decode columnInfo.name) with
  | some column =>
    readColumn b dataSet obeyFilter (effectiveRowCount dataSet obeyFilter) columnInfo column
  | none => { RBridgeColumn.zeroed with name := some columnInfo.name }

/-- Every requested column exists in the dataset. -/
def allFound (b : DataBridge) (dataSet : DataSet) (headers : List RBridgeColumnType) : Prop :=
  ∀ h ∈ headers, (dataSet.column (b.decode h.name)).isSome = true

/-! ## Sample data -/

/-- The pattern of the double `1.0`. -/
def dblOne : Dbl := ⟨4607182418800017408⟩

/-- The pattern of the double `2.5`. -/
def dblTwoAndHalf : Dbl := ⟨4612811918334230528⟩

/-- The pattern of the quiet NaN. -/
def dblNaN : Dbl := ⟨9221120237041090560⟩

/-- The scale column of the sample: `1.0`, `2.5`, NaN. -/
def sampleScaleColumn : Column :=
  ⟨"x", columnType.scale, [], [dblOne, dblTwoAndHalf, dblNaN], []⟩

/-- The nominal column of the sample: codes 7, missing, 5 over the labels 5 and 7. -/
def sampleNominalColumn : Column :=
  ⟨"g", columnType.nominal, [7, intLowest, 5], [], [⟨5, "low"⟩, ⟨7, "high"⟩]⟩

/-- Three rows, two columns, and a filter that keeps rows 1 and 3. -/
def sampleDataSet : DataSet where
  rowCount := 3
  columns := [sampleScaleColumn, sampleNominalColumn]
  filter := ⟨[true, false, true], 2⟩

/-- A sample bridge over `sampleDataSet`; names are left as they are. -/
def sampleBridge : DataBridge where
  dataSetSource := some sampleDataSet
  decode := id
  truncTimes1000 := fun _ => 0
  toStringDiv1000 := fun _ => ""

/-- The headers that ask for both sample columns in their own type. -/
def sampleHeaders : List RBridgeColumnType :=
  [⟨"x", columnType.unknown⟩, ⟨"g", columnType.unknown⟩]

/-- The headers that ask for the scale column as nominal and the nominal one as scale. -/
def sampleHeadersCrossed : List RBridgeColumnType :=
  [⟨"x", columnType.nominal⟩, ⟨"g", columnType.scale⟩]

/-! ## The double arithmetic of the quantisation fallback -/

/-- The integer significand of a finite double: the value is
`± significand * 2 ^ binaryExponent`. -/
def Dbl.significand (d : Dbl) : Nat :=
  if d.exponent = 0 then d.mantissa else d.mantissa + 2 ^ 52

/-- The power of two that scales the significand of a finite double. -/
def Dbl.binaryExponent (d : Dbl) : Int :=
  if d.exponent = 0 then -1074 else (d.exponent : Int) - 1075

/-- By how many bits `n` exceeds 53 bits, searched with `fuel` halvings. -/
def excessBits (n : Nat) : Nat → Nat
  | 0 => 0
  | fuel + 1 => if n < 2 ^ 53 then 0 else 1 + excessBits (n / 2) fuel

/-- The quotient `n / 2 ^ k` rounded to the nearest integer, ties to even. -/
def roundHalfEven (n k : Nat) : Nat :=
  let q := n / 2 ^ k
  let r := n % 2 ^ k
  if 2 * r > 2 ^ k ∨ (2 * r = 2 ^ k ∧ q % 2 = 1) then q + 1 else q

/-- The magnitude of `(int)(value * 1000)` for a finite `value`: the exact product
`1000 * significand * 2 ^ binaryExponent` is rounded to 53 significant bits, ties to
even, as the IEEE-754 multiplication does, and the fraction is then cut off. -/
def truncTimes1000Magnitude (value : Dbl) : Nat :=
  let n := 1000 * value.significand
  let k := excessBits n 11
  let rounded := roundHalfEven n k
  let e := value.binaryExponent + (k : Int)
  if 0 ≤ e then rounded * 2 ^ e.toNat else rounded / 2 ^ (-e).toNat

/-- The expression `(int)(value * 1000)` on IEEE-754 doubles, for a finite `value`.
When the product is outside the range of `int` the conversion is undefined in C++;
the model answers `INT_MIN` there, as the x86 conversion instruction does. -/
def ieeeTruncTimes1000 (value : Dbl) : Int :=
  let t : Int :=
    if value.signBit then -(truncTimes1000Magnitude value : Int)
    else (truncTimes1000Magnitude value : Int)
  if intLowest ≤ t ∧ t ≤ intMax then t else intLowest

/-- The three decimals of `n % 1000`, with leading zeros. -/
def threeDigits (n : Nat) : String :=
  (toString (1000 + n % 1000)).drop 1

/-- The expression `std::to_string((double)value / 1000)` for an `int` value:
`std::to_string` prints a double as `printf("%f")` does, with six digits after the
point. The quotient differs from the exact `value / 1000` by less than `2 ^ (-31)`,
so the six digits are the three decimals of `value / 1000` followed by `000`. -/
def toStringDiv1000Fixed (value : Int) : String :=
  (if value < 0 then "-" else "") ++ toString (value.natAbs / 1000) ++ "."
    ++ threeDigits value.natAbs ++ "000"

/-- A bridge over `dataSet` that leaves names as they are and computes the
quantisation fallback in IEEE-754 arithmetic. -/
def ieeeBridge (dataSet : Option DataSet) : DataBridge where
  dataSetSource := dataSet
  decode := id
  truncTimes1000 := ieeeTruncTimes1000
  toStringDiv1000 := toStringDiv1000Fixed

/-- The pattern of the double nearest to `1.0001`. -/
def dbl1_0001 : Dbl := ⟨4607182869159980145⟩

/-- The pattern of the double nearest to `1.0004`. -/
def dbl1_0004 : Dbl := ⟨4607184220239868356⟩

/-- The pattern of the double nearest to `2147483.647`. -/
def dbl2147483_647 : Dbl := ⟨4701866097363707232⟩

/-- The pattern of the double nearest to `-2147483.648`. -/
def dblMinus2147483_648 : Dbl := ⟨13925238134220630524⟩

/-- The pattern of `+Infinity`. -/
def dblPosInf : Dbl := ⟨9218868437227405312⟩

/-- The pattern of `-Infinity`. -/
def dblNegInf : Dbl := ⟨18442240474082181120⟩

/-- A dataset of one scale column `x` holding `values`, with nothing filtered out. -/
def scaleDataSet (values : List Dbl) : DataSet where
  rowCount := values.length
  columns := [⟨"x", columnType.scale, [], values, []⟩]
  filter := ⟨List.replicate values.length true, values.length⟩

/-- The header that asks for the column `x` as nominal. -/
def nominalHeaderX : List RBridgeColumnType := [⟨"x", columnType.nominal⟩]

/-- The buckets of the values that are not NaN, in column order. -/
def nonNaNBuckets (b : DataBridge) (dbls : List Dbl) : List Int :=
  (dbls.filter (fun v => !v.isnan)).map (bucketOf b)

/-- The distinct buckets of a column. -/
def distinctBuckets (b : DataBridge) (dbls : List Dbl) : List Int :=
  (nonNaNBuckets b dbls).dedup

/-- The number of distinct buckets of the column that are strictly smaller than `x`. -/
def smallerBuckets (b : DataBridge) (dbls : List Dbl) (x : Int) : Nat :=
  ((distinctBuckets b dbls).filter (fun y => decide (y < x))).length

/-- A dataset of one nominal column `e` whose only cell is missing and whose label
dictionary is empty, with nothing filtered out. -/
def emptyLabelDataSet : DataSet where
  rowCount := 1
  columns := [⟨"e", columnType.nominal, [intLowest], [], []⟩]
  filter := ⟨[true], 1⟩

/-- The header that asks for the column `e` in its own type. -/
def headerE : List RBridgeColumnType := [⟨"e", columnType.unknown⟩]

/-! ## The buffer slot over time, and the blocks of a buffer -/

/-- `rbridge_readFullDataSetHelper`. `colMax` is the value behind the pointer
`colMax` before the call, and the second component of the result its value after;
`encode` is `ColumnEncoder::encode`. The header array that is `calloc`ed for the
columns is passed on as a non-null pointer. -/
def rbridge_readFullDataSetHelper (b : DataBridge) (encode : String → String) (colMax : Nat)
    (obeyFilter : Bool) (slot : Slot) : (ReadResult × Nat) × Slot :=
  match b.dataSetSource with
  | none => ((ReadResult.null, colMax), slot)
  | some dataSet =>
    let columns := dataSet.columns
    let colMax := columns.length
    let colHeaders : List RBridgeColumnType := columns.map (fun c => ⟨encode c.name, c.type⟩)
    let returnThis := rbridge_readDataSet b (some colHeaders) obeyFilter slot
    ((returnThis.1, colMax), returnThis.2)

/-- A bridge whose dataset provider has no dataset. -/
def bridgeWithoutDataSet : DataBridge where
  dataSetSource := none
  decode := id
  truncTimes1000 := ieeeTruncTimes1000
  toStringDiv1000 := toStringDiv1000Fixed

/-- The slot together with `live`, the number of record arrays that
`rbridge_readDataSet` has `calloc`ed and `freeRBridgeColumns` has not yet freed. -/
structure BufferState where
  slot : Slot
  live : Nat
  deriving DecidableEq, Repr

/-- The state before the first call: nothing in the slot, nothing allocated. -/
def BufferState.empty : BufferState := ⟨⟨none, 0⟩, 0⟩

/-- A call of `freeRBridgeColumns`: it returns at once on an empty slot, and else
frees the record array and clears the slot. -/
def BufferState.release (s : BufferState) : BufferState where
  slot := freeRBridgeColumns s.slot
  live := match s.slot.datasetStatic with
    | none => s.live
    | some _ => s.live - 1

/-- The state of `rbridge_readDataSet` after `if (datasetStatic != nullptr)
freeRBridgeColumns();`. -/
def BufferState.afterRelease (s : BufferState) : BufferState :=
  if s.slot.datasetStatic ≠ none then s.release else s

/-- A call of `rbridge_readDataSet`: with headers and a dataset it releases what
the slot holds and then allocates one record array; otherwise it returns at once. -/
def BufferState.marshal (b : DataBridge) (colHeaders : Option (List RBridgeColumnType))
    (obeyFilter : Bool) (s : BufferState) : BufferState where
  slot := (rbridge_readDataSet b colHeaders obeyFilter s.slot).2
  live := match colHeaders, b.dataSetSource with
    | some _, some _ => s.afterRelease.live + 1
    | _, _ => s.live

/-- One step of the buffer lifecycle. -/
inductive BridgeStep where
  | marshal (b : DataBridge) (colHeaders : Option (List RBridgeColumnType)) (obeyFilter : Bool)
  | release

/-- The state after one step. -/
def BufferState.step (s : BufferState) : BridgeStep → BufferState
  | BridgeStep.marshal b colHeaders obeyFilter => s.marshal b colHeaders obeyFilter
  | BridgeStep.release => s.release

/-- The state after a sequence of steps. -/
def BufferState.run (s : BufferState) (steps : List BridgeStep) : BufferState :=
  steps.foldl BufferState.step s

/-- What holds of a state of the slot: the live record arrays are the one in the
slot, and an empty slot has `datasetColMax = 0`. -/
def BufferState.wellFormed (s : BufferState) : Prop :=
  (s.slot.datasetStatic = none → s.live = 0 ∧ s.slot.datasetColMax = 0)
    ∧ (s.slot.datasetStatic ≠ none → s.live = 1)

/-- One block of memory of a buffer: what one `calloc` or `strdup` returned. -/
inductive Block where
  | recordArray
  | name (colNo : Nat)
  | ints (colNo : Nat)
  | doubles (colNo : Nat)
  | labelArray (colNo : Nat)
  | labelString (colNo : Nat) (i : Nat)
  deriving DecidableEq, Repr

/-- The blocks that the pointers of one record point to. -/
def recordBlocks (colNo : Nat) (c : RBridgeColumn) : List Block :=
  (if c.name.isSome then [Block.name colNo] else [])
    ++ (if c.ints.isSome then [Block.ints colNo] else [])
    ++ (if c.doubles.isSome then [Block.doubles colNo] else [])
    ++ (match c.labels with
        | none => []
        | some texts =>
          Block.labelArray colNo :: (List.range texts.length).map (Block.labelString colNo))

/-- The blocks that `rbridge_readDataSet` allocated for the buffer `datasetStatic`:
the record array and the blocks of each record. -/
def allocatedBlocks (datasetStatic : List RBridgeColumn) : List Block :=
  Block.recordArray ::
    ((List.range datasetStatic.length).map
      (fun colNo => recordBlocks colNo (datasetStatic.getD colNo RBridgeColumn.zeroed))).flatten

/-- The blocks that `freeLabels(labels, nbLabels)` frees for the record `colNo`. -/
def freeLabels (colNo nbLabels : Nat) : List Block :=
  (List.range nbLabels).map (Block.labelString colNo) ++ [Block.labelArray colNo]

/-- The blocks that `freeRBridgeColumns` passes to `free` for a non-null
`datasetStatic`, in program order; a `free` of a null pointer is listed as well. -/
def freedBlocks (datasetStatic : List RBridgeColumn) (datasetColMax : Nat) : List Block :=
  ((List.range datasetColMax).map (fun i =>
      let column := datasetStatic.getD i RBridgeColumn.zeroed
      [Block.name i]
        ++ (if column.isScale then [Block.doubles i] else [Block.ints i])
        ++ (if column.hasLabels then freeLabels i column.nbLabels else []))).flatten
    ++ [Block.ints datasetColMax, Block.recordArray]

/-- The blocks of the buffer in `slot` that a call of `freeRBridgeColumns` leaves
allocated. -/
def leakedBlocks (slot : Slot) : List Block :=
  match slot.datasetStatic with
  | none => []
  | some datasetStatic =>
    (allocatedBlocks datasetStatic).filter
      (fun block => decide (block ∉ freedBlocks datasetStatic slot.datasetColMax))

/-! ## The CSV importer: `CSVImporter::initColumn` and `CSVImporter::deEuropeanise` -/

/-- The first loop of `deEuropeanise`: the counts `dots` and `commas`. -/
def countDotsCommas : List Char → Nat × Nat → Nat × Nat
  | [], counts => counts
  | c :: rest, (dots, commas) =>
    if c = '.' then countDotsCommas rest (dots + 1, commas)
    else if c = ',' then countDotsCommas rest (dots, commas + 1)
    else countDotsCommas rest (dots, commas)

/-- The second loop of `deEuropeanise` with the `resize`: every character of
`value` that is not a dot, in order. -/
def copyWithoutDots : List Char → List Char
  | [] => []
  | c :: rest => if c = '.' then copyWithoutDots rest else c :: copyWithoutDots rest

/-- The third loop of `deEuropeanise`: the first comma becomes a dot. -/
def replaceFirstComma : List Char → List Char
  | [] => []
  | c :: rest => if c = ',' then '.' :: rest else c :: replaceFirstComma rest

/-- `CSVImporter::deEuropeanise`. -/
def deEuropeanise (value : String) : String :=
  let counts := countDotsCommas value.data (0, 0)
  let dots := counts.1
  let commas := counts.2
  if commas > 0 then
    let uneurope := if dots > 0 then copyWithoutDots value.data else value.data
    String.mk (replaceFirstComma uneurope)
  else value

/-- The two instances of `boost::lexical_cast` that `initColumn` uses, on a
`std::string`; `none` stands for a thrown `bad_lexical_cast`. -/
structure LexicalCast where
  toInt : String → Option Int
  toDouble : String → Option Dbl

/-- The call on the column with which `initColumn` ends. -/
inductive ColumnCall where
  | setColumnAsNominalOrOrdinal (intValues : List Int) (uniqueValues : List Int)
  | setColumnAsScale (doubleValues : List Dbl)
  | setColumnAsNominalString (cells : List String)
  deriving DecidableEq, Repr

/-- The cells that the first loop of `initColumn` treats as missing. -/
def isMissingToken (value : String) : Bool :=
  !(value ≠ "NaN" ∧ value ≠ "nan" ∧ value ≠ "" ∧ value ≠ " ")

/-- The first loop of `initColumn`: `success`, the set `uniqueValues` as its
ascending list, and `intValues`; it stops at the first cell that is no integer. -/
def readIntCells (lc : LexicalCast) : List String → List Int → List Int → Bool × List Int × List Int
  | [], uniqueValues, intValues => (true, uniqueValues, intValues)
  | value :: rest, uniqueValues, intValues =>
    if value ≠ "NaN" ∧ value ≠ "nan" ∧ value ≠ "" ∧ value ≠ " " then
      match lc.toInt value with
      | some v => readIntCells lc rest (intsetInsert v uniqueValues) (intValues ++ [v])
      | none => (false, uniqueValues, intValues)
    else
      readIntCells lc rest uniqueValues (intValues ++ [intLowest])

/-- The second loop of `initColumn`: `success` and `doubleValues`; it stops at the
first cell that is no double. `NAN` is the quiet NaN. -/
def readDoubleCells (lc : LexicalCast) : List String → List Dbl → Bool × List Dbl
  | [], doubleValues => (true, doubleValues)
  | value :: rest, doubleValues =>
    let v := deEuropeanise value
    if v ≠ "" ∧ v ≠ " " then
      match lc.toDouble v with
      | some doubleValue => readDoubleCells lc rest (doubleValues ++ [doubleValue])
      | none => (false, doubleValues)
    else
      readDoubleCells lc rest (doubleValues ++ [dblNaN])

/-- `CSVImporter::initColumn`: the name given to the column and the call that
stores the cells. -/
def initColumn (lc : LexicalCast) (name : String) (cells : List String) : String × ColumnCall :=
  let ints := readIntCells lc cells [] []
  let success := ints.1
  let uniqueValues := ints.2.1
  let intValues := ints.2.2
  if success = true ∧ uniqueValues.length ≤ 24 then
    (name, ColumnCall.setColumnAsNominalOrOrdinal intValues uniqueValues)
  else
    let doubles := readDoubleCells lc cells []
    if doubles.1 = true then
      (name, ColumnCall.setColumnAsScale doubles.2)
    else
      (name, ColumnCall.setColumnAsNominalString cells)

/-- The integers that the non-missing cells parse to, without repetition. -/
def distinctInts (lc : LexicalCast) (cells : List String) : List Int :=
  ((cells.filter (fun c => !isMissingToken c)).filterMap lc.toInt).dedup

/-- The value of a string of decimal digits; `none` when it is empty or holds
another character. -/
def digitsValue : List Char → Option Nat
  | [] => none
  | [c] => if c.isDigit then some (c.toNat - 48) else none
  | c :: rest =>
    if c.isDigit then (digitsValue rest).map (fun n => (c.toNat - 48) * 10 ^ rest.length + n)
    else none

/-- A reading of `boost::lexical_cast<int>` on a `std::string`: an optional sign,
then decimal digits only, and a value in the range of `int`. -/
def lexicalCastInt (value : String) : Option Int :=
  match value.data with
  | '-' :: digits =>
    (digitsValue digits).bind (fun n => if n ≤ 2147483648 then some (-(n : Int)) else none)
  | '+' :: digits =>
    (digitsValue digits).bind (fun n => if n ≤ 2147483647 then some (n : Int) else none)
  | digits =>
    (digitsValue digits).bind (fun n => if n ≤ 2147483647 then some (n : Int) else none)

/-- The number of binary digits of `n`, counted with `fuel` halvings. -/
def bitLength (n : Nat) : Nat → Nat
  | 0 => 0
  | fuel + 1 => if n = 0 then 0 else 1 + bitLength (n / 2) fuel

/-- The conversion `(double)n` of an integer below `2 ^ 53` in magnitude, which is
exact. -/
def Dbl.ofInt (n : Int) : Dbl :=
  let a := n.natAbs
  if a = 0 then ⟨0⟩
  else
    let len := bitLength a 64
    ⟨(if n < 0 then 2 ^ 63 else 0) + (1022 + len) * 2 ^ 52 + (a * 2 ^ (53 - len) - 2 ^ 52)⟩

/-- A sample of the two casts: integers are read by `lexicalCastInt`, and the
double cast knows the integers and the two spellings of NaN. -/
def sampleLexicalCast : LexicalCast where
  toInt := lexicalCastInt
  toDouble := fun s =>
    if s = "NaN" ∨ s = "nan" then some dblNaN else (lexicalCastInt s).map Dbl.ofInt

/-- The cells "1", "2", ..., "25". -/
def cells1to25 : List String :=
  (List.range 25).map (fun i => toString (i + 1))

/-- The integer that the first loop of `initColumn` stores for a cell that is
missing or parses. -/
def storedInt (lc : LexicalCast) (c : String) : Int :=
  if isMissingToken c then intLowest else (lc.toInt c).getD 0

/-- The double that the second loop of `initColumn` stores for a cell without a
comma that is blank or parses. -/
def storedDouble (lc : LexicalCast) (c : String) : Dbl :=
  if c = "" ∨ c = " " then dblNaN else (lc.toDouble c).getD dblNaN

/-- The non-missing cells parse as the same number by both casts and hold no
comma, and the double cast reads the two spellings of NaN as a NaN. -/
def castsAgreeOn (lc : LexicalCast) (cells : List String) : Prop :=
  (∀ c ∈ cells, isMissingToken c = false →
      ',' ∉ c.data ∧ lc.toDouble c = (lc.toInt c).map Dbl.ofInt)
    ∧ (∀ c, c = "NaN" ∨ c = "nan" → ∃ d, lc.toDouble c = some d ∧ d.isnan = true)

/-- Every cell is a missing token or parses as an integer. -/
def allIntegerCells (lc : LexicalCast) (cells : List String) : Prop :=
  ∀ c ∈ cells, isMissingToken c = true ∨ (lc.toInt c).isSome = true

/-- The second loop of `initColumn` gives up on the cell `c`: its de-europeanised
text is neither empty nor a single space and the double cast throws on it. -/
def doubleCastFails (lc : LexicalCast) (c : String) : Prop :=
  (deEuropeanise c ≠ "" ∧ deEuropeanise c ≠ " ") ∧ lc.toDouble (deEuropeanise c) = none

/-- The characters of a string other than the dot. -/
def withoutDots (l : List Char) : List Char := l.filter (fun c => decide (c ≠ '.'))

/-! ## Column names across the boundary -/

/-- Modelled from the spec: the class `ColumnEncoder` of `columnencoder.h`, which is
not among the sources, as the four methods that `rbridge_encodeColumnName` and
`rbridge_decodeColumnName` call on an encoder. -/
structure ColumnEncoder where
  shouldEncode : String → Bool
  encode : String → String
  shouldDecode : String → Bool
  decode : String → String

/-- `rbridge_encodeColumnName`, with `extraEncodings` the encoder that `rbridge_init`
stored and `columnEncoder` the answer of `ColumnEncoder::columnEncoder()`. -/
def rbridge_encodeColumnName (extraEncodings columnEncoder : ColumnEncoder) (name : String) :
    String :=
  if extraEncodings.shouldEncode name then extraEncodings.encode name
  else columnEncoder.encode name

/-- `rbridge_decodeColumnName`, on the same two encoders. -/
def rbridge_decodeColumnName (extraEncodings columnEncoder : ColumnEncoder) (name : String) :
    String :=
  if extraEncodings.shouldDecode name then extraEncodings.decode name
  else columnEncoder.decode name

/-- Modelled from the spec: the contract of the Name Encoder, read for the pair of
encoders. Each encoder's `decode` inverts its `encode` on the names it is given;
`shouldDecode` of the extra encoder accepts the identifiers it produced and only
those; and no identifier is produced for two distinct names, also not one by each
encoder. -/
def encodersLawful (extraEncodings columnEncoder : ColumnEncoder) : Prop :=
  (∀ n, extraEncodings.shouldEncode n = true →
      extraEncodings.shouldDecode (extraEncodings.encode n) = true
        ∧ extraEncodings.decode (extraEncodings.encode n) = n)
    ∧ (∀ n, extraEncodings.shouldEncode n = false →
        columnEncoder.decode (columnEncoder.encode n) = n)
    ∧ (∀ e, extraEncodings.shouldDecode e = true →
        ∃ m, extraEncodings.shouldEncode m = true ∧ extraEncodings.encode m = e)
    ∧ (∀ m n, extraEncodings.shouldEncode m = true → extraEncodings.shouldEncode n = false →
        extraEncodings.encode m ≠ columnEncoder.encode n)

/-- A sample extra encoder: it knows the one name "reserved". -/
def sampleExtraEncoder : ColumnEncoder where
  shouldEncode := fun n => n == "reserved"
  encode := fun _ => "JaspExtra_0_Encoded"
  shouldDecode := fun e => e == "JaspExtra_0_Encoded"
  decode := fun _ => "reserved"

/-- A sample default encoder: it puts the letter `c` before a name. -/
def sampleColumnEncoder : ColumnEncoder where
  shouldEncode := fun _ => true
  encode := fun n => String.mk ('c' :: n.data)
  shouldDecode := fun e => e.data.head? == some 'c'
  decode := fun e => String.mk e.data.tail

/-- A sample runtime in which the column `height` is written `JaspColumn_0_Encoded`
in scripts: the whitelist rejects a call of that name, naming it, and the R runtime
fails on every filter with a message that names the encoded column. -/
def leakingRuntime : Runtime where
  encodeRScript := fun s =>
    if s = "\nheight(1)" then "\nJaspColumn_0_Encoded(1)"
    else if s = "\nheight > 1" then "\nJaspColumn_0_Encoded > 1"
    else s
  decodeAll := fun m =>
    if m = "Your filter uses R functions that are not allowed: JaspColumn_0_Encoded" then
      "Your filter uses R functions that are not allowed: height"
    else if m = "object JaspColumn_0_Encoded not found" then "object height not found"
    else m
  scriptIsSafe := fun s =>
    if s = "local(\x7b\nJaspColumn_0_Encoded(1)\x7d)" then
      some "Your filter uses R functions that are not allowed: JaspColumn_0_Encoded"
    else none
  runFilter := fun _ => ⟨-1, []⟩
  evalRCode := fun _ _ => ""
  lastErrorMsg := "object JaspColumn_0_Encoded not found"

/-! ## `rbridge_readDataSetDescription` and `rbridge_readDataSetForFiltering` -/

/-- One record of the array that `rbridge_readDataSetDescription` returns. A pointer
field is `none` for `nullptr`. -/
structure RBridgeColumnDescription where
  name : Option String
  isScale : Bool
  hasLabels : Bool
  isOrdinal : Bool
  labels : Option (List String)
  nbLabels : Nat
  deriving DecidableEq, Repr

/-- A description as `calloc` leaves it. -/
def RBridgeColumnDescription.zeroed : RBridgeColumnDescription :=
  ⟨none, false, false, false, none, 0⟩

/-- The body of the column loop of `rbridge_readDataSetDescription`, once the column
is found. The divisor `1000.0f` of the label text is converted to the double `1000`,
so the text is `std::to_string((double)value / 1000)`. -/
def describeColumn (b : DataBridge) (columnInfo : RBridgeColumnType) (column : Column) :
    RBridgeColumnDescription :=
  let colType := column.type
  let requestedType := resolveRequestedType columnInfo column
  let resultCol : RBridgeColumnDescription :=
    { RBridgeColumnDescription.zeroed with name := some columnInfo.name }
  if requestedType = columnType.scale then
    let resultCol : RBridgeColumnDescription :=
      { resultCol with
        isScale := decide (colType = columnType.scale)
        hasLabels := decide (colType = columnType.nominalText)
        isOrdinal := decide (colType = columnType.ordinal) }
    if colType = columnType.nominalText then
      let got := rbridge_getLabels column.labels
      { resultCol with labels := some got.1, nbLabels := got.2 }
    else resultCol
  else
    let resultCol : RBridgeColumnDescription :=
      { resultCol with
        isScale := false
        hasLabels := true
        isOrdinal := decide (requestedType = columnType.ordinal) }
    if colType ≠ columnType.scale then
      let got := rbridge_getLabels column.labels
      { resultCol with labels := some got.1, nbLabels := got.2 }
    else
      let uniqueValues := collectUniqueValues b column.dbls []
      let labels := uniqueValues.map (bucketLabel b)
      let got := rbridge_getLabelsOfStrings labels
      { resultCol with labels := some got.1, nbLabels := got.2 }

/-- How a call of `rbridge_readDataSetDescription` ends. `nullDereference` is the
call `rbridge_dataSet->columns()` through a null `rbridge_dataSet`. -/
inductive DescriptionResult where
  | null
  | nullDereference
  | columnNotFound (name : String)
  | descriptions (resultCols : List RBridgeColumnDescription)
  deriving DecidableEq, Repr

/-- The column loop of `rbridge_readDataSetDescription` from `colNo` on, over the
array `resultCols`; it stops with the name of the first column that is not found. -/
def describeColumns (b : DataBridge) (dataSet : DataSet) :
    List RBridgeColumnType → Nat → List RBridgeColumnDescription →
      Option String × List RBridgeColumnDescription
  | [], _, resultCols => (none, resultCols)
  | columnInfo :: rest, colNo, resultCols =>
    let columnName := b.decode columnInfo.name
    match dataSet.column columnName with
    | none =>
      (some columnName,
        resultCols.set colNo { RBridgeColumnDescription.zeroed with name := some columnInfo.name })
    | some column =>
      describeColumns b dataSet rest (colNo + 1)
        (resultCols.set colNo (describeColumn b columnInfo column))

/-- The statics `resultCols` and `lastColMax` of `rbridge_readDataSetDescription`. -/
structure DescriptionSlot where
  resultCols : Option (List RBridgeColumnDescription)
  lastColMax : Nat
  deriving DecidableEq, Repr

/-- `rbridge_readDataSetDescription`. `columnsType` is `none` for `nullptr` and else
holds the `colMax` headers. The array of the call before is freed and a zeroed one
is put in the statics before the dataset is asked for. -/
def rbridge_readDataSetDescription (b : DataBridge)
    (columnsType : Option (List RBridgeColumnType)) (slot : DescriptionSlot) :
    DescriptionResult × DescriptionSlot :=
  match columnsType with
  | none => (DescriptionResult.null, slot)
  | some headers =>
    let colMax := headers.length
    let resultCols := List.replicate colMax RBridgeColumnDescription.zeroed
    match b.dataSetSource with
    | none => (DescriptionResult.nullDereference, ⟨some resultCols, colMax⟩)
    | some dataSet =>
      match describeColumns b dataSet headers 0 resultCols with
      | (some columnName, resultCols) =>
        (DescriptionResult.columnNotFound columnName, ⟨some resultCols, colMax⟩)
      | (none, resultCols) =>
        (DescriptionResult.descriptions resultCols, ⟨some resultCols, colMax⟩)

/-- The header loop of `rbridge_readDataSetForFiltering`: one header for every
column whose name is in `filterColumnsUsed`, while `iOut` is below the size of that
set. -/
def filterHeaders (encode : String → String) (filterColumnsUsed : List String) :
    List Column → Nat → List RBridgeColumnType
  | [], _ => []
  | column :: rest, iOut =>
    if iOut < filterColumnsUsed.length then
      if column.name ∈ filterColumnsUsed then
        ⟨encode column.name, column.type⟩ :: filterHeaders encode filterColumnsUsed rest (iOut + 1)
      else filterHeaders encode filterColumnsUsed rest iOut
    else []

/-- How a call of `rbridge_readDataSetForFiltering` ends. `nullDereference` is the
call `rbridge_dataSet->columns()` through a null `rbridge_dataSet`; `nullHeaderName`
is the decoding of a header that the header loop left zeroed, because fewer columns
than `colMax` bear a name of `filterColumnsUsed`. -/
inductive FilteringResult where
  | nullDereference
  | null
  | nullHeaderName
  | read (result : ReadResult)
  deriving DecidableEq, Repr

/-- `rbridge_readDataSetForFiltering`. The set `filterColumnsUsed` is the list of
its members, `encode` is `ColumnEncoder::encode`, `colMax` is the value behind the
pointer before the call and the second component of the result its value after. -/
def rbridge_readDataSetForFiltering (b : DataBridge) (encode : String → String)
    (filterColumnsUsed : List String) (colMax : Nat) (slot : Slot) :
    (FilteringResult × Nat) × Slot :=
  match b.dataSetSource with
  | none => ((FilteringResult.nullDereference, colMax), slot)
  | some dataSet =>
    let columns := dataSet.columns
    let colMax := filterColumnsUsed.length
    if colMax = 0 then ((FilteringResult.null, colMax), slot)
    else
      let colHeaders := filterHeaders encode filterColumnsUsed columns 0
      if colHeaders.length = colMax then
        let returnThis := rbridge_readDataSet b (some colHeaders) false slot
        ((FilteringResult.read returnThis.1, colMax), returnThis.2)
      else
        let slot := if slot.datasetStatic ≠ none then freeRBridgeColumns slot else slot
        let datasetStatic := (List.replicate (colMax + 1) RBridgeColumn.zeroed).set colMax
          (rowNumberRecord dataSet false)
        let filled := readColumns b dataSet false (effectiveRowCount dataSet false) colHeaders 0
          datasetStatic
        match filled.1 with
        | some columnName =>
          ((FilteringResult.read (ReadResult.columnNotFound columnName), colMax),
            { slot with datasetStatic := some filled.2, datasetColMax := colMax })
        | none =>
          ((FilteringResult.nullHeaderName, colMax),
            { slot with datasetStatic := some filled.2, datasetColMax := colMax })

/-- A dataset of an ordinal column `r` and a scale column `x`, two rows, nothing
filtered out. -/
def rankedDataSet : DataSet where
  rowCount := 2
  columns := [⟨"r", columnType.ordinal, [1, 2], [], [⟨1, "lo"⟩, ⟨2, "hi"⟩]⟩,
    ⟨"x", columnType.scale, [], [dblOne, dblTwoAndHalf], []⟩]
  filter := ⟨[true, true], 2⟩

/-- The headers that ask for the ordinal column as scale and the scale column as
ordinal. -/
def rankedHeadersCrossed : List RBridgeColumnType :=
  [⟨"r", columnType.scale⟩, ⟨"x", columnType.ordinal⟩]

/-- The headers that ask for both columns of `rankedDataSet` as nominal. -/
def rankedHeadersNominal : List RBridgeColumnType :=
  [⟨"r", columnType.nominal⟩, ⟨"x", columnType.nominal⟩]

/-- The description that the column loop of `rbridge_readDataSetDescription` leaves
for one header. -/
def descriptionFor (b : DataBridge) (dataSet : DataSet) (columnInfo : RBridgeColumnType) :
    RBridgeColumnDescription :=
  match dataSet.column (b.decode columnInfo.name) with
  | some column => describeColumn b columnInfo column
  | none => { RBridgeColumnDescription.zeroed with name := some columnInfo.name }

/-! ## One column under several filters -/

/-- The dataset with another filter. -/
def DataSet.withFilter (dataSet : DataSet) (filter : Filter) : DataSet :=
  { dataSet with filter := filter }

/-- The bridge whose dataset provider answers `dataSet`. -/
def DataBridge.withDataSet (b : DataBridge) (dataSet : DataSet) : DataBridge :=
  { b with dataSetSource := some dataSet }

/-- A dataset of one nominalText column `t` with the codes 7, missing, 5 over the
labels 5 and 7, and a filter that keeps rows 1 and 3. -/
def textDataSet : DataSet where
  rowCount := 3
  columns := [⟨"t", columnType.nominalText, [7, intLowest, 5], [], [⟨5, "low"⟩, ⟨7, "high"⟩]⟩]
  filter := ⟨[true, false, true], 2⟩

/-- The header that asks for the column `t` as scale. -/
def scaleHeaderT : List RBridgeColumnType := [⟨"t", columnType.scale⟩]

/-- A dataset of the scale column `x` with the values `1.0001` and `2.5`. -/
def twoValueDataSet : DataSet := scaleDataSet [dbl1_0001, dblTwoAndHalf]

/-- A filter over two rows that keeps the second row only. -/
def secondRowOnly : Filter := ⟨[false, true], 1⟩

/-- A filter over two rows that keeps both. -/
def bothRows : Filter := ⟨[true, true], 2⟩

/-! ## The filter evaluator -/

theorem buildBoolVector_take (r : List Bool) :
    ∀ i, i ≤ r.length → buildBoolVector r i = (r.take i, (r.take i).any id) := by
  intro i
  induction i with
  | zero => intro _; simp [buildBoolVector]
  | succ k ih =>
    intro hk
    have hlt : k < r.length := hk
    have h := ih (Nat.le_of_lt hlt)
    have hget : r.getD k false = r[k] := by
      simp [List.getD, List.getElem?_eq_getElem hlt]
    have htake : r.take (k + 1) = r.take k ++ [r[k]] := by
      rw [List.take_succ, List.getElem?_eq_getElem hlt]
      rfl
    simp only [buildBoolVector, h, hget, htake, List.any_append]
    simp

theorem buildBoolVector_full (r : List Bool) :
    buildBoolVector r r.length = (r, r.any id) := by
  have h := buildBoolVector_take r r.length (Nat.le_refl _)
  simpa using h

/-- With a safe script and a non-negative length, the result of `rbridge_applyFilter`
is decided by the two tests after the copy loop. -/
theorem applyFilter_checked (rt : Runtime) (n : Nat) (filterCode g : String) (r : List Bool)
    (hne : filterCode ≠ "*" ∧ filterCode ≠ "")
    (hsafe : rt.scriptIsSafe (filter64 rt filterCode g) = none)
    (hrun : rt.runFilter (filter64 rt filterCode g) = ⟨(r.length : Int), r⟩) :
    (rbridge_applyFilter rt (some n) filterCode g).result =
      if r.length = n ∧ r.any id = true then .ok r else .error filteredOutAllMsg := by
  obtain ⟨h1, h2⟩ := hne
  have hnneg : ¬ ((r.length : Int) < 0) := by omega
  simp only [rbridge_applyFilter, h1, h2, or_self, if_false, hsafe, hrun, hnneg]
  by_cases hlen : r.length = n
  · subst hlen
    simp only [if_true, Int.toNat_ofNat, buildBoolVector_full, true_and, ne_eq, not_true_eq_false]
    cases hany : r.any id <;> simp
  · have hlen2 : ¬ ((r.length : Int) = (n : Int)) := by omega
    simp [hlen, hlen2]

theorem rowcount_script_ne_detach (s t : String) :
    "rowcount    <- " ++ s ++ t ≠ detachScript "data" := by
  intro h
  have h2 := congrArg (fun u => u.data.head?) h
  simp [String.data_append, detachScript] at h2

theorem setup_script_ne_detach :
    setupReadDataScript "data" ".readFilterDatasetToEnd()" ≠ detachScript "data" := by
  decide

/-- The calls of `rbridge_applyFilter` once the script passed the safety check. -/
theorem applyFilter_trace (rt : Runtime) (n : Nat) (filterCode g : String)
    (hne : filterCode ≠ "*" ∧ filterCode ≠ "")
    (hsafe : rt.scriptIsSafe (filter64 rt filterCode g) = none) :
    (rbridge_applyFilter rt (some n) filterCode g).trace =
      [RCall.scriptIsSafe (filter64 rt filterCode g)] ++ rbridge_setupRCodeEnv n "data" ++
        [RCall.runFilter (filter64 rt filterCode g)] ++ rbridge_detachRCodeEnv "data" ++
        [if (rt.runFilter (filter64 rt filterCode g)).arrayLength < 0
          then RCall.getLastErrorMsg else RCall.freeArrayPointer] := by
  obtain ⟨h1, h2⟩ := hne
  simp only [rbridge_applyFilter, h1, h2, or_self, if_false, hsafe]
  by_cases hneg : (rt.runFilter (filter64 rt filterCode g)).arrayLength < 0
  · simp [hneg]
  · simp only [hneg, if_false]
    split_ifs <;> rfl

/-- C1 (code defect): on 3 rows, a safe non-trivial filter whose run returns the
boolean array `[true, true]` of length 2 makes `rbridge_applyFilter` throw
"Filtered out all data..", the failure of an all-false result; the shape-mismatch
message that reports the lengths 3 and 2 is a different text and is not thrown. -/
theorem applyFilter_wrong_length_thrown_as_vacuous :
    (rbridge_applyFilter (sampleRuntime ⟨2, [true, true]⟩) (some 3) "x > 1" "").result
        = .error "Filtered out all data.."
      ∧ shapeMismatchMsg 3 2 = "Filter did not return a logical vector of length 3 as expected, instead it returned a logical vector of length 2\n"
      ∧ "Filtered out all data.." ≠ shapeMismatchMsg 3 2 := by
  refine ⟨rfl, ?_, ?_⟩
  · decide
  · decide

/-- The defect behind C1 for every wrong length: the test of `atLeastOneRow` comes
first and the flag is only raised when the lengths agree. -/
theorem applyFilter_wrong_length_always_vacuous (rt : Runtime) (n : Nat)
    (filterCode g : String) (r : List Bool)
    (hne : filterCode ≠ "*" ∧ filterCode ≠ "")
    (hsafe : rt.scriptIsSafe (filter64 rt filterCode g) = none)
    (hrun : rt.runFilter (filter64 rt filterCode g) = ⟨(r.length : Int), r⟩)
    (hlen : r.length ≠ n) :
    (rbridge_applyFilter rt (some n) filterCode g).result = .error filteredOutAllMsg := by
  rw [applyFilter_checked rt n filterCode g r hne hsafe hrun]
  simp [hlen]

/-- C2: for a non-trivial filter that passes the safety check and whose run returns
the boolean array `r`, `rbridge_applyFilter` returns a mask exactly when `r` has
`rowCount` entries and one of them is `true`; the mask is then `r` itself, of length
`rowCount`; and an all-false `r` of length `rowCount` is thrown as a `filterException`. -/
theorem applyFilter_mask_iff (rt : Runtime) (n : Nat) (filterCode g : String) (r : List Bool)
    (hne : filterCode ≠ "*" ∧ filterCode ≠ "")
    (hsafe : rt.scriptIsSafe (filter64 rt filterCode g) = none)
    (hrun : rt.runFilter (filter64 rt filterCode g) = ⟨(r.length : Int), r⟩) :
    ((∃ mask, (rbridge_applyFilter rt (some n) filterCode g).result = .ok mask)
        ↔ (r.length = n ∧ true ∈ r))
      ∧ (∀ mask, (rbridge_applyFilter rt (some n) filterCode g).result = .ok mask →
          mask = r ∧ mask.length = n)
      ∧ (r.length = n → (∀ x ∈ r, x = false) →
          ∃ msg, (rbridge_applyFilter rt (some n) filterCode g).result = .error msg) := by
  have hres := applyFilter_checked rt n filterCode g r hne hsafe hrun
  have hany : (r.any id = true) ↔ true ∈ r := by simp [List.any_eq_true]
  by_cases hc : r.length = n ∧ r.any id = true
  · rw [if_pos hc] at hres
    refine ⟨⟨fun _ => ⟨hc.1, hany.1 hc.2⟩, fun _ => ⟨r, hres⟩⟩, ?_, ?_⟩
    · intro mask hm
      rw [hres] at hm
      cases hm
      exact ⟨rfl, hc.1⟩
    · intro _ hall
      have := hall true (hany.1 hc.2)
      cases this
  · rw [if_neg hc] at hres
    refine ⟨⟨?_, ?_⟩, ?_, ?_⟩
    · rintro ⟨mask, hm⟩
      rw [hres] at hm
      cases hm
    · rintro ⟨hl, ht⟩
      exact absurd ⟨hl, hany.2 ht⟩ hc
    · intro mask hm
      rw [hres] at hm
      cases hm
    · intro _ _
      exact ⟨_, hres⟩

theorem applyFilter_mask_iff_witness :
    ((∃ mask, (rbridge_applyFilter (sampleRuntime ⟨3, [true, false, true]⟩) (some 3)
          "x > 1" "").result = .ok mask)
        ↔ ([true, false, true].length = 3 ∧ true ∈ [true, false, true]))
      ∧ (∀ mask, (rbridge_applyFilter (sampleRuntime ⟨3, [true, false, true]⟩) (some 3)
          "x > 1" "").result = .ok mask →
          mask = [true, false, true] ∧ mask.length = 3)
      ∧ ([true, false, true].length = 3 → (∀ x ∈ [true, false, true], x = false) →
          ∃ msg, (rbridge_applyFilter (sampleRuntime ⟨3, [true, false, true]⟩) (some 3)
            "x > 1" "").result = .error msg) :=
  applyFilter_mask_iff (sampleRuntime ⟨3, [true, false, true]⟩) 3 "x > 1" ""
    [true, false, true] (by decide) rfl rfl

/-- C3: with a dataset of `n` rows, the filters "*" and "" both give a mask of
exactly `n` entries, all `true`, and the invocation issues no call at all, so none
to `scriptIsSafe`, `jaspRCPP_runScript` or `jaspRCPP_runFilter`. -/
theorem applyFilter_trivial_all_true (rt : Runtime) (n : Nat) (g : String) :
    ((rbridge_applyFilter rt (some n) "*" g).result = .ok (List.replicate n true)
        ∧ (rbridge_applyFilter rt (some n) "*" g).trace = [])
      ∧ ((rbridge_applyFilter rt (some n) "" g).result = .ok (List.replicate n true)
        ∧ (rbridge_applyFilter rt (some n) "" g).trace = [])
      ∧ (List.replicate n true).length = n
      ∧ (∀ x ∈ List.replicate n true, x = true)
      ∧ (∀ c ∈ (rbridge_applyFilter rt (some n) "*" g).trace ++
            (rbridge_applyFilter rt (some n) "" g).trace, c.isScriptOrSafety = false) := by
  refine ⟨⟨?_, ?_⟩, ⟨?_, ?_⟩, ?_, ?_, ?_⟩
  · simp [rbridge_applyFilter]
  · simp [rbridge_applyFilter]
  · simp [rbridge_applyFilter]
  · simp [rbridge_applyFilter]
  · simp
  · intro x hx
    exact (List.mem_replicate.1 hx).2
  · simp [rbridge_applyFilter]

/-- C4: when `scriptIsSafe` rejects the wrapped script with `what`, then
`rbridge_applyFilter` throws `what` and `rbridge_evalRCodeWhiteListed` stores `what`
as the error message and returns the refusal text; in both, no call in the trace
executes a script (`jaspRCPP_runScript`, `jaspRCPP_runFilter`, `jaspRCPP_evalRCode`). -/
theorem unsafe_script_is_never_run (rt : Runtime) (n : Nat) (dataSetRowCount : Option Nat)
    (filterCode g rCode what what2 : String) (setWd : Bool)
    (hne : filterCode ≠ "*" ∧ filterCode ≠ "")
    (hrej : rt.scriptIsSafe (filter64 rt filterCode g) = some what)
    (hrej2 : rt.scriptIsSafe (rCode64 rt rCode) = some what2) :
    ((rbridge_applyFilter rt (some n) filterCode g).result = .error what
        ∧ (rbridge_applyFilter rt (some n) filterCode g).trace
            = [RCall.scriptIsSafe (filter64 rt filterCode g)]
        ∧ ∀ c ∈ (rbridge_applyFilter rt (some n) filterCode g).trace, c.isExecution = false)
      ∧ ((rbridge_evalRCodeWhiteListed rt dataSetRowCount rCode setWd).result
            = .ok ("R code is not safe because of: " ++ what2)
        ∧ RCall.setErrorMsg what2 ∈ (rbridge_evalRCodeWhiteListed rt dataSetRowCount rCode setWd).trace
        ∧ ∀ c ∈ (rbridge_evalRCodeWhiteListed rt dataSetRowCount rCode setWd).trace,
            c.isExecution = false) := by
  obtain ⟨h1, h2⟩ := hne
  refine ⟨⟨?_, ?_, ?_⟩, ?_, ?_, ?_⟩
  · simp [rbridge_applyFilter, h1, h2, hrej]
  · simp [rbridge_applyFilter, h1, h2, hrej]
  · simp [rbridge_applyFilter, h1, h2, hrej, RCall.isExecution]
  · simp [rbridge_evalRCodeWhiteListed, hrej2]
  · simp [rbridge_evalRCodeWhiteListed, hrej2]
  · simp [rbridge_evalRCodeWhiteListed, hrej2, RCall.isExecution]

theorem unsafe_script_is_never_run_witness :
    ((rbridge_applyFilter (rejectingRuntime "system") (some 3) "system(1)" "").result
          = .error "system"
        ∧ (rbridge_applyFilter (rejectingRuntime "system") (some 3) "system(1)" "").trace
            = [RCall.scriptIsSafe (filter64 (rejectingRuntime "system") "system(1)" "")]
        ∧ ∀ c ∈ (rbridge_applyFilter (rejectingRuntime "system") (some 3) "system(1)" "").trace,
            c.isExecution = false)
      ∧ ((rbridge_evalRCodeWhiteListed (rejectingRuntime "system") (some 3) "system(1)" false).result
            = .ok ("R code is not safe because of: " ++ "system")
        ∧ RCall.setErrorMsg "system"
            ∈ (rbridge_evalRCodeWhiteListed (rejectingRuntime "system") (some 3) "system(1)" false).trace
        ∧ ∀ c ∈ (rbridge_evalRCodeWhiteListed (rejectingRuntime "system") (some 3)
              "system(1)" false).trace,
            c.isExecution = false) :=
  unsafe_script_is_never_run (rejectingRuntime "system") 3 (some 3) "system(1)" "" "system(1)"
    "system" "system" false (by decide) rfl rfl

/-- C5: in every invocation of `rbridge_applyFilter` that reaches
`rbridge_setupRCodeEnv`, the trace is the safety check, the two setup scripts, the
filter run, the detach script and then one call that executes nothing; the detach
script occurs exactly once, right after `jaspRCPP_runFilter`, whatever the run
returned (a negative length, a wrong length, an all-false array or a valid mask). -/
theorem applyFilter_detaches_exactly_once (rt : Runtime) (n : Nat) (filterCode g : String)
    (hne : filterCode ≠ "*" ∧ filterCode ≠ "")
    (hsafe : rt.scriptIsSafe (filter64 rt filterCode g) = none) :
    ∃ last, (rbridge_applyFilter rt (some n) filterCode g).trace =
        [RCall.scriptIsSafe (filter64 rt filterCode g)] ++ rbridge_setupRCodeEnv n "data" ++
          [RCall.runFilter (filter64 rt filterCode g), RCall.runScript (detachScript "data"), last]
      ∧ last.isExecution = false
      ∧ (rbridge_applyFilter rt (some n) filterCode g).trace.count
          (RCall.runScript (detachScript "data")) = 1 := by
  have htrace := applyFilter_trace rt n filterCode g hne hsafe
  refine ⟨if (rt.runFilter (filter64 rt filterCode g)).arrayLength < 0
          then RCall.getLastErrorMsg else RCall.freeArrayPointer, ?_, ?_, ?_⟩
  · rw [htrace]
    simp [rbridge_detachRCodeEnv]
  · split_ifs <;> rfl
  · rw [htrace]
    have hA := rowcount_script_ne_detach (toString (n : Int)) ";"
    have hB := setup_script_ne_detach
    have hA2 : ¬ (detachScript "data" = "rowcount    <- " ++ toString (n : Int) ++ ";") :=
      fun h => hA h.symm
    have hB2 : ¬ (detachScript "data" = setupReadDataScript "data" ".readFilterDatasetToEnd()") :=
      fun h => hB h.symm
    simp only [rbridge_setupRCodeEnv, rbridge_setupRCodeEnvReadData, rbridge_detachRCodeEnv,
      List.cons_append, List.nil_append, List.singleton_append]
    split_ifs <;>
      simp [List.count_cons, hA, hB, hA2, hB2]

theorem applyFilter_detaches_exactly_once_witness :
    ∃ last, (rbridge_applyFilter (sampleRuntime ⟨-1, []⟩) (some 3) "x > 1" "").trace =
        [RCall.scriptIsSafe (filter64 (sampleRuntime ⟨-1, []⟩) "x > 1" "")]
          ++ rbridge_setupRCodeEnv 3 "data" ++
          [RCall.runFilter (filter64 (sampleRuntime ⟨-1, []⟩) "x > 1" ""),
            RCall.runScript (detachScript "data"), last]
      ∧ last.isExecution = false
      ∧ (rbridge_applyFilter (sampleRuntime ⟨-1, []⟩) (some 3) "x > 1" "").trace.count
          (RCall.runScript (detachScript "data")) = 1 :=
  applyFilter_detaches_exactly_once (sampleRuntime ⟨-1, []⟩) 3 "x > 1" "" (by decide) rfl

/-! ## The copy loops -/

theorem set_append_replicate {β : Type} (A : List β) (m : Nat) (z v : β) :
    (A ++ List.replicate (m + 1) z).set A.length v = (A ++ [v]) ++ List.replicate m z := by
  induction A with
  | nil => simp [List.replicate_succ]
  | cons a A ih => simpa using ih

theorem keptRows_succ (o : Bool) (f : List Bool) (n : Nat) :
    keptRows o f (n + 1) = keptRows o f n ++ (if rowKept o f n then [n] else []) := by
  simp only [keptRows, List.range_succ, List.filter_append]
  by_cases h : rowKept o f n = true <;> simp [List.filter, h]

theorem keptRows_append_of_le (o : Bool) (f : List Bool) (j : Nat) :
    ∀ k, j ≤ k → ∃ t, keptRows o f k = keptRows o f j ++ t := by
  intro k hk
  induction k with
  | zero =>
    have : j = 0 := by omega
    subst this
    exact ⟨[], by simp⟩
  | succ k ih =>
    by_cases hjk : j = k + 1
    · subst hjk
      exact ⟨[], by simp⟩
    · obtain ⟨t, ht⟩ := ih (by omega)
      refine ⟨t ++ (if rowKept o f k then [k] else []), ?_⟩
      rw [keptRows_succ, ht, List.append_assoc]

theorem keptRows_length_mono (o : Bool) (f : List Bool) (j k : Nat) (h : j ≤ k) :
    (keptRows o f j).length ≤ (keptRows o f k).length := by
  obtain ⟨t, ht⟩ := keptRows_append_of_le o f j k h
  rw [ht, List.length_append]
  omega

theorem keptRows_eq_of_length (o : Bool) (f : List Bool) (j k : Nat) (h : j ≤ k)
    (hlen : (keptRows o f k).length ≤ (keptRows o f j).length) :
    keptRows o f k = keptRows o f j := by
  obtain ⟨t, ht⟩ := keptRows_append_of_le o f j k h
  rw [ht, List.length_append] at hlen
  have : t = [] := List.length_eq_zero.1 (by omega)
  rw [ht, this, List.append_nil]

theorem keptRows_lt (o : Bool) (f : List Bool) (n : Nat) :
    ∀ i ∈ keptRows o f n, i < n := by
  intro i hi
  have := (List.mem_filter.1 hi).1
  exact List.mem_range.1 this

theorem keptRows_no_filter (f : List Bool) (n : Nat) : keptRows false f n = List.range n := by
  simp [keptRows, rowKept]

theorem keptRows_count (f : List Bool) :
    ∀ k, k ≤ f.length → (keptRows true f k).length = (f.take k).count true := by
  intro k
  induction k with
  | zero => intro _; simp [keptRows]
  | succ k ih =>
    intro hk
    have hlt : k < f.length := hk
    rw [keptRows_succ, List.length_append, ih (Nat.le_of_lt hlt), List.take_succ,
      List.getElem?_eq_getElem hlt, List.count_append]
    have hget : f.getD k false = f[k] := by
      simp [List.getD, List.getElem?_eq_getElem hlt]
    simp only [rowKept, Bool.not_true, Bool.false_or, hget]
    cases f[k] <;> simp

theorem copyRows_stop {α β : Type} (o : Bool) (f : List Bool) (frc : Nat) (conv : α → β) :
    ∀ (vs : List α) (out : List β) (rowNo ds : Nat), frc ≤ rowNo →
      (copyRows o f frc conv vs out rowNo ds).1 = out := by
  intro vs
  induction vs with
  | nil => intros; rfl
  | cons v rest ih =>
    intro out rowNo ds h
    have hn : ¬ rowNo < frc := by omega
    simp only [copyRows, hn, if_false]
    exact ih out rowNo ds h

/-- The invariant of the copy loop: after the values `pre`, the payload holds the
converted values of the kept rows among them, followed by untouched cells. -/
theorem copyRows_invariant {α β : Type} (o : Bool) (f : List Bool) (frc : Nat) (conv : α → β)
    (z : β) (d : α) (vs : List α)
    (hfit : (keptRows o f vs.length).length ≤ frc) :
    ∀ (suf pre : List α) (ds : Nat), vs = pre ++ suf → (o = true → ds = pre.length) →
      (copyRows o f frc conv suf
          ((keptRows o f pre.length).map (fun i => conv (vs.getD i d))
            ++ List.replicate (frc - (keptRows o f pre.length).length) z)
          (keptRows o f pre.length).length ds).1
        = (keptRows o f vs.length).map (fun i => conv (vs.getD i d))
            ++ List.replicate (frc - (keptRows o f vs.length).length) z := by
  intro suf
  induction suf with
  | nil =>
    intro pre ds hvs _
    have : vs = pre := by simpa using hvs
    subst this
    rfl
  | cons v rest ih =>
    intro pre ds hvs hds
    have hvs2 : vs = (pre ++ [v]) ++ rest := by simp [hvs]
    have hlen : pre.length ≤ vs.length := by simp [hvs]
    have hlen1 : pre.length + 1 ≤ vs.length := by simp [hvs]
    have hv : vs.getD pre.length d = v := by
      rw [hvs, List.getD_eq_getElem?_getD, List.getElem?_append_right (Nat.le_refl _)]
      simp
    by_cases hrow : (keptRows o f pre.length).length < frc
    · have hsucc := keptRows_succ o f pre.length
      have hstep : ∀ ds2, (o = true → ds2 = (pre ++ [v]).length) → rowKept o f pre.length = true →
          (copyRows o f frc conv rest
            (((keptRows o f pre.length).map (fun i => conv (vs.getD i d))
              ++ List.replicate (frc - (keptRows o f pre.length).length) z).set
                (keptRows o f pre.length).length (conv v))
            ((keptRows o f pre.length).length + 1) ds2).1
          = (keptRows o f vs.length).map (fun i => conv (vs.getD i d))
              ++ List.replicate (frc - (keptRows o f vs.length).length) z := by
        intro ds2 hds2 hk
        have hK : keptRows o f (pre ++ [v]).length = keptRows o f pre.length ++ [pre.length] := by
          simp [hsucc, hk]
        have hrep : frc - (keptRows o f pre.length).length
            = (frc - (keptRows o f pre.length).length - 1) + 1 := by omega
        have hset := set_append_replicate
          ((keptRows o f pre.length).map (fun i => conv (vs.getD i d)))
          (frc - (keptRows o f pre.length).length - 1) z (conv v)
        rw [List.length_map, ← hrep] at hset
        rw [hset]
        have := ih (pre ++ [v]) ds2 hvs2 hds2
        rw [hK] at this
        simp only [List.map_append, List.map_cons, List.map_nil, List.length_append,
          List.length_singleton, hv] at this
        have hsub : frc - ((keptRows o f pre.length).length + 1)
            = frc - (keptRows o f pre.length).length - 1 := by omega
        rw [hsub] at this
        exact this
      cases o with
      | true =>
        have hdsv : ds = pre.length := hds rfl
        by_cases hk : f.getD pre.length false = true
        · have hkept : rowKept true f pre.length = true := by
            rw [rowKept, hk]
            rfl
          rw [copyRows, if_pos hrow, if_pos rfl, hdsv, if_pos hk]
          exact hstep (pre.length + 1) (by simp) hkept
        · have hkept : rowKept true f pre.length = false := by
            simp only [rowKept, Bool.not_true, Bool.false_or]
            simpa using hk
          rw [copyRows, if_pos hrow, if_pos rfl, hdsv, if_neg hk]
          have hK : keptRows true f (pre ++ [v]).length = keptRows true f pre.length := by
            simp [hsucc, hkept]
          have := ih (pre ++ [v]) (pre.length + 1) hvs2 (by simp)
          rw [hK] at this
          simpa using this
      | false =>
        have hkept : rowKept false f pre.length = true := by simp [rowKept]
        rw [copyRows, if_pos hrow, if_neg (by simp)]
        exact hstep ds (by simp) hkept
    · have hge : frc ≤ (keptRows o f pre.length).length := by omega
      rw [copyRows_stop o f frc conv _ _ _ _ hge]
      have hle := keptRows_length_mono o f pre.length vs.length hlen
      have heq := keptRows_eq_of_length o f pre.length vs.length hlen (by omega)
      rw [heq]

theorem rowNumberStep_cond (o : Bool) (f : List Bool) (i : Nat) :
    (o = false ∨ (f.length > i ∧ f.getD i false = true)) ↔ rowKept o f i = true := by
  cases o with
  | false => simp [rowKept]
  | true =>
    simp only [rowKept, Bool.not_true, Bool.false_or, false_or, Bool.true_eq_false]
    constructor
    · exact fun h => h.2
    · intro h
      refine ⟨?_, h⟩
      by_contra hlt
      have hge : f.length ≤ i := by omega
      rw [List.getD_eq_getElem?_getD, List.getElem?_eq_none hge] at h
      simp at h

/-- The invariant of the row-number loop. -/
theorem rowNumbers_invariant (o : Bool) (f : List Bool) (frc : Nat) :
    ∀ n, (keptRows o f n).length ≤ frc →
      (List.range n).foldl (rowNumberStep o f frc) (List.replicate frc 0, 0)
        = ((keptRows o f n).map (fun (i : Nat) => (i : Int) + 1)
            ++ List.replicate (frc - (keptRows o f n).length) 0, (keptRows o f n).length) := by
  intro n
  induction n with
  | zero => intro _; simp [keptRows]
  | succ n ih =>
    intro hfit
    have hmono := keptRows_length_mono o f n (n + 1) (Nat.le_succ n)
    have hsucc := keptRows_succ o f n
    rw [List.range_succ, List.foldl_append, ih (by omega)]
    simp only [List.foldl_cons, List.foldl_nil, rowNumberStep, rowNumberStep_cond]
    by_cases hk : rowKept o f n = true
    · have hK : keptRows o f (n + 1) = keptRows o f n ++ [n] := by simp [hsucc, hk]
      have hlt : (keptRows o f n).length < frc := by
        rw [hK, List.length_append, List.length_singleton] at hfit
        omega
      rw [if_pos ⟨hlt, hk⟩]
      have hrep : frc - (keptRows o f n).length = (frc - (keptRows o f n).length - 1) + 1 := by
        omega
      have hset := set_append_replicate ((keptRows o f n).map (fun (i : Nat) => (i : Int) + 1))
        (frc - (keptRows o f n).length - 1) (0 : Int) ((n : Int) + 1)
      rw [List.length_map, ← hrep] at hset
      rw [hset, hK]
      have hsub : frc - ((keptRows o f n).length + 1) = frc - (keptRows o f n).length - 1 := by
        omega
      simp [hsub]
    · have hK : keptRows o f (n + 1) = keptRows o f n := by simp [hsucc, hk]
      rw [if_neg (fun h => hk h.2), hK]

/-- The number of surviving rows is the effective row count. -/
theorem survivingRows_length (dataSet : DataSet) (o : Bool)
    (hmask : o = true → dataSet.maskConsistent) :
    (survivingRows dataSet o).length = effectiveRowCount dataSet o := by
  cases o with
  | false => simp [survivingRows, keptRows_no_filter, effectiveRowCount]
  | true =>
    obtain ⟨hlen, hcount⟩ := hmask rfl
    have h := keptRows_count dataSet.filter.filtered dataSet.rowCount (by omega)
    rw [← hlen, List.take_length] at h
    simp only [survivingRows, effectiveRowCount, if_true]
    rw [← hlen, h, hcount]

/-- The trailing record holds the 1-based numbers of the surviving rows. -/
theorem rowNumbers_eq (dataSet : DataSet) (o : Bool)
    (hmask : o = true → dataSet.maskConsistent) :
    rowNumbers o dataSet.filter.filtered dataSet.rowCount (effectiveRowCount dataSet o)
      = (survivingRows dataSet o).map (fun (i : Nat) => (i : Int) + 1) := by
  have hlen := survivingRows_length dataSet o hmask
  have h := rowNumbers_invariant o dataSet.filter.filtered (effectiveRowCount dataSet o)
    dataSet.rowCount (by rw [← hlen]; exact Nat.le_refl _)
  simp only [rowNumbers, h]
  simp only [survivingRows] at hlen
  simp [survivingRows, hlen]

/-- A copy loop leaves the converted values of the surviving rows, in row order. -/
theorem copiedPayload_eq {α β : Type} (dataSet : DataSet) (o : Bool) (z : β) (d : α)
    (conv : α → β) (vs : List α)
    (hmask : o = true → dataSet.maskConsistent) (hvs : vs.length = dataSet.rowCount) :
    copiedPayload dataSet o (effectiveRowCount dataSet o) z conv vs
      = (survivingRows dataSet o).map (fun i => conv (vs.getD i d)) := by
  have hlen := survivingRows_length dataSet o hmask
  simp only [survivingRows] at hlen
  have h := copyRows_invariant o dataSet.filter.filtered (effectiveRowCount dataSet o) conv z d vs
    (by rw [hvs, hlen]) vs [] 0 (by simp) (by
      intro _
      rfl)
  simp only [List.length_nil, keptRows, List.range_zero, List.filter_nil, List.map_nil,
    List.nil_append, Nat.sub_zero] at h
  simp only [copiedPayload, survivingRows, keptRows]
  rw [h, hvs]
  simp only [keptRows] at hlen
  simp [hlen]

theorem intArray_cells (n : Nat) (cells : List Int) (h : cells.length = n) :
    (intArray n cells).getD [] = cells := by
  unfold intArray
  by_cases hn : n = 0
  · subst hn
    simp [List.length_eq_zero.1 h]
  · simp [hn]

/-- The column loop fills the buffer with one record per header. -/
theorem readColumns_all_found (b : DataBridge) (dataSet : DataSet) (o : Bool) :
    ∀ (headers : List RBridgeColumnType) (done rest : List RBridgeColumn),
      allFound b dataSet headers →
      readColumns b dataSet o (effectiveRowCount dataSet o) headers done.length
          (done ++ List.replicate headers.length RBridgeColumn.zeroed ++ rest)
        = (none, done ++ headers.map (recordFor b dataSet o) ++ rest) := by
  intro headers
  induction headers with
  | nil => intro done rest _; simp [readColumns]
  | cons h hs ih =>
    intro done rest hfound
    have hh : (dataSet.column (b.decode h.name)).isSome = true := hfound h (by simp)
    obtain ⟨column, hcol⟩ := Option.isSome_iff_exists.1 hh
    have hrest : allFound b dataSet hs := fun x hx => hfound x (by simp [hx])
    simp only [readColumns, hcol]
    have hset : (done ++ List.replicate (h :: hs).length RBridgeColumn.zeroed ++ rest).set
        done.length (readColumn b dataSet o (effectiveRowCount dataSet o) h column)
        = (done ++ [readColumn b dataSet o (effectiveRowCount dataSet o) h column])
            ++ List.replicate hs.length RBridgeColumn.zeroed ++ rest := by
      rw [List.append_assoc, List.length_cons, List.replicate_succ]
      simp [List.set_append]
    rw [hset]
    have := ih (done ++ [readColumn b dataSet o (effectiveRowCount dataSet o) h column]) rest hrest
    rw [List.length_append, List.length_singleton] at this
    rw [this]
    simp [recordFor, hcol]

/-- With a dataset and every requested column present, `rbridge_readDataSet` returns
the buffer of one record per header followed by the row-number record. -/
theorem readDataSet_buffer (b : DataBridge) (dataSet : DataSet) (headers : List RBridgeColumnType)
    (o : Bool) (slot : Slot) (hsrc : b.dataSetSource = some dataSet)
    (hfound : allFound b dataSet headers) :
    (rbridge_readDataSet b (some headers) o slot).1
      = ReadResult.buffer (headers.map (recordFor b dataSet o) ++ [rowNumberRecord dataSet o]) := by
  have hinit : (List.replicate (headers.length + 1) RBridgeColumn.zeroed).set headers.length
      (rowNumberRecord dataSet o)
      = [] ++ List.replicate headers.length RBridgeColumn.zeroed ++ [rowNumberRecord dataSet o] := by
    have := set_append_replicate (List.replicate headers.length RBridgeColumn.zeroed) 0
      RBridgeColumn.zeroed (rowNumberRecord dataSet o)
    rw [← List.replicate_add, List.length_replicate] at this
    simpa using this
  have hcols := readColumns_all_found b dataSet o headers [] [rowNumberRecord dataSet o] hfound
  simp only [rbridge_readDataSet, hsrc]
  rw [hinit]
  simp only [List.length_nil] at hcols
  rw [hcols]
  simp

/-! ## The exchange buffer -/

theorem rowNumberRecord_cells (dataSet : DataSet) (o : Bool)
    (hmask : o = true → dataSet.maskConsistent) :
    (rowNumberRecord dataSet o).intCells
      = (survivingRows dataSet o).map (fun (i : Nat) => (i : Int) + 1) := by
  have hlen := survivingRows_length dataSet o hmask
  simp only [rowNumberRecord, RBridgeColumn.intCells]
  rw [rowNumbers_eq dataSet o hmask]
  exact intArray_cells _ _ (by simp [hlen])

theorem buffer_trailing (cols : List RBridgeColumn) (t : RBridgeColumn) (n : Nat)
    (h : cols.length = n) : (cols ++ [t])[n]? = some t := by
  subst h
  simp

theorem buffer_record {α : Type} (hs : List α) (g : α → RBridgeColumn) (t : RBridgeColumn)
    (j : Nat) (hj : j < hs.length) : (hs.map g ++ [t])[j]? = some (g hs[j]) := by
  rw [List.getElem?_append_left (by simpa using hj)]
  simp [hj]

theorem survivingRows_pairwise (dataSet : DataSet) (o : Bool) :
    ((survivingRows dataSet o).map (fun (i : Nat) => (i : Int) + 1)).Pairwise (· < ·) := by
  rw [List.pairwise_map]
  have h : (survivingRows dataSet o).Pairwise (· < ·) :=
    List.Pairwise.filter _ (List.pairwise_lt_range _)
  exact h.imp (fun hab => by omega)

/-- C6: the trailing record written by `rbridge_readDataSet` at index `colMax` has
`filteredRowCount` (with `obeyFilter`) or `rowCount` (without) rows; with
`obeyFilter` its payload is the list of `i + 1` over the rows `i` whose mask entry is
set, in row order; without, it is `1, 2, ..., rowCount`; it is strictly increasing. -/
theorem readDataSet_row_numbers (b : DataBridge) (dataSet : DataSet)
    (headers : List RBridgeColumnType) (o : Bool) (slot : Slot)
    (hsrc : b.dataSetSource = some dataSet) (hfound : allFound b dataSet headers)
    (hmask : o = true → dataSet.maskConsistent) :
    ∃ records trailing,
      (rbridge_readDataSet b (some headers) o slot).1 = ReadResult.buffer records
      ∧ records[headers.length]? = some trailing
      ∧ trailing.nbRows = (if o then dataSet.filter.filteredRowCount else dataSet.rowCount)
      ∧ trailing.intCells.length = trailing.nbRows
      ∧ (o = true → trailing.intCells
          = ((List.range dataSet.rowCount).filter
              (fun i => dataSet.filter.filtered.getD i false)).map (fun (i : Nat) => (i : Int) + 1))
      ∧ (o = false → trailing.intCells
          = (List.range dataSet.rowCount).map (fun (i : Nat) => (i : Int) + 1))
      ∧ trailing.intCells.Pairwise (· < ·) := by
  have hcells := rowNumberRecord_cells dataSet o hmask
  have hlen := survivingRows_length dataSet o hmask
  refine ⟨_, rowNumberRecord dataSet o, readDataSet_buffer b dataSet headers o slot hsrc hfound,
    buffer_trailing _ _ _ (by simp), ?_, ?_, ?_, ?_, ?_⟩
  · simp [rowNumberRecord, effectiveRowCount]
  · rw [hcells, List.length_map, hlen]
    simp [rowNumberRecord]
  · intro ho
    subst ho
    rw [hcells]
    have hfun : rowKept true dataSet.filter.filtered
        = fun i => dataSet.filter.filtered.getD i false := by
      funext i
      simp [rowKept]
    simp only [survivingRows, keptRows, hfun]
  · intro ho
    subst ho
    rw [hcells]
    simp [survivingRows, keptRows_no_filter]
  · rw [hcells]
    exact survivingRows_pairwise dataSet o

theorem sample_allFound : allFound sampleBridge sampleDataSet sampleHeaders := by
  intro h hh
  simp only [sampleHeaders, List.mem_cons, List.mem_singleton, List.not_mem_nil, or_false] at hh
  rcases hh with rfl | rfl <;> rfl

theorem readDataSet_row_numbers_witness :
    ∃ records trailing,
      (rbridge_readDataSet sampleBridge (some sampleHeaders) true ⟨none, 0⟩).1
        = ReadResult.buffer records
      ∧ records[2]? = some trailing ∧ trailing.nbRows = 2 ∧ trailing.intCells = [1, 3] := by
  obtain ⟨records, trailing, h1, h2, h3, _, h5, _, _⟩ :=
    readDataSet_row_numbers sampleBridge sampleDataSet sampleHeaders true ⟨none, 0⟩ rfl
      sample_allFound (fun _ => ⟨rfl, rfl⟩)
  exact ⟨records, trailing, h1, h2, h3, (h5 rfl).trans (by decide)⟩

theorem column_mem (dataSet : DataSet) (name : String) (column : Column)
    (h : dataSet.column name = some column) : column ∈ dataSet.columns :=
  List.mem_of_find?_eq_some h

theorem map_rowNumber_back {γ : Type} (rows : List Nat) (g : Nat → γ) :
    (rows.map (fun (i : Nat) => (i : Int) + 1)).map (fun r => g (r - 1).toNat) = rows.map g := by
  rw [List.map_map]
  apply List.map_congr_left
  intro i _
  simp

/-- The cells of the record that `readColumn` builds are the converted values of the
surviving rows. -/
theorem readColumn_cells (b : DataBridge) (dataSet : DataSet) (o : Bool)
    (columnInfo : RBridgeColumnType) (column : Column)
    (hmask : o = true → dataSet.maskConsistent) (hrows : column.storedRows = dataSet.rowCount) :
    (readColumn b dataSet o (effectiveRowCount dataSet o) columnInfo column).cells
      = (survivingRows dataSet o).map (convertedValue b columnInfo column) := by
  have hlen := survivingRows_length dataSet o hmask
  have hint : ∀ (α : Type) (d : α) (conv : α → Int) (vs : List α), vs.length = dataSet.rowCount →
      (intArray (effectiveRowCount dataSet o)
        (copiedPayload dataSet o (effectiveRowCount dataSet o) (0 : Int) conv vs)).getD []
        = (survivingRows dataSet o).map (fun i => conv (vs.getD i d)) := by
    intro α d conv vs hvs
    rw [copiedPayload_eq dataSet o 0 d conv vs hmask hvs]
    exact intArray_cells _ _ (by simp [hlen])
  unfold Column.storedRows at hrows
  by_cases hreq : resolveRequestedType columnInfo column = columnType.scale
  · by_cases hcol : column.type = columnType.scale
    · rw [if_pos hcol] at hrows
      simp only [readColumn, hreq, hcol, if_true, RBridgeColumn.cells, RBridgeColumn.doubleCells,
        Option.getD_some, convertedValue]
      rw [copiedPayload_eq dataSet o Dbl.zero Dbl.zero id column.dbls hmask hrows, List.map_map]
      apply List.map_congr_left
      intro i _
      simp [convertedValue, hreq, hcol]
    · rw [if_neg hcol] at hrows
      by_cases hcoded : column.type = columnType.ordinal ∨ column.type = columnType.nominal
      · simp only [readColumn, hreq, hcol, hcoded, if_true, if_false, RBridgeColumn.cells,
          RBridgeColumn.intCells, convertedValue]
        rw [hint Int 0 id column.ints hrows, if_neg (by simp), List.map_map]
        apply List.map_congr_left
        intro i _
        simp [convertedValue, hreq, hcol, hcoded]
      · simp only [readColumn, hreq, hcol, hcoded, if_true, if_false, RBridgeColumn.cells,
          RBridgeColumn.intCells, convertedValue, setResultColIntsLabels]
        rw [hint Int 0 _ column.ints hrows, if_neg (by simp), List.map_map]
        apply List.map_congr_left
        intro i _
        simp [convertedValue, hreq, hcol, hcoded]
  · by_cases hcol : column.type = columnType.scale
    · rw [if_pos hcol] at hrows
      simp only [readColumn, hreq, hcol, if_false, RBridgeColumn.cells,
        RBridgeColumn.intCells, convertedValue, scaleToNominal, ne_eq, not_true_eq_false]
      rw [hint Dbl Dbl.zero _ column.dbls hrows, if_neg (by simp), List.map_map]
      apply List.map_congr_left
      intro i _
      simp [convertedValue, hreq, hcol]
    · rw [if_neg hcol] at hrows
      simp only [readColumn, hreq, hcol, if_false, RBridgeColumn.cells,
        RBridgeColumn.intCells, convertedValue, setResultColIntsLabels, ne_eq, not_false_eq_true,
        if_true]
      rw [hint Int 0 _ column.ints hrows, if_neg (by simp), List.map_map]
      apply List.map_congr_left
      intro i _
      simp [convertedValue, hreq, hcol]

theorem readColumn_nbRows (b : DataBridge) (dataSet : DataSet) (o : Bool) (n : Nat)
    (columnInfo : RBridgeColumnType) (column : Column) :
    (readColumn b dataSet o n columnInfo column).nbRows = n := by
  unfold readColumn
  simp only [setResultColIntsLabels, scaleToNominal]
  split_ifs <;> rfl

/-- C7: every column record of the buffer has as many rows as the trailing record
(`filteredRowCount` with `obeyFilter`, `rowCount` without), and its payload is, cell
for cell, the converted value of the source row that the trailing record names at
the same position; the conversion is the one of the record's type branch. -/
theorem readDataSet_columns_aligned (b : DataBridge) (dataSet : DataSet)
    (headers : List RBridgeColumnType) (o : Bool) (slot : Slot)
    (hsrc : b.dataSetSource = some dataSet) (hfound : allFound b dataSet headers)
    (hmask : o = true → dataSet.maskConsistent) (hcols : dataSet.columnsConsistent) :
    ∃ records trailing,
      (rbridge_readDataSet b (some headers) o slot).1 = ReadResult.buffer records
      ∧ records.length = headers.length + 1
      ∧ records[headers.length]? = some trailing
      ∧ trailing.nbRows = (if o then dataSet.filter.filteredRowCount else dataSet.rowCount)
      ∧ trailing.intCells.length = trailing.nbRows
      ∧ ∀ (j : Nat) (hj : j < headers.length), ∃ column record,
          dataSet.column (b.decode headers[j].name) = some column
          ∧ records[j]? = some record
          ∧ record.nbRows = trailing.nbRows
          ∧ record.cells.length = trailing.nbRows
          ∧ record.cells = trailing.intCells.map
              (fun r => convertedValue b headers[j] column (r - 1).toNat) := by
  have hcells := rowNumberRecord_cells dataSet o hmask
  have hlen := survivingRows_length dataSet o hmask
  have hnb : (rowNumberRecord dataSet o).nbRows = effectiveRowCount dataSet o := by
    simp [rowNumberRecord]
  refine ⟨_, rowNumberRecord dataSet o, readDataSet_buffer b dataSet headers o slot hsrc hfound,
    by simp, buffer_trailing _ _ _ (by simp), ?_, ?_, ?_⟩
  · simp [rowNumberRecord, effectiveRowCount]
  · rw [hcells, List.length_map, hlen, hnb]
  · intro j hj
    have hh : (dataSet.column (b.decode headers[j].name)).isSome = true :=
      hfound headers[j] (List.getElem_mem hj)
    obtain ⟨column, hcol⟩ := Option.isSome_iff_exists.1 hh
    have hrows := hcols column (column_mem dataSet _ column hcol)
    have hrec : recordFor b dataSet o headers[j]
        = readColumn b dataSet o (effectiveRowCount dataSet o) headers[j] column := by
      simp [recordFor, hcol]
    have hc := readColumn_cells b dataSet o headers[j] column hmask hrows
    refine ⟨column, recordFor b dataSet o headers[j], hcol, buffer_record _ _ _ j hj, ?_, ?_, ?_⟩
    · rw [hrec, readColumn_nbRows, hnb]
    · rw [hrec, hc, List.length_map, hlen, hnb]
    · rw [hrec, hc, hcells, map_rowNumber_back]

theorem sample_columnsConsistent : sampleDataSet.columnsConsistent := by
  intro c hc
  simp only [sampleDataSet, List.mem_cons, List.mem_singleton, List.not_mem_nil, or_false] at hc
  rcases hc with rfl | rfl <;> rfl

theorem readDataSet_columns_aligned_witness :
    ∃ records trailing,
      (rbridge_readDataSet sampleBridge (some sampleHeaders) true ⟨none, 0⟩).1
        = ReadResult.buffer records
      ∧ records.length = sampleHeaders.length + 1
      ∧ records[sampleHeaders.length]? = some trailing
      ∧ trailing.nbRows
          = (if true then sampleDataSet.filter.filteredRowCount else sampleDataSet.rowCount)
      ∧ trailing.intCells.length = trailing.nbRows
      ∧ ∀ (j : Nat) (hj : j < sampleHeaders.length), ∃ column record,
          sampleDataSet.column (sampleBridge.decode sampleHeaders[j].name) = some column
          ∧ records[j]? = some record
          ∧ record.nbRows = trailing.nbRows
          ∧ record.cells.length = trailing.nbRows
          ∧ record.cells = trailing.intCells.map
              (fun r => convertedValue sampleBridge sampleHeaders[j] column (r - 1).toNat) :=
  readDataSet_columns_aligned sampleBridge sampleDataSet sampleHeaders true ⟨none, 0⟩ rfl
    sample_allFound (fun _ => ⟨rfl, rfl⟩) sample_columnsConsistent

theorem readDataSet_buffer_unique (b : DataBridge) (dataSet : DataSet)
    (headers : List RBridgeColumnType) (o : Bool) (slot : Slot) (records : List RBridgeColumn)
    (hsrc : b.dataSetSource = some dataSet) (hfound : allFound b dataSet headers)
    (h : (rbridge_readDataSet b (some headers) o slot).1 = ReadResult.buffer records) :
    records = headers.map (recordFor b dataSet o) ++ [rowNumberRecord dataSet o] := by
  rw [readDataSet_buffer b dataSet headers o slot hsrc hfound] at h
  injection h with h
  exact h.symm

theorem map_getD_range {α : Type} (l : List α) (d : α) :
    (List.range l.length).map (fun i => l.getD i d) = l := by
  apply List.ext_getElem
  · simp
  · intro n h1 h2
    simp [List.getD_eq_getElem?_getD, List.getElem?_eq_getElem h2]

theorem survivingRows_lt (dataSet : DataSet) (o : Bool) :
    ∀ (k i : Nat), (survivingRows dataSet o)[k]? = some i → i < dataSet.rowCount := by
  intro k i h
  exact keptRows_lt o dataSet.filter.filtered dataSet.rowCount i (List.getElem?_mem h)

theorem map_getElem?_of_some {γ : Type} (rows : List Nat) (g : Nat → γ) (k i : Nat)
    (h : rows[k]? = some i) : (rows.map g)[k]? = some (g i) := by
  simp [List.getElem?_map, h]

/-- C8: a scale column requested as scale is emitted with `isScale = true` and
`hasLabels = false`, and its doubles are the stored doubles of the surviving rows,
pattern for pattern and in row order, so a NaN stays the same NaN at its position;
without the filter the payload is the whole column. -/
theorem readDataSet_scale_verbatim (b : DataBridge) (dataSet : DataSet)
    (headers : List RBridgeColumnType) (o : Bool) (slot : Slot) (j : Nat)
    (hj : j < headers.length) (column : Column)
    (hsrc : b.dataSetSource = some dataSet) (hfound : allFound b dataSet headers)
    (hmask : o = true → dataSet.maskConsistent) (hrows : column.dbls.length = dataSet.rowCount)
    (hcol : dataSet.column (b.decode headers[j].name) = some column)
    (htype : column.type = columnType.scale)
    (hreq : resolveRequestedType headers[j] column = columnType.scale) :
    ∃ records record,
      (rbridge_readDataSet b (some headers) o slot).1 = ReadResult.buffer records
      ∧ records[j]? = some record
      ∧ record.isScale = true ∧ record.hasLabels = false
      ∧ record.doubleCells.length = (survivingRows dataSet o).length
      ∧ (∀ (k i : Nat), (survivingRows dataSet o)[k]? = some i →
          i < column.dbls.length ∧ record.doubleCells[k]? = column.dbls[i]?)
      ∧ (o = false → record.doubleCells = column.dbls) := by
  have hrec : recordFor b dataSet o headers[j]
      = readColumn b dataSet o (effectiveRowCount dataSet o) headers[j] column := by
    simp [recordFor, hcol]
  have hpay : (recordFor b dataSet o headers[j]).doubleCells
      = (survivingRows dataSet o).map (fun i => column.dbls.getD i Dbl.zero) := by
    rw [hrec]
    simp only [readColumn, hreq, htype, if_true, RBridgeColumn.doubleCells, Option.getD_some]
    rw [copiedPayload_eq dataSet o Dbl.zero Dbl.zero id column.dbls hmask hrows]
    rfl
  refine ⟨_, recordFor b dataSet o headers[j],
    readDataSet_buffer b dataSet headers o slot hsrc hfound, buffer_record _ _ _ j hj,
    ?_, ?_, ?_, ?_, ?_⟩
  · rw [hrec]
    simp [readColumn, hreq, htype]
  · rw [hrec]
    simp [readColumn, hreq, htype]
  · rw [hpay, List.length_map]
  · intro k i hk
    have hi : i < column.dbls.length := by
      rw [hrows]
      exact survivingRows_lt dataSet o k i hk
    refine ⟨hi, ?_⟩
    rw [hpay, map_getElem?_of_some _ _ k i hk, List.getD_eq_getElem?_getD,
      List.getElem?_eq_getElem hi]
    rfl
  · intro ho
    subst ho
    rw [hpay]
    simp only [survivingRows, keptRows_no_filter, ← hrows]
    exact map_getD_range column.dbls Dbl.zero

theorem readDataSet_scale_verbatim_witness :
    ∃ records record,
      (rbridge_readDataSet sampleBridge (some sampleHeaders) true ⟨none, 0⟩).1
        = ReadResult.buffer records
      ∧ records[0]? = some record
      ∧ record.isScale = true ∧ record.hasLabels = false
      ∧ record.doubleCells = [dblOne, dblNaN] := by
  obtain ⟨records, record, h1, h2, h3, h4, _, _, _⟩ :=
    readDataSet_scale_verbatim sampleBridge sampleDataSet sampleHeaders true ⟨none, 0⟩ 0
      (by decide) sampleScaleColumn rfl sample_allFound (fun _ => ⟨rfl, rfl⟩) rfl
      rfl rfl rfl
  refine ⟨records, record, h1, h2, h3, h4, ?_⟩
  have hr := readDataSet_buffer_unique sampleBridge sampleDataSet sampleHeaders true ⟨none, 0⟩
    records rfl sample_allFound h1
  subst hr
  have h5 : record = recordFor sampleBridge sampleDataSet true ⟨"x", columnType.unknown⟩ :=
    (Option.some.inj h2).symm
  subst h5
  rfl

theorem intintmap_at_assign (m : intintmap) (key value : Int) :
    (m.assign key value).at key = value := by
  simp [intintmap.assign, intintmap.at, List.lookup]

theorem buildIndices_at_absent :
    ∀ (labels : List Label) (i : Int) (m : intintmap) (v : Int),
      v ∉ labels.map Label.value → (buildIndices labels i m).at v = m.at v := by
  intro labels
  induction labels with
  | nil => intros; rfl
  | cons l rest ih =>
    intro i m v hv
    simp only [List.map_cons, List.mem_cons, not_or] at hv
    rw [buildIndices, ih (i + 1) _ v hv.2]
    have hne : (v == l.value) = false := by simpa using hv.1
    simp [intintmap.assign, intintmap.at, List.lookup, hne]

/-- The map `indices` sends a code that exactly one label bears to the 1-based
position of that label. -/
theorem buildIndices_at_unique :
    ∀ (labels : List Label) (i : Int) (m : intintmap) (v : Int),
      (labels.map Label.value).count v = 1 →
      ∃ p, p < labels.length ∧ labels[p]?.map Label.value = some v
        ∧ (buildIndices labels i m).at v = i + (p : Int) := by
  intro labels
  induction labels with
  | nil => intro i m v h; simp at h
  | cons l rest ih =>
    intro i m v h
    by_cases hl : l.value = v
    · have hrest : v ∉ rest.map Label.value := by
        rw [List.map_cons, hl, List.count_cons_self] at h
        exact List.count_eq_zero.1 (by omega)
      refine ⟨0, by simp, by simp [hl], ?_⟩
      rw [buildIndices, buildIndices_at_absent rest (i + 1) _ v hrest, hl, intintmap_at_assign]
      simp
    · have hcount : (rest.map Label.value).count v = 1 := by
        rw [List.map_cons, List.count_cons_of_ne (fun e => hl e.symm)] at h
        exact h
      obtain ⟨p, hp, hval, hat⟩ := ih (i + 1) (m.assign l.value i) v hcount
      refine ⟨p + 1, by simpa using hp, by simpa using hval, ?_⟩
      rw [buildIndices, hat]
      push_cast
      omega

/-- C9: for a column of type nominal, ordinal or nominalText read as a coded type,
in which every stored code is the sentinel or the code of exactly one label, the
record has `hasLabels = true`; at every emitted position the sentinel is emitted for
the sentinel, and any other code `v` is emitted as `p + 1` where `p` is the 0-based
position of the label with code `v`; so the index lies in `1 .. labels.size()` and
the emitted label text at position `p` is the text of that label. -/
theorem readDataSet_coded_indices (b : DataBridge) (dataSet : DataSet)
    (headers : List RBridgeColumnType) (o : Bool) (slot : Slot) (j : Nat)
    (hj : j < headers.length) (column : Column)
    (hsrc : b.dataSetSource = some dataSet) (hfound : allFound b dataSet headers)
    (hmask : o = true → dataSet.maskConsistent) (hrows : column.ints.length = dataSet.rowCount)
    (hcol : dataSet.column (b.decode headers[j].name) = some column)
    (htype : column.type = columnType.nominal ∨ column.type = columnType.ordinal
      ∨ column.type = columnType.nominalText)
    (hreq : resolveRequestedType headers[j] column ≠ columnType.scale)
    (hinv : ∀ v ∈ column.ints, v = intLowest ∨ (column.labels.map Label.value).count v = 1) :
    ∃ records record,
      (rbridge_readDataSet b (some headers) o slot).1 = ReadResult.buffer records
      ∧ records[j]? = some record
      ∧ record.isScale = false ∧ record.hasLabels = true
      ∧ record.intCells.length = (survivingRows dataSet o).length
      ∧ ∀ (k i : Nat), (survivingRows dataSet o)[k]? = some i →
          ∃ v, column.ints[i]? = some v
            ∧ (v = intLowest → record.intCells[k]? = some intLowest)
            ∧ (v ≠ intLowest → ∃ p, p < column.labels.length
                ∧ column.labels[p]?.map Label.value = some v
                ∧ record.intCells[k]? = some ((p : Int) + 1)
                ∧ 1 ≤ (p : Int) + 1 ∧ (p : Int) + 1 ≤ column.labels.length
                ∧ record.labelTexts[p]? = column.labels[p]?.map Label.label) := by
  have hscale : column.type ≠ columnType.scale := by
    rcases htype with h | h | h <;> simp [h]
  have hlen := survivingRows_length dataSet o hmask
  have hrec : recordFor b dataSet o headers[j]
      = setResultColIntsLabels dataSet o (effectiveRowCount dataSet o)
          (resolveRequestedType headers[j] column) column
          { RBridgeColumn.zeroed with
            name := some headers[j].name, nbRows := effectiveRowCount dataSet o } := by
    simp [recordFor, hcol, readColumn, hreq, hscale]
  have hpay : (recordFor b dataSet o headers[j]).intCells
      = (survivingRows dataSet o).map (fun i =>
          labelIndexOf (labelIndices (resolveRequestedType headers[j] column) column)
            (column.ints.getD i 0)) := by
    rw [hrec]
    simp only [setResultColIntsLabels, RBridgeColumn.intCells]
    rw [copiedPayload_eq dataSet o (0 : Int) (0 : Int) _ column.ints hmask hrows]
    exact intArray_cells _ _ (by simp [hlen])
  have hlab : (recordFor b dataSet o headers[j]).labelTexts = (rbridge_getLabels column.labels).1 := by
    rw [hrec]
    simp [setResultColIntsLabels, RBridgeColumn.labelTexts]
  refine ⟨_, recordFor b dataSet o headers[j],
    readDataSet_buffer b dataSet headers o slot hsrc hfound, buffer_record _ _ _ j hj,
    ?_, ?_, ?_, ?_⟩
  · rw [hrec]
    simp [setResultColIntsLabels]
  · rw [hrec]
    simp [setResultColIntsLabels]
  · rw [hpay, List.length_map]
  · intro k i hk
    have hi : i < column.ints.length := by
      rw [hrows]
      exact survivingRows_lt dataSet o k i hk
    have hget : column.ints.getD i 0 = column.ints[i] := by
      rw [List.getD_eq_getElem?_getD, List.getElem?_eq_getElem hi]
      rfl
    have hcell : (recordFor b dataSet o headers[j]).intCells[k]?
        = some (labelIndexOf (labelIndices (resolveRequestedType headers[j] column) column)
            column.ints[i]) := by
      rw [hpay, map_getElem?_of_some _ _ k i hk, hget]
    refine ⟨column.ints[i], List.getElem?_eq_getElem hi, ?_, ?_⟩
    · intro hv
      rw [hcell, hv]
      simp [labelIndexOf]
    · intro hv
      have hone : (column.labels.map Label.value).count column.ints[i] = 1 := by
        rcases hinv column.ints[i] (List.getElem_mem hi) with h | h
        · exact absurd h hv
        · exact h
      obtain ⟨p, hp, hval, hat⟩ := buildIndices_at_unique column.labels 1 [] column.ints[i] hone
      refine ⟨p, hp, hval, ?_, by omega, by omega, ?_⟩
      · rw [hcell]
        simp only [labelIndexOf, hv, if_false, labelIndices, hreq, ne_eq, not_false_eq_true,
          true_or, if_true, hat]
        rw [Int.add_comm]
      · rw [hlab]
        have hne : ¬ column.labels.length = 0 := by omega
        simp [rbridge_getLabels, hne]

theorem readDataSet_coded_indices_witness :
    ∃ records record,
      (rbridge_readDataSet sampleBridge (some sampleHeaders) true ⟨none, 0⟩).1
        = ReadResult.buffer records
      ∧ records[1]? = some record
      ∧ record.isScale = false ∧ record.hasLabels = true
      ∧ record.intCells = [2, 1] ∧ record.labelTexts = ["low", "high"] := by
  obtain ⟨records, record, h1, h2, h3, h4, _, _⟩ :=
    readDataSet_coded_indices sampleBridge sampleDataSet sampleHeaders true ⟨none, 0⟩ 1
      (by decide) sampleNominalColumn rfl sample_allFound (fun _ => ⟨rfl, rfl⟩) rfl
      rfl (Or.inl rfl) (by decide) (by decide)
  refine ⟨records, record, h1, h2, h3, h4, ?_, ?_⟩
  all_goals
    have hr := readDataSet_buffer_unique sampleBridge sampleDataSet sampleHeaders true ⟨none, 0⟩
      records rfl sample_allFound h1
    subst hr
    have h5 : record = recordFor sampleBridge sampleDataSet true ⟨"g", columnType.unknown⟩ :=
      (Option.some.inj h2).symm
    subst h5
    rfl

/-- C10: a nominal or ordinal column requested as scale is emitted with
`isScale = false`, `hasLabels = false` and no label array, and its ints are the
stored codes of the surviving rows, sentinel included, unchanged and in row order. -/
theorem readDataSet_codes_as_scale (b : DataBridge) (dataSet : DataSet)
    (headers : List RBridgeColumnType) (o : Bool) (slot : Slot) (j : Nat)
    (hj : j < headers.length) (column : Column)
    (hsrc : b.dataSetSource = some dataSet) (hfound : allFound b dataSet headers)
    (hmask : o = true → dataSet.maskConsistent) (hrows : column.ints.length = dataSet.rowCount)
    (hcol : dataSet.column (b.decode headers[j].name) = some column)
    (htype : column.type = columnType.nominal ∨ column.type = columnType.ordinal)
    (hreq : resolveRequestedType headers[j] column = columnType.scale) :
    ∃ records record,
      (rbridge_readDataSet b (some headers) o slot).1 = ReadResult.buffer records
      ∧ records[j]? = some record
      ∧ record.isScale = false ∧ record.hasLabels = false ∧ record.labels = none
      ∧ record.intCells.length = (survivingRows dataSet o).length
      ∧ (∀ (k i : Nat), (survivingRows dataSet o)[k]? = some i →
          i < column.ints.length ∧ record.intCells[k]? = column.ints[i]?)
      ∧ (o = false → record.intCells = column.ints) := by
  have hscale : column.type ≠ columnType.scale := by
    rcases htype with h | h <;> simp [h]
  have hcoded : column.type = columnType.ordinal ∨ column.type = columnType.nominal :=
    htype.symm
  have hlen := survivingRows_length dataSet o hmask
  have hrec : recordFor b dataSet o headers[j]
      = readColumn b dataSet o (effectiveRowCount dataSet o) headers[j] column := by
    simp [recordFor, hcol]
  have hpay : (recordFor b dataSet o headers[j]).intCells
      = (survivingRows dataSet o).map (fun i => column.ints.getD i 0) := by
    rw [hrec]
    simp only [readColumn, hreq, hscale, hcoded, if_true, if_false, RBridgeColumn.intCells]
    rw [copiedPayload_eq dataSet o (0 : Int) (0 : Int) id column.ints hmask hrows]
    exact intArray_cells _ _ (by simp [hlen])
  refine ⟨_, recordFor b dataSet o headers[j],
    readDataSet_buffer b dataSet headers o slot hsrc hfound, buffer_record _ _ _ j hj,
    ?_, ?_, ?_, ?_, ?_, ?_⟩
  · rw [hrec]
    simp [readColumn, hreq, hscale, hcoded]
  · rw [hrec]
    simp [readColumn, hreq, hscale, hcoded]
  · rw [hrec]
    simp [readColumn, hreq, hscale, hcoded, RBridgeColumn.zeroed]
  · rw [hpay, List.length_map]
  · intro k i hk
    have hi : i < column.ints.length := by
      rw [hrows]
      exact survivingRows_lt dataSet o k i hk
    refine ⟨hi, ?_⟩
    rw [hpay, map_getElem?_of_some _ _ k i hk, List.getD_eq_getElem?_getD,
      List.getElem?_eq_getElem hi]
    rfl
  · intro ho
    subst ho
    rw [hpay]
    simp only [survivingRows, keptRows_no_filter, ← hrows]
    exact map_getD_range column.ints 0

theorem sample_allFound_crossed : allFound sampleBridge sampleDataSet sampleHeadersCrossed := by
  intro h hh
  simp only [sampleHeadersCrossed, List.mem_cons, List.mem_singleton, List.not_mem_nil,
    or_false] at hh
  rcases hh with rfl | rfl <;> rfl

theorem readDataSet_codes_as_scale_witness :
    ∃ records record,
      (rbridge_readDataSet sampleBridge (some sampleHeadersCrossed) true ⟨none, 0⟩).1
        = ReadResult.buffer records
      ∧ records[1]? = some record
      ∧ record.isScale = false ∧ record.hasLabels = false ∧ record.labels = none
      ∧ record.intCells = [7, 5] := by
  obtain ⟨records, record, h1, h2, h3, h4, h5, _, _, _⟩ :=
    readDataSet_codes_as_scale sampleBridge sampleDataSet sampleHeadersCrossed true ⟨none, 0⟩ 1
      (by decide) sampleNominalColumn rfl sample_allFound_crossed (fun _ => ⟨rfl, rfl⟩)
      rfl rfl (Or.inl rfl) rfl
  refine ⟨records, record, h1, h2, h3, h4, h5, ?_⟩
  have hr := readDataSet_buffer_unique sampleBridge sampleDataSet sampleHeadersCrossed true
    ⟨none, 0⟩ records rfl sample_allFound_crossed h1
  subst hr
  have h6 : record = recordFor sampleBridge sampleDataSet true ⟨"g", columnType.scale⟩ :=
    (Option.some.inj h2).symm
  subst h6
  rfl

/-! ## The quantisation fallback -/

theorem intsetInsert_mem (x y : Int) (l : List Int) :
    y ∈ intsetInsert x l ↔ y = x ∨ y ∈ l := by
  induction l with
  | nil => simp [intsetInsert]
  | cons a t ih =>
    simp only [intsetInsert]
    split_ifs with h1 h2
    · simp
    · subst h2
      simp
    · simp only [List.mem_cons, ih]
      tauto

theorem intsetInsert_pairwise (x : Int) (l : List Int) (h : l.Pairwise (· < ·)) :
    (intsetInsert x l).Pairwise (· < ·) := by
  induction l with
  | nil => simp [intsetInsert]
  | cons a t ih =>
    obtain ⟨ha, ht⟩ := List.pairwise_cons.1 h
    simp only [intsetInsert]
    split_ifs with h1 h2
    · refine List.pairwise_cons.2 ⟨?_, h⟩
      intro y hy
      rcases List.mem_cons.1 hy with rfl | hy
      · exact h1
      · exact lt_trans h1 (ha y hy)
    · exact h
    · refine List.pairwise_cons.2 ⟨?_, ih ht⟩
      intro y hy
      rcases (intsetInsert_mem x y t).1 hy with rfl | hy
      · omega
      · exact ha y hy

theorem collectUniqueValues_mem (b : DataBridge) :
    ∀ (dbls : List Dbl) (acc : List Int) (x : Int),
      x ∈ collectUniqueValues b dbls acc ↔ x ∈ acc ∨ x ∈ nonNaNBuckets b dbls := by
  intro dbls
  induction dbls with
  | nil => intro acc x; simp [collectUniqueValues, nonNaNBuckets]
  | cons v rest ih =>
    intro acc x
    by_cases hv : v.isnan = true
    · simp only [collectUniqueValues, hv, if_true, ih]
      simp [nonNaNBuckets, hv]
    · have hv2 : v.isnan = false := by simpa using hv
      have hcons : nonNaNBuckets b (v :: rest) = bucketOf b v :: nonNaNBuckets b rest := by
        simp [nonNaNBuckets, hv2]
      rw [hcons]
      simp only [collectUniqueValues, hv, if_false, ih, intsetInsert_mem, List.mem_cons,
        Bool.false_eq_true]
      tauto

theorem collectUniqueValues_pairwise (b : DataBridge) :
    ∀ (dbls : List Dbl) (acc : List Int), acc.Pairwise (· < ·) →
      (collectUniqueValues b dbls acc).Pairwise (· < ·) := by
  intro dbls
  induction dbls with
  | nil => intro acc h; exact h
  | cons v rest ih =>
    intro acc h
    simp only [collectUniqueValues]
    split_ifs
    · exact ih acc h
    · exact ih _ (intsetInsert_pairwise _ _ h)

theorem pairwise_lt_nodup (u : List Int) (h : u.Pairwise (· < ·)) : u.Nodup :=
  h.imp (fun hab => ne_of_lt hab)

/-- The set `uniqueValues` holds the distinct buckets of the column. -/
theorem uniqueValues_perm (b : DataBridge) (dbls : List Dbl) :
    (collectUniqueValues b dbls []).Perm (distinctBuckets b dbls) := by
  refine (List.perm_ext_iff_of_nodup
    (pairwise_lt_nodup _ (collectUniqueValues_pairwise b dbls [] List.Pairwise.nil))
    (List.nodup_dedup _)).2 ?_
  intro x
  simp [collectUniqueValues_mem, distinctBuckets]

theorem sorted_filter_lt_length :
    ∀ (u : List Int), u.Pairwise (· < ·) → ∀ (k : Nat) (h : k < u.length),
      (u.filter (fun y => decide (y < u[k]))).length = k := by
  intro u
  induction u with
  | nil => intro _ k h; simp at h
  | cons a t ih =>
    intro hu k h
    obtain ⟨ha, ht⟩ := List.pairwise_cons.1 hu
    cases k with
    | zero =>
      have hnil : (a :: t).filter (fun y => decide (y < a)) = [] := by
        rw [List.filter_eq_nil_iff]
        intro y hy
        rcases List.mem_cons.1 hy with rfl | hy
        · simp
        · have := ha y hy
          simp only [decide_eq_true_eq]
          omega
      simp [hnil]
    | succ k =>
      have hk : k < t.length := by simpa using h
      have hlt : a < t[k] := ha _ (List.getElem_mem hk)
      have : (a :: t)[k + 1] = t[k] := rfl
      rw [this, List.filter_cons, if_pos (by simpa using hlt)]
      simp [ih ht k hk]

theorem indexBuckets_labels (b : DataBridge) :
    ∀ (u : List Int) (i : Int) (acc : intintmap × List String),
      (indexBuckets b u i acc).2 = acc.2 ++ u.map (bucketLabel b) := by
  intro u
  induction u with
  | nil => intro i acc; simp [indexBuckets]
  | cons a t ih =>
    intro i acc
    rw [indexBuckets, ih]
    simp

theorem indexBuckets_at_absent (b : DataBridge) :
    ∀ (u : List Int) (i : Int) (acc : intintmap × List String) (x : Int), x ∉ u →
      (indexBuckets b u i acc).1.at x = acc.1.at x := by
  intro u
  induction u with
  | nil => intros; rfl
  | cons a t ih =>
    intro i acc x hx
    simp only [List.mem_cons, not_or] at hx
    rw [indexBuckets, ih _ _ x hx.2]
    have hne : (x == a) = false := by simpa using hx.1
    simp [intintmap.assign, intintmap.at, List.lookup, hne]

/-- The map `valueToIndex` sends the bucket at position `k` of `uniqueValues` to
`index + k`. -/
theorem indexBuckets_at (b : DataBridge) :
    ∀ (u : List Int) (i : Int) (acc : intintmap × List String), u.Nodup →
      ∀ (k : Nat) (h : k < u.length), (indexBuckets b u i acc).1.at u[k] = i + (k : Int) := by
  intro u
  induction u with
  | nil => intro _ _ _ k h; simp at h
  | cons a t ih =>
    intro i acc hu k h
    obtain ⟨ha, ht⟩ := List.nodup_cons.1 hu
    cases k with
    | zero =>
      have : (a :: t)[0] = a := rfl
      rw [this, indexBuckets, indexBuckets_at_absent b t _ _ a ha]
      simp [intintmap_at_assign]
    | succ k =>
      have hk : k < t.length := by simpa using h
      have : (a :: t)[k + 1] = t[k] := rfl
      rw [this, indexBuckets, ih _ _ ht k hk]
      push_cast
      omega

theorem infinite_sign (v : Dbl) (hfin : v.isfinite = false) (hnan : v.isnan = false) :
    v.gtZero = !v.ltZero := by
  have hz : v.isZero = false := by
    simp only [Dbl.isfinite, decide_eq_false_iff_not, not_not] at hfin
    simp [Dbl.isZero, hfin]
  simp [Dbl.gtZero, Dbl.ltZero, hnan, hz]

/-- The third loop of the fallback looks up the bucket of the value. -/
theorem bucketIndexOf_eq (b : DataBridge) (m : intintmap) (v : Dbl) (hnan : v.isnan = false) :
    bucketIndexOf b m v = 1 + m.at (bucketOf b v) := by
  by_cases hfin : v.isfinite = true
  · simp [bucketIndexOf, bucketOf, hnan, hfin]
  · simp only [Bool.not_eq_true] at hfin
    have hs := infinite_sign v hfin hnan
    cases hlt : v.ltZero <;> simp [bucketIndexOf, bucketOf, hnan, hfin, hs, hlt]

/-- The index that the fallback emits for a value that is not NaN: one more than
the number of distinct buckets below its own. -/
theorem bucketIndexOf_rank (b : DataBridge) (dbls : List Dbl) (v : Dbl) (hv : v ∈ dbls)
    (hnan : v.isnan = false) :
    bucketIndexOf b (indexBuckets b (collectUniqueValues b dbls []) 0 ([], [])).1 v
      = 1 + (smallerBuckets b dbls (bucketOf b v) : Int) := by
  have hpw := collectUniqueValues_pairwise b dbls [] List.Pairwise.nil
  have hmem : bucketOf b v ∈ collectUniqueValues b dbls [] := by
    rw [collectUniqueValues_mem]
    right
    simp only [nonNaNBuckets, List.mem_map, List.mem_filter]
    exact ⟨v, ⟨hv, by simp [hnan]⟩, rfl⟩
  obtain ⟨k, hk, hget⟩ := List.getElem_of_mem hmem
  rw [bucketIndexOf_eq b _ v hnan, ← hget,
    indexBuckets_at b _ 0 ([], []) (pairwise_lt_nodup _ hpw) k hk]
  have hrank : smallerBuckets b dbls (collectUniqueValues b dbls [])[k] = k := by
    unfold smallerBuckets
    rw [← ((uniqueValues_perm b dbls).filter _).length_eq]
    exact sorted_filter_lt_length _ hpw k hk
  rw [hrank]
  simp

theorem recordFor_scaleToNominal (b : DataBridge) (dataSet : DataSet) (o : Bool)
    (columnInfo : RBridgeColumnType) (column : Column)
    (hcol : dataSet.column (b.decode columnInfo.name) = some column)
    (htype : column.type = columnType.scale)
    (hreq : resolveRequestedType columnInfo column ≠ columnType.scale) :
    recordFor b dataSet o columnInfo
      = scaleToNominal b dataSet o (effectiveRowCount dataSet o) column
          { RBridgeColumn.zeroed with
            name := some columnInfo.name, nbRows := effectiveRowCount dataSet o } := by
  simp [recordFor, hcol, readColumn, hreq, htype]

theorem map_conv_getD_range {α β : Type} (l : List α) (d : α) (conv : α → β) :
    (List.range l.length).map (fun i => conv (l.getD i d)) = l.map conv := by
  have h := congrArg (List.map conv) (map_getD_range l d)
  rw [List.map_map] at h
  exact h

theorem smallerBuckets_lt (b : DataBridge) (dbls : List Dbl) (x y : Int)
    (hx : x ∈ nonNaNBuckets b dbls) (hy : y ∈ nonNaNBuckets b dbls) (hxy : x < y) :
    smallerBuckets b dbls x < smallerBuckets b dbls y := by
  have hpw := collectUniqueValues_pairwise b dbls [] List.Pairwise.nil
  have hperm := uniqueValues_perm b dbls
  have hxu : x ∈ collectUniqueValues b dbls [] := by
    rw [collectUniqueValues_mem]
    exact Or.inr hx
  have hyu : y ∈ collectUniqueValues b dbls [] := by
    rw [collectUniqueValues_mem]
    exact Or.inr hy
  obtain ⟨k, hk, hgk⟩ := List.getElem_of_mem hxu
  obtain ⟨l, hl, hgl⟩ := List.getElem_of_mem hyu
  have hrk : smallerBuckets b dbls x = k := by
    unfold smallerBuckets
    rw [← (hperm.filter _).length_eq, ← hgk]
    exact sorted_filter_lt_length _ hpw k hk
  have hrl : smallerBuckets b dbls y = l := by
    unfold smallerBuckets
    rw [← (hperm.filter _).length_eq, ← hgl]
    exact sorted_filter_lt_length _ hpw l hl
  rw [hrk, hrl]
  by_contra hnot
  have hle : l ≤ k := by omega
  rcases Nat.lt_or_eq_of_le hle with hlt | heq
  · have := (List.pairwise_iff_getElem.1 hpw) l k hl hk hlt
    rw [hgk, hgl] at this
    omega
  · subst heq
    rw [hgk] at hgl
    omega

theorem smallerBuckets_lt_length (b : DataBridge) (dbls : List Dbl) (x : Int)
    (hx : x ∈ nonNaNBuckets b dbls) :
    smallerBuckets b dbls x < (distinctBuckets b dbls).length := by
  have hpw := collectUniqueValues_pairwise b dbls [] List.Pairwise.nil
  have hperm := uniqueValues_perm b dbls
  have hxu : x ∈ collectUniqueValues b dbls [] := by
    rw [collectUniqueValues_mem]
    exact Or.inr hx
  obtain ⟨k, hk, hgk⟩ := List.getElem_of_mem hxu
  unfold smallerBuckets
  rw [← (hperm.filter _).length_eq, ← hgk, sorted_filter_lt_length _ hpw k hk,
    ← hperm.length_eq]
  exact hk

theorem smallerBuckets_onto (b : DataBridge) (dbls : List Dbl) (k : Nat)
    (hk : k < (distinctBuckets b dbls).length) :
    ∃ v ∈ dbls, v.isnan = false ∧ smallerBuckets b dbls (bucketOf b v) = k := by
  have hpw := collectUniqueValues_pairwise b dbls [] List.Pairwise.nil
  have hperm := uniqueValues_perm b dbls
  have hk2 : k < (collectUniqueValues b dbls []).length := by
    rw [hperm.length_eq]
    exact hk
  have hmem : (collectUniqueValues b dbls [])[k] ∈ nonNaNBuckets b dbls := by
    have := (collectUniqueValues_mem b dbls [] _).1 (List.getElem_mem hk2)
    simpa using this
  simp only [nonNaNBuckets, List.mem_map, List.mem_filter] at hmem
  obtain ⟨v, ⟨hv, hnan⟩, hb⟩ := hmem
  refine ⟨v, hv, by simpa using hnan, ?_⟩
  unfold smallerBuckets
  rw [← (hperm.filter _).length_eq, hb]
  exact sorted_filter_lt_length _ hpw k hk2

/-- The payload of the quantisation fallback without the filter. -/
theorem scaleToNominal_cells (b : DataBridge) (dataSet : DataSet) (column : Column)
    (resultCol : RBridgeColumn) (hrows : column.dbls.length = dataSet.rowCount) :
    (scaleToNominal b dataSet false (effectiveRowCount dataSet false) column resultCol).intCells
      = column.dbls.map (fun v =>
          if v.isnan then intLowest
          else 1 + (smallerBuckets b column.dbls (bucketOf b v) : Int)) := by
  have hmask : false = true → dataSet.maskConsistent := fun h => by cases h
  have hlen := survivingRows_length dataSet false hmask
  simp only [scaleToNominal, RBridgeColumn.intCells]
  rw [copiedPayload_eq dataSet false (0 : Int) Dbl.zero _ column.dbls hmask hrows,
    intArray_cells _ _ (by simp [hlen])]
  simp only [survivingRows, keptRows_no_filter, ← hrows]
  rw [map_conv_getD_range]
  apply List.map_congr_left
  intro v hv
  by_cases hnan : v.isnan = true
  · simp [hnan, bucketIndexOf]
  · have hnan2 : v.isnan = false := by simpa using hnan
    rw [bucketIndexOf_rank b column.dbls v hv hnan2]
    simp [hnan2]

/-- C11: a scale column requested as a coded type and read without the filter is
emitted with the sentinel for every NaN and, for every other value, with one more
than the number of distinct buckets of the column below the bucket of the value;
the index grows strictly with the bucket, and the indices that occur are exactly
`1 .. number of distinct buckets`. -/
theorem readDataSet_quantised_indices (b : DataBridge) (dataSet : DataSet)
    (headers : List RBridgeColumnType) (slot : Slot) (j : Nat)
    (hj : j < headers.length) (column : Column)
    (hsrc : b.dataSetSource = some dataSet) (hfound : allFound b dataSet headers)
    (hrows : column.dbls.length = dataSet.rowCount)
    (hcol : dataSet.column (b.decode headers[j].name) = some column)
    (htype : column.type = columnType.scale)
    (hreq : resolveRequestedType headers[j] column ≠ columnType.scale) :
    ∃ records record,
      (rbridge_readDataSet b (some headers) false slot).1 = ReadResult.buffer records
      ∧ records[j]? = some record
      ∧ record.intCells = column.dbls.map (fun v =>
          if v.isnan then intLowest
          else 1 + (smallerBuckets b column.dbls (bucketOf b v) : Int))
      ∧ (∀ v ∈ column.dbls, ∀ w ∈ column.dbls, v.isnan = false → w.isnan = false →
          bucketOf b v < bucketOf b w →
          smallerBuckets b column.dbls (bucketOf b v)
            < smallerBuckets b column.dbls (bucketOf b w))
      ∧ (∀ n : Int, (n ∈ record.intCells ∧ n ≠ intLowest)
          ↔ (1 ≤ n ∧ n ≤ ((distinctBuckets b column.dbls).length : Int))) := by
  have hrec := recordFor_scaleToNominal b dataSet false headers[j] column hcol htype hreq
  have hcells := scaleToNominal_cells b dataSet column
    { RBridgeColumn.zeroed with
      name := some headers[j].name, nbRows := effectiveRowCount dataSet false } hrows
  rw [← hrec] at hcells
  have hbucket : ∀ v ∈ column.dbls, v.isnan = false →
      bucketOf b v ∈ nonNaNBuckets b column.dbls := by
    intro v hv hnan
    simp only [nonNaNBuckets, List.mem_map, List.mem_filter]
    exact ⟨v, ⟨hv, by simp [hnan]⟩, rfl⟩
  refine ⟨_, recordFor b dataSet false headers[j],
    readDataSet_buffer b dataSet headers false slot hsrc hfound, buffer_record _ _ _ j hj,
    hcells, ?_, ?_⟩
  · intro v hv w hw hnv hnw hlt
    exact smallerBuckets_lt b column.dbls _ _ (hbucket v hv hnv) (hbucket w hw hnw) hlt
  · intro n
    rw [hcells]
    constructor
    · rintro ⟨hmem, hne⟩
      obtain ⟨v, hv, hn⟩ := List.mem_map.1 hmem
      by_cases hnan : v.isnan = true
      · rw [if_pos hnan] at hn
        exact absurd hn.symm hne
      · rw [if_neg hnan] at hn
        have hnan2 : v.isnan = false := by simpa using hnan
        have := smallerBuckets_lt_length b column.dbls _ (hbucket v hv hnan2)
        omega
    · rintro ⟨h1, h2⟩
      obtain ⟨v, hv, hnan, hrank⟩ := smallerBuckets_onto b column.dbls (n - 1).toNat (by omega)
      refine ⟨List.mem_map.2 ⟨v, hv, ?_⟩, ?_⟩
      · rw [if_neg (by simp [hnan]), hrank]
        omega
      · unfold intLowest
        omega

theorem readDataSet_quantised_indices_witness :
    ∃ records record,
      (rbridge_readDataSet (ieeeBridge (some (scaleDataSet [dbl1_0001, dbl1_0004, dblTwoAndHalf])))
        (some nominalHeaderX) false ⟨none, 0⟩).1 = ReadResult.buffer records
      ∧ records[0]? = some record
      ∧ record.intCells = [1, 1, 2] := by
  obtain ⟨records, record, h1, h2, h3, _, _⟩ :=
    readDataSet_quantised_indices
      (ieeeBridge (some (scaleDataSet [dbl1_0001, dbl1_0004, dblTwoAndHalf])))
      (scaleDataSet [dbl1_0001, dbl1_0004, dblTwoAndHalf]) nominalHeaderX ⟨none, 0⟩ 0
      (by decide) ⟨"x", columnType.scale, [], [dbl1_0001, dbl1_0004, dblTwoAndHalf], []⟩
      rfl (by intro h hh; simp only [nominalHeaderX, List.mem_singleton] at hh; subst hh; rfl)
      rfl rfl rfl (by decide)
  exact ⟨records, record, h1, h2, h3.trans (by decide)⟩

/-- C12 (as stated, refuted): for the scale column `[1.0001, 1.0004, 2.5]` read as
nominal, the emitted labels are "1.000000" and "2.500000", the texts that
`std::to_string` gives, and not "1" and "2.5". -/
theorem quantised_labels_have_six_decimals :
    ∃ records record,
      (rbridge_readDataSet (ieeeBridge (some (scaleDataSet [dbl1_0001, dbl1_0004, dblTwoAndHalf])))
        (some nominalHeaderX) false ⟨none, 0⟩).1 = ReadResult.buffer records
      ∧ records[0]? = some record
      ∧ record.labelTexts = ["1.000000", "2.500000"]
      ∧ record.labelTexts ≠ ["1", "2.5"] :=
  ⟨_, _, rfl, rfl, rfl, by decide⟩

/-- C12 (amended): a scale column requested as a coded type is emitted with
`hasLabels = true`; when it has a value that is not NaN, its labels are the texts of
its distinct buckets in ascending bucket order, one per bucket, and `nbLabels` is
their number; when it has none, the label list is the placeholder "."; the text of
a bucket other than `INT_MAX` and `INT_MIN` is `std::to_string((double)b / 1000)`. -/
theorem readDataSet_quantised_labels (b : DataBridge) (dataSet : DataSet)
    (headers : List RBridgeColumnType) (o : Bool) (slot : Slot) (j : Nat)
    (hj : j < headers.length) (column : Column)
    (hsrc : b.dataSetSource = some dataSet) (hfound : allFound b dataSet headers)
    (hcol : dataSet.column (b.decode headers[j].name) = some column)
    (htype : column.type = columnType.scale)
    (hreq : resolveRequestedType headers[j] column ≠ columnType.scale) :
    ∃ records record uniqueValues,
      (rbridge_readDataSet b (some headers) o slot).1 = ReadResult.buffer records
      ∧ records[j]? = some record
      ∧ record.hasLabels = true
      ∧ uniqueValues.Pairwise (· < ·)
      ∧ (∀ x, x ∈ uniqueValues ↔ x ∈ nonNaNBuckets b column.dbls)
      ∧ (uniqueValues ≠ [] → record.labelTexts = uniqueValues.map (bucketLabel b)
          ∧ record.nbLabels = uniqueValues.length)
      ∧ (uniqueValues = [] → record.labelTexts = ["."])
      ∧ (∀ x, x ≠ intMax → x ≠ intLowest → bucketLabel b x = b.toStringDiv1000 x) := by
  have hrec := recordFor_scaleToNominal b dataSet o headers[j] column hcol htype hreq
  have hlab := indexBuckets_labels b (collectUniqueValues b column.dbls []) 0 ([], [])
  simp only [List.nil_append] at hlab
  refine ⟨_, recordFor b dataSet o headers[j], collectUniqueValues b column.dbls [],
    readDataSet_buffer b dataSet headers o slot hsrc hfound, buffer_record _ _ _ j hj,
    ?_, collectUniqueValues_pairwise b column.dbls [] List.Pairwise.nil, ?_, ?_, ?_, ?_⟩
  · rw [hrec]
    simp [scaleToNominal]
  · intro x
    simp [collectUniqueValues_mem]
  · intro hne
    have hlen : ¬ (collectUniqueValues b column.dbls []).length = 0 := by
      simpa [List.length_eq_zero] using hne
    rw [hrec]
    simp [scaleToNominal, RBridgeColumn.labelTexts, rbridge_getLabelsOfStrings, hlab, hlen]
  · intro hnil
    rw [hrec]
    simp [scaleToNominal, RBridgeColumn.labelTexts, rbridge_getLabelsOfStrings, hnil,
      indexBuckets]
  · intro x h1 h2
    simp [bucketLabel, h1, h2]

theorem readDataSet_quantised_labels_witness :
    ∃ records record,
      (rbridge_readDataSet (ieeeBridge (some (scaleDataSet [dbl1_0001, dbl1_0004, dblTwoAndHalf])))
        (some nominalHeaderX) true ⟨none, 0⟩).1 = ReadResult.buffer records
      ∧ records[0]? = some record
      ∧ record.hasLabels = true
      ∧ record.labelTexts = [toStringDiv1000Fixed 1000, toStringDiv1000Fixed 2500]
      ∧ toStringDiv1000Fixed 1000 = "1.000000" ∧ toStringDiv1000Fixed 2500 = "2.500000" := by
  obtain ⟨records, record, _, h1, h2, h3, _, _, _, _, _⟩ :=
    readDataSet_quantised_labels
      (ieeeBridge (some (scaleDataSet [dbl1_0001, dbl1_0004, dblTwoAndHalf])))
      (scaleDataSet [dbl1_0001, dbl1_0004, dblTwoAndHalf]) nominalHeaderX true ⟨none, 0⟩ 0
      (by decide) ⟨"x", columnType.scale, [], [dbl1_0001, dbl1_0004, dblTwoAndHalf], []⟩
      rfl (by intro h hh; simp only [nominalHeaderX, List.mem_singleton] at hh; subst hh; rfl)
      rfl rfl (by decide)
  refine ⟨records, record, h1, h2, h3, ?_, by decide, by decide⟩
  have hr := readDataSet_buffer_unique
    (ieeeBridge (some (scaleDataSet [dbl1_0001, dbl1_0004, dblTwoAndHalf])))
    (scaleDataSet [dbl1_0001, dbl1_0004, dblTwoAndHalf]) nominalHeaderX true ⟨none, 0⟩
    records rfl (by intro h hh; simp only [nominalHeaderX, List.mem_singleton] at hh; subst hh; rfl)
    h1
  subst hr
  have h5 : record = recordFor
      (ieeeBridge (some (scaleDataSet [dbl1_0001, dbl1_0004, dblTwoAndHalf])))
      (scaleDataSet [dbl1_0001, dbl1_0004, dblTwoAndHalf]) true ⟨"x", columnType.nominal⟩ :=
    (Option.some.inj h2).symm
  subst h5
  rfl

/-- C13 (code defect): in the scale column `[2147483.647, +Infinity, -2147483.648,
-Infinity]` read as nominal, both finite values are emitted with the index of an
infinity: `(int)(2147483.647 * 1000)` is `INT_MAX` and `(int)(-2147483.648 * 1000)`
is `INT_MIN`, the two keys that the fallback uses for the infinities, so the column
has only the buckets "-Inf" and "Inf". -/
theorem quantised_finite_values_in_infinity_buckets :
    dbl2147483_647.isfinite = true ∧ dblMinus2147483_648.isfinite = true
      ∧ ieeeTruncTimes1000 dbl2147483_647 = intMax
      ∧ ieeeTruncTimes1000 dblMinus2147483_648 = intLowest
      ∧ ∃ records record,
        (rbridge_readDataSet
          (ieeeBridge (some (scaleDataSet
            [dbl2147483_647, dblPosInf, dblMinus2147483_648, dblNegInf])))
          (some nominalHeaderX) false ⟨none, 0⟩).1 = ReadResult.buffer records
        ∧ records[0]? = some record
        ∧ record.intCells = [2, 2, 1, 1]
        ∧ record.labelTexts = ["-Inf", "Inf"] :=
  ⟨by decide, by decide, by decide, by decide, _, _, rfl, rfl, rfl, rfl⟩

/-- C14 (code defect): both overloads of `rbridge_getLabels` answer an empty label
list with the array `["."]` and the count `nbLevels = 0`; so the record of a nominal
column with an empty dictionary, and the record of the quantisation fallback of a
column whose only value is NaN, have `hasLabels = true`, the label list `["."]` and
`nbLabels = 0`, not 1. -/
theorem placeholder_label_is_counted_zero :
    rbridge_getLabels [] = (["."], 0)
      ∧ rbridge_getLabelsOfStrings [] = (["."], 0)
      ∧ (∃ records record,
          (rbridge_readDataSet (ieeeBridge (some emptyLabelDataSet)) (some headerE) false
            ⟨none, 0⟩).1 = ReadResult.buffer records
          ∧ records[0]? = some record
          ∧ record.hasLabels = true ∧ record.labelTexts = ["."] ∧ record.nbLabels = 0)
      ∧ (∃ records record,
          (rbridge_readDataSet (ieeeBridge (some (scaleDataSet [dblNaN]))) (some nominalHeaderX)
            false ⟨none, 0⟩).1 = ReadResult.buffer records
          ∧ records[0]? = some record
          ∧ record.hasLabels = true ∧ record.labelTexts = ["."] ∧ record.nbLabels = 0) :=
  ⟨rfl, rfl, ⟨_, _, rfl, rfl, rfl, rfl, rfl⟩, ⟨_, _, rfl, rfl, rfl, rfl, rfl⟩⟩

/-! ## The buffer slot -/

theorem readDataSet_slot_of_call (b : DataBridge) (dataSet : DataSet)
    (headers : List RBridgeColumnType) (o : Bool) (slot : Slot)
    (hsrc : b.dataSetSource = some dataSet) :
    (rbridge_readDataSet b (some headers) o slot).2.datasetColMax = headers.length
      ∧ (rbridge_readDataSet b (some headers) o slot).2.datasetStatic ≠ none
      ∧ ∀ records, (rbridge_readDataSet b (some headers) o slot).1 = ReadResult.buffer records →
          (rbridge_readDataSet b (some headers) o slot).2.datasetStatic = some records := by
  simp only [rbridge_readDataSet, hsrc]
  split <;> simp_all

theorem readDataSet_slot_of_no_call (b : DataBridge) (colHeaders : Option (List RBridgeColumnType))
    (o : Bool) (slot : Slot) (h : colHeaders = none ∨ b.dataSetSource = none) :
    rbridge_readDataSet b colHeaders o slot = (ReadResult.null, slot) := by
  cases colHeaders with
  | none => rfl
  | some headers =>
    rcases h with h | h
    · cases h
    · simp [rbridge_readDataSet, h]

theorem wellFormed_release (s : BufferState) (h : s.wellFormed) :
    s.release.wellFormed ∧ s.release.live = 0 ∧ s.release.slot = ⟨none, 0⟩ := by
  obtain ⟨h1, h2⟩ := h
  cases hs : s.slot.datasetStatic with
  | none =>
    obtain ⟨hl, hc⟩ := h1 hs
    have hslot : freeRBridgeColumns s.slot = s.slot := by simp [freeRBridgeColumns, hs]
    have hslot2 : s.slot = ⟨none, 0⟩ := by
      cases hh : s.slot with
      | mk ds cm =>
        rw [hh] at hs hc
        simp only at hs hc
        rw [hs, hc]
    refine ⟨⟨?_, ?_⟩, ?_, ?_⟩
    · intro _
      simp [BufferState.release, hs, hl, hslot, hc]
    · intro hne
      simp [BufferState.release, hslot, hs] at hne
    · simp [BufferState.release, hs, hl]
    · simp only [BufferState.release, hslot]
      exact hslot2
  | some records =>
    have hl : s.live = 1 := h2 (by simp [hs])
    have hslot : freeRBridgeColumns s.slot = ⟨none, 0⟩ := by simp [freeRBridgeColumns, hs]
    refine ⟨⟨?_, ?_⟩, ?_, ?_⟩
    · intro _
      simp [BufferState.release, hs, hl, hslot]
    · intro hne
      simp [BufferState.release, hslot] at hne
    · simp [BufferState.release, hs, hl]
    · simp [BufferState.release, hslot]

theorem wellFormed_afterRelease (s : BufferState) (h : s.wellFormed) :
    s.afterRelease.live = 0 := by
  unfold BufferState.afterRelease
  by_cases hs : s.slot.datasetStatic = none
  · simp [hs, (h.1 hs).1]
  · simp [hs, (wellFormed_release s h).2.1]

theorem wellFormed_marshal (b : DataBridge) (colHeaders : Option (List RBridgeColumnType))
    (o : Bool) (s : BufferState) (h : s.wellFormed) : (s.marshal b colHeaders o).wellFormed := by
  cases colHeaders with
  | none =>
    have hr := readDataSet_slot_of_no_call b none o s.slot (Or.inl rfl)
    have : s.marshal b none o = s := by
      cases s
      simp [BufferState.marshal, hr]
    rw [this]
    exact h
  | some headers =>
    cases hsrc : b.dataSetSource with
    | none =>
      have hr := readDataSet_slot_of_no_call b (some headers) o s.slot (Or.inr hsrc)
      have : s.marshal b (some headers) o = s := by
        cases s
        simp [BufferState.marshal, hr, hsrc]
      rw [this]
      exact h
    | some dataSet =>
      obtain ⟨_, hne, _⟩ := readDataSet_slot_of_call b dataSet headers o s.slot hsrc
      refine ⟨?_, ?_⟩
      · intro hnone
        exact absurd hnone hne
      · intro _
        simp [BufferState.marshal, hsrc, wellFormed_afterRelease s h]

theorem wellFormed_run (steps : List BridgeStep) :
    ∀ s : BufferState, s.wellFormed → (s.run steps).wellFormed := by
  induction steps with
  | nil => intro s h; exact h
  | cons st rest ih =>
    intro s h
    have : s.run (st :: rest) = (s.step st).run rest := rfl
    rw [this]
    apply ih
    cases st with
    | marshal b colHeaders o => exact wellFormed_marshal b colHeaders o s h
    | release => exact (wellFormed_release s h).1

theorem wellFormed_empty : BufferState.empty.wellFormed := by
  simp [BufferState.wellFormed, BufferState.empty]

/-- C15: in every state reached from the empty slot by calls of
`rbridge_readDataSet` and `freeRBridgeColumns`, at most one record array is
allocated and not freed, and it is the one in the slot. From such a state, a call
of `rbridge_readDataSet` with headers and a dataset first brings the number of live
arrays to zero and then allocates one, leaving the slot populated with
`datasetColMax = colMax` (with the returned buffer when the call succeeds); a call
of `freeRBridgeColumns` leaves `datasetStatic = nullptr`, `datasetColMax = 0` and
nothing allocated; and on an empty slot it changes nothing. -/
theorem slot_holds_at_most_one_buffer (steps : List BridgeStep) :
    (BufferState.empty.run steps).live ≤ 1
      ∧ ((BufferState.empty.run steps).live = 1
          ↔ (BufferState.empty.run steps).slot.datasetStatic ≠ none)
      ∧ (∀ (b : DataBridge) (headers : List RBridgeColumnType) (o : Bool),
          b.dataSetSource ≠ none →
          (BufferState.empty.run steps).afterRelease.live = 0
            ∧ ((BufferState.empty.run steps).marshal b (some headers) o).live = 1
            ∧ ((BufferState.empty.run steps).marshal b (some headers) o).slot.datasetColMax
                = headers.length
            ∧ ((BufferState.empty.run steps).marshal b (some headers) o).slot.datasetStatic ≠ none
            ∧ ∀ records,
                (rbridge_readDataSet b (some headers) o (BufferState.empty.run steps).slot).1
                  = ReadResult.buffer records →
                ((BufferState.empty.run steps).marshal b (some headers) o).slot.datasetStatic
                  = some records)
      ∧ ((BufferState.empty.run steps).release.slot = ⟨none, 0⟩
          ∧ (BufferState.empty.run steps).release.live = 0)
      ∧ ((BufferState.empty.run steps).slot.datasetStatic = none →
          (BufferState.empty.run steps).release = BufferState.empty.run steps) := by
  have hwf := wellFormed_run steps BufferState.empty wellFormed_empty
  generalize BufferState.empty.run steps = s at hwf
  obtain ⟨hrel, hrel0, hrelslot⟩ := wellFormed_release s hwf
  refine ⟨?_, ?_, ?_, ⟨hrelslot, hrel0⟩, ?_⟩
  · by_cases hs : s.slot.datasetStatic = none
    · rw [(hwf.1 hs).1]
      omega
    · rw [hwf.2 hs]
  · constructor
    · intro hl hs
      rw [(hwf.1 hs).1] at hl
      omega
    · exact hwf.2
  · intro b headers o hsrc
    obtain ⟨dataSet, hds⟩ := Option.ne_none_iff_exists'.1 hsrc
    obtain ⟨hcm, hne, hbuf⟩ := readDataSet_slot_of_call b dataSet headers o s.slot hds
    have haft := wellFormed_afterRelease s hwf
    refine ⟨haft, ?_, hcm, hne, hbuf⟩
    simp [BufferState.marshal, hds, haft]
  · intro hs
    obtain ⟨hl, hc⟩ := hwf.1 hs
    cases s with
    | mk slot live =>
      simp only at hs
      simp [BufferState.release, freeRBridgeColumns, hs]

theorem slot_holds_at_most_one_buffer_witness :
    (BufferState.empty.run
        [BridgeStep.marshal sampleBridge (some sampleHeaders) true,
          BridgeStep.marshal sampleBridge (some sampleHeadersCrossed) false]).live = 1
      ∧ (BufferState.empty.run
        [BridgeStep.marshal sampleBridge (some sampleHeaders) true,
          BridgeStep.marshal sampleBridge (some sampleHeadersCrossed) false]).slot.datasetColMax = 2
      ∧ (BufferState.empty.run
        [BridgeStep.marshal sampleBridge (some sampleHeaders) true,
          BridgeStep.marshal sampleBridge (some sampleHeadersCrossed) false,
          BridgeStep.release, BridgeStep.release]) = BufferState.empty := by
  have h := slot_holds_at_most_one_buffer
    [BridgeStep.marshal sampleBridge (some sampleHeaders) true,
      BridgeStep.marshal sampleBridge (some sampleHeadersCrossed) false]
  refine ⟨h.2.1.2 (by decide), by decide, by decide⟩

/-- C16 (code defect): for the buffer that `rbridge_readDataSet` builds for a nominal
column with an empty label dictionary, `freeRBridgeColumns` frees the name, the
payload, the label array, the row-number payload and the record array, but not the
string "." that `rbridge_getLabels` duplicated: `freeLabels` is called with
`nbLabels = 0`. For the sample buffer, whose labels are not the placeholder, every
block is freed. -/
theorem placeholder_label_string_is_not_freed :
    leakedBlocks (rbridge_readDataSet (ieeeBridge (some emptyLabelDataSet)) (some headerE) false
        ⟨none, 0⟩).2 = [Block.labelString 0 0]
      ∧ leakedBlocks (rbridge_readDataSet (ieeeBridge (some (scaleDataSet [dblNaN])))
        (some nominalHeaderX) false ⟨none, 0⟩).2 = [Block.labelString 0 0]
      ∧ leakedBlocks (rbridge_readDataSet sampleBridge (some sampleHeaders) true ⟨none, 0⟩).2
        = [] := by
  refine ⟨by decide, by decide, by decide⟩

/-- C17: when the dataset provider has no dataset, `rbridge_readDataSet` and
`rbridge_readFullDataSetHelper` return `nullptr`, which is not a buffer, and leave
the slot as it was: `datasetStatic` and `datasetColMax` are unchanged, and
`*colMax` of the helper is not written. -/
theorem no_dataset_returns_null_and_keeps_slot (b : DataBridge)
    (colHeaders : Option (List RBridgeColumnType)) (encode : String → String) (colMax : Nat)
    (o : Bool) (slot : Slot) (hsrc : b.dataSetSource = none) :
    rbridge_readDataSet b colHeaders o slot = (ReadResult.null, slot)
      ∧ rbridge_readFullDataSetHelper b encode colMax o slot = ((ReadResult.null, colMax), slot)
      ∧ (∀ records, (rbridge_readDataSet b colHeaders o slot).1 ≠ ReadResult.buffer records)
      ∧ (∀ records,
          (rbridge_readFullDataSetHelper b encode colMax o slot).1.1 ≠ ReadResult.buffer records) := by
  have h1 := readDataSet_slot_of_no_call b colHeaders o slot (Or.inr hsrc)
  have h2 : rbridge_readFullDataSetHelper b encode colMax o slot
      = ((ReadResult.null, colMax), slot) := by
    simp [rbridge_readFullDataSetHelper, hsrc]
  refine ⟨h1, h2, ?_, ?_⟩
  · intro records
    rw [h1]
    simp
  · intro records
    rw [h2]
    simp

theorem no_dataset_returns_null_and_keeps_slot_witness :
    rbridge_readDataSet bridgeWithoutDataSet (some sampleHeaders) true
        (rbridge_readDataSet sampleBridge (some sampleHeaders) true ⟨none, 0⟩).2
      = (ReadResult.null, (rbridge_readDataSet sampleBridge (some sampleHeaders) true ⟨none, 0⟩).2)
      ∧ rbridge_readFullDataSetHelper bridgeWithoutDataSet id 7 true
        (rbridge_readDataSet sampleBridge (some sampleHeaders) true ⟨none, 0⟩).2
      = ((ReadResult.null, 7),
          (rbridge_readDataSet sampleBridge (some sampleHeaders) true ⟨none, 0⟩).2) :=
  ⟨(no_dataset_returns_null_and_keeps_slot bridgeWithoutDataSet (some sampleHeaders) id 7 true
      (rbridge_readDataSet sampleBridge (some sampleHeaders) true ⟨none, 0⟩).2 rfl).1,
   (no_dataset_returns_null_and_keeps_slot bridgeWithoutDataSet (some sampleHeaders) id 7 true
      (rbridge_readDataSet sampleBridge (some sampleHeaders) true ⟨none, 0⟩).2 rfl).2.1⟩

/-! ## The CSV importer -/

theorem countDotsCommas_no_comma :
    ∀ (l : List Char) (dots commas : Nat), ',' ∉ l →
      (countDotsCommas l (dots, commas)).2 = commas := by
  intro l
  induction l with
  | nil => intros; rfl
  | cons c rest ih =>
    intro dots commas h
    simp only [List.mem_cons, not_or] at h
    have hc : ¬ c = ',' := fun e => h.1 e.symm
    simp only [countDotsCommas]
    split_ifs
    · exact ih _ _ h.2
    · exact ih _ _ h.2

/-- A string without a comma is returned as it is. -/
theorem deEuropeanise_of_no_comma (value : String) (h : ',' ∉ value.data) :
    deEuropeanise value = value := by
  have h0 := countDotsCommas_no_comma value.data 0 0 h
  unfold deEuropeanise
  simp only [h0, gt_iff_lt, Nat.lt_irrefl, if_false]

theorem isMissingToken_iff (value : String) :
    isMissingToken value = true ↔ (value = "NaN" ∨ value = "nan" ∨ value = "" ∨ value = " ") := by
  simp only [isMissingToken, Bool.not_eq_true', decide_eq_false_iff_not]
  tauto

theorem isMissingToken_false_iff (value : String) :
    isMissingToken value = false ↔ (value ≠ "NaN" ∧ value ≠ "nan" ∧ value ≠ "" ∧ value ≠ " ") := by
  simp only [isMissingToken, Bool.not_eq_false', decide_eq_true_eq]

/-- The first loop of `initColumn` on cells that are all missing or integers. -/
theorem readIntCells_ok (lc : LexicalCast) :
    ∀ (cells : List String) (u v : List Int), allIntegerCells lc cells →
      (readIntCells lc cells u v).1 = true
        ∧ (readIntCells lc cells u v).2.2 = v ++ cells.map (storedInt lc)
        ∧ (u.Pairwise (· < ·) → (readIntCells lc cells u v).2.1.Pairwise (· < ·))
        ∧ ∀ x, x ∈ (readIntCells lc cells u v).2.1
            ↔ x ∈ u ∨ x ∈ (cells.filter (fun c => !isMissingToken c)).filterMap lc.toInt := by
  intro cells
  induction cells with
  | nil => intro u v _; simp [readIntCells]
  | cons c rest ih =>
    intro u v h
    have hrest : allIntegerCells lc rest := fun x hx => h x (by simp [hx])
    by_cases hm : isMissingToken c = true
    · have hcond : ¬ (c ≠ "NaN" ∧ c ≠ "nan" ∧ c ≠ "" ∧ c ≠ " ") := by
        have := (isMissingToken_iff c).1 hm
        tauto
      obtain ⟨h1, h2, h3, h4⟩ := ih u (v ++ [intLowest]) hrest
      rw [readIntCells, if_neg hcond]
      refine ⟨h1, ?_, h3, ?_⟩
      · rw [h2]
        simp [storedInt, hm]
      · intro x
        rw [h4]
        simp [hm]
    · have hm2 : isMissingToken c = false := by simpa using hm
      have hcond : c ≠ "NaN" ∧ c ≠ "nan" ∧ c ≠ "" ∧ c ≠ " " := (isMissingToken_false_iff c).1 hm2
      have hsome : (lc.toInt c).isSome = true := by
        rcases h c (by simp) with h | h
        · exact absurd h hm
        · exact h
      obtain ⟨n, hn⟩ := Option.isSome_iff_exists.1 hsome
      obtain ⟨h1, h2, h3, h4⟩ := ih (intsetInsert n u) (v ++ [n]) hrest
      rw [readIntCells, if_pos hcond]
      simp only [hn]
      refine ⟨h1, ?_, ?_, ?_⟩
      · rw [h2]
        simp [storedInt, hm2, hn]
      · intro hu
        exact h3 (intsetInsert_pairwise n u hu)
      · intro x
        rw [h4, intsetInsert_mem]
        simp only [List.filter_cons, hm2, Bool.not_false, if_true, List.filterMap_cons, hn,
          List.mem_cons]
        tauto

/-- The set `uniqueValues` of the first loop holds the distinct parsed integers. -/
theorem readIntCells_unique (lc : LexicalCast) (cells : List String)
    (h : allIntegerCells lc cells) :
    (readIntCells lc cells [] []).2.1.Pairwise (· < ·)
      ∧ (∀ x, x ∈ (readIntCells lc cells [] []).2.1 ↔ x ∈ distinctInts lc cells)
      ∧ (readIntCells lc cells [] []).2.1.length = (distinctInts lc cells).length := by
  obtain ⟨_, _, h3, h4⟩ := readIntCells_ok lc cells [] [] h
  have hpw := h3 List.Pairwise.nil
  have hmem : ∀ x, x ∈ (readIntCells lc cells [] []).2.1 ↔ x ∈ distinctInts lc cells := by
    intro x
    rw [h4]
    simp [distinctInts]
  refine ⟨hpw, hmem, ?_⟩
  exact ((List.perm_ext_iff_of_nodup (pairwise_lt_nodup _ hpw) (List.nodup_dedup _)).2
    hmem).length_eq

/-- With at most 24 distinct integers, and cells that are all missing or
integers, `initColumn` makes the column nominal; when no cell parses to `INT_MIN`,
the sentinel stands exactly at the missing positions. -/
theorem initColumn_nominal (lc : LexicalCast) (name : String) (cells : List String)
    (hcells : allIntegerCells lc cells) (hcount : (distinctInts lc cells).length ≤ 24) :
    ∃ intValues uniqueValues,
      initColumn lc name cells
        = (name, ColumnCall.setColumnAsNominalOrOrdinal intValues uniqueValues)
      ∧ intValues = cells.map (storedInt lc)
      ∧ intValues.length = cells.length
      ∧ uniqueValues.Pairwise (· < ·)
      ∧ (∀ x, x ∈ uniqueValues ↔ x ∈ distinctInts lc cells)
      ∧ uniqueValues.length = (distinctInts lc cells).length
      ∧ ((∀ c ∈ cells, isMissingToken c = false → lc.toInt c ≠ some intLowest) →
          ∀ c ∈ cells, (storedInt lc c = intLowest ↔ isMissingToken c = true)) := by
  obtain ⟨h1, h2, _, _⟩ := readIntCells_ok lc cells [] [] hcells
  obtain ⟨hpw, hmem, hlen⟩ := readIntCells_unique lc cells hcells
  refine ⟨(readIntCells lc cells [] []).2.2, (readIntCells lc cells [] []).2.1, ?_, ?_, ?_,
    hpw, hmem, hlen, ?_⟩
  · simp [initColumn, h1, hlen, hcount]
  · simpa using h2
  · rw [h2]
    simp
  · intro hsent c hc
    constructor
    · intro hs
      by_contra hm
      have hm2 : isMissingToken c = false := by simpa using hm
      have hsome : (lc.toInt c).isSome = true := by
        rcases hcells c hc with h | h
        · exact absurd h hm
        · exact h
      obtain ⟨n, hn⟩ := Option.isSome_iff_exists.1 hsome
      simp only [storedInt, hm2, Bool.false_eq_true, if_false, hn, Option.getD_some] at hs
      exact hsent c hc hm2 (by rw [hn, hs])
    · intro hm
      simp [storedInt, hm]

/-- C18 (code defect): for the single cell "-2147483648", which is not a missing
token and parses as an integer, `initColumn` makes the column nominal and passes
the int vector `[INT_MIN]`: the sentinel stands at a position that is not missing. -/
theorem initColumn_sentinel_at_present_cell :
    isMissingToken "-2147483648" = false
      ∧ lexicalCastInt "-2147483648" = some intLowest
      ∧ initColumn sampleLexicalCast "v" ["-2147483648"]
        = ("v", ColumnCall.setColumnAsNominalOrOrdinal [intLowest] [intLowest]) := by
  refine ⟨by decide, by decide, by decide⟩

/-- C20 (code defect): for the cells "7", "-2147483648" and "", `initColumn` makes
the column nominal with the int vector `[7, INT_MIN, INT_MIN]` and the distinct-value
set `{INT_MIN, 7}`: the sentinel is a member of the set from which the label codes
are built, and it stands at position 1, whose cell is not a missing token. -/
theorem initColumn_sentinel_in_unique_values :
    initColumn sampleLexicalCast "v" ["7", "-2147483648", ""]
        = ("v", ColumnCall.setColumnAsNominalOrOrdinal [7, intLowest, intLowest] [intLowest, 7])
      ∧ intLowest ∈ [intLowest, 7]
      ∧ isMissingToken "-2147483648" = false := by
  refine ⟨by decide, by decide, by decide⟩

/-- The second loop of `initColumn` on cells that `deEuropeanise` leaves as they are
and that are blank or parse as a double. -/
theorem readDoubleCells_ok (lc : LexicalCast) :
    ∀ (cells : List String) (acc : List Dbl),
      (∀ c ∈ cells, deEuropeanise c = c ∧ (c = "" ∨ c = " " ∨ (lc.toDouble c).isSome = true)) →
      readDoubleCells lc cells acc = (true, acc ++ cells.map (storedDouble lc)) := by
  intro cells
  induction cells with
  | nil => intro acc _; simp [readDoubleCells]
  | cons c rest ih =>
    intro acc h
    obtain ⟨hde, hc⟩ := h c (by simp)
    have hrest : ∀ x ∈ rest, deEuropeanise x = x
        ∧ (x = "" ∨ x = " " ∨ (lc.toDouble x).isSome = true) :=
      fun x hx => h x (by simp [hx])
    by_cases hblank : c = "" ∨ c = " "
    · have hcond : ¬ (c ≠ "" ∧ c ≠ " ") := by tauto
      rw [readDoubleCells]
      simp only [hde, hcond, if_false]
      rw [ih _ hrest]
      simp [storedDouble, hblank]
    · have hcond : c ≠ "" ∧ c ≠ " " := by tauto
      have hsome : (lc.toDouble c).isSome = true := by tauto
      obtain ⟨d, hd⟩ := Option.isSome_iff_exists.1 hsome
      rw [readDoubleCells]
      simp only [hde, hcond, ne_eq, not_false_eq_true, and_self, if_true, hd]
      rw [ih _ hrest]
      simp [storedDouble, hblank, hd]

theorem missing_token_no_comma (c : String) (h : isMissingToken c = true) : ',' ∉ c.data := by
  rcases (isMissingToken_iff c).1 h with rfl | rfl | rfl | rfl <;> decide

/-- C19: when every cell is a missing token or parses as an integer and more than
24 distinct integers occur, `initColumn` ends with `setColumnAsScale`, so with
neither the nominal nor the nominal-text call; it passes one double per cell, a NaN
for every missing cell and the double of the parsed integer for every other cell.
The casts are those of `boost::lexical_cast`: the double cast reads an integer text
as the same number and the spellings "NaN" and "nan" as a NaN. -/
theorem initColumn_scale_above_24 (lc : LexicalCast) (name : String) (cells : List String)
    (hcells : allIntegerCells lc cells) (hmany : 24 < (distinctInts lc cells).length)
    (hcasts : castsAgreeOn lc cells) :
    ∃ doubleValues,
      initColumn lc name cells = (name, ColumnCall.setColumnAsScale doubleValues)
      ∧ doubleValues = cells.map (storedDouble lc)
      ∧ doubleValues.length = cells.length
      ∧ (∀ c ∈ cells, isMissingToken c = true → (storedDouble lc c).isnan = true)
      ∧ (∀ c ∈ cells, ∀ n, isMissingToken c = false → lc.toInt c = some n →
          storedDouble lc c = Dbl.ofInt n) := by
  obtain ⟨h1, _, _, _⟩ := readIntCells_ok lc cells [] [] hcells
  obtain ⟨_, _, hlen⟩ := readIntCells_unique lc cells hcells
  obtain ⟨hagree, hnan⟩ := hcasts
  have hparse : ∀ c ∈ cells, deEuropeanise c = c
      ∧ (c = "" ∨ c = " " ∨ (lc.toDouble c).isSome = true) := by
    intro c hc
    by_cases hm : isMissingToken c = true
    · refine ⟨deEuropeanise_of_no_comma c (missing_token_no_comma c hm), ?_⟩
      rcases (isMissingToken_iff c).1 hm with h | h | h | h
      · obtain ⟨d, hd, _⟩ := hnan c (Or.inl h)
        simp [hd]
      · obtain ⟨d, hd, _⟩ := hnan c (Or.inr h)
        simp [hd]
      · exact Or.inl h
      · exact Or.inr (Or.inl h)
    · have hm2 : isMissingToken c = false := by simpa using hm
      obtain ⟨hcomma, hd⟩ := hagree c hc hm2
      have hsome : (lc.toInt c).isSome = true := by
        rcases hcells c hc with h | h
        · exact absurd h hm
        · exact h
      obtain ⟨n, hn⟩ := Option.isSome_iff_exists.1 hsome
      refine ⟨deEuropeanise_of_no_comma c hcomma, Or.inr (Or.inr ?_)⟩
      rw [hd, hn]
      rfl
  have hdbl := readDoubleCells_ok lc cells [] hparse
  have hnot : ¬ (readIntCells lc cells [] []).2.1.length ≤ 24 := by
    rw [hlen]
    omega
  refine ⟨cells.map (storedDouble lc), ?_, rfl, by simp, ?_, ?_⟩
  · simp [initColumn, h1, hnot, hdbl]
  · intro c _ hm
    rcases (isMissingToken_iff c).1 hm with h | h | h | h
    · obtain ⟨d, hd, hdn⟩ := hnan c (Or.inl h)
      have hb : ¬ (c = "" ∨ c = " ") := by
        subst h
        decide
      simp [storedDouble, hb, hd, hdn]
    · obtain ⟨d, hd, hdn⟩ := hnan c (Or.inr h)
      have hb : ¬ (c = "" ∨ c = " ") := by
        subst h
        decide
      simp [storedDouble, hb, hd, hdn]
    · have : dblNaN.isnan = true := by decide
      simp [storedDouble, h, this]
    · have : dblNaN.isnan = true := by decide
      simp [storedDouble, h, this]
  · intro c hc n hm hn
    obtain ⟨_, hd⟩ := hagree c hc hm
    have hb : ¬ (c = "" ∨ c = " ") := by
      have := (isMissingToken_false_iff c).1 hm
      tauto
    simp [storedDouble, hb, hd, hn]

theorem sample_castsAgreeOn : castsAgreeOn sampleLexicalCast (cells1to25 ++ ["", "NaN"]) := by
  refine ⟨?_, ?_⟩
  · decide
  · intro c hc
    rcases hc with rfl | rfl
    · exact ⟨dblNaN, by decide, by decide⟩
    · exact ⟨dblNaN, by decide, by decide⟩

theorem sample_allIntegerCells :
    allIntegerCells sampleLexicalCast (cells1to25 ++ ["", "NaN"]) := by
  unfold allIntegerCells
  decide

theorem initColumn_scale_above_24_witness :
    ∃ doubleValues,
      initColumn sampleLexicalCast "v" (cells1to25 ++ ["", "NaN"])
        = ("v", ColumnCall.setColumnAsScale doubleValues)
      ∧ doubleValues.length = 27
      ∧ doubleValues[0]? = some dblOne
      ∧ doubleValues[25]? = some dblNaN ∧ doubleValues[26]? = some dblNaN := by
  obtain ⟨doubleValues, h1, h2, _, _, _⟩ :=
    initColumn_scale_above_24 sampleLexicalCast "v" (cells1to25 ++ ["", "NaN"])
      sample_allIntegerCells (by decide) sample_castsAgreeOn
  subst h2
  exact ⟨_, h1, by decide, by decide, by decide, by decide⟩

/-! ## `deEuropeanise` -/

theorem countDotsCommas_eq :
    ∀ (l : List Char) (dots commas : Nat),
      countDotsCommas l (dots, commas) = (dots + l.count '.', commas + l.count ',') := by
  intro l
  induction l with
  | nil => intros; simp [countDotsCommas]
  | cons c rest ih =>
    intro dots commas
    simp only [countDotsCommas]
    by_cases h1 : c = '.'
    · subst h1
      rw [if_pos rfl, ih]
      simp [List.count_cons]
      omega
    · by_cases h2 : c = ','
      · subst h2
        rw [if_neg h1, if_pos rfl, ih]
        simp [List.count_cons]
        omega
      · rw [if_neg h1, if_neg h2, ih]
        have e1 : ¬ ('.' = c) := fun e => h1 e.symm
        have e2 : ¬ (',' = c) := fun e => h2 e.symm
        simp [List.count_cons, h1, h2]

theorem copyWithoutDots_eq (l : List Char) : copyWithoutDots l = withoutDots l := by
  induction l with
  | nil => rfl
  | cons c rest ih =>
    by_cases h : c = '.'
    · simp [copyWithoutDots, withoutDots, h] at ih ⊢
      exact ih
    · simp [copyWithoutDots, withoutDots, h] at ih ⊢
      exact ih

theorem withoutDots_of_no_dot (l : List Char) (h : l.count '.' = 0) : withoutDots l = l := by
  have hn : '.' ∉ l := List.count_eq_zero.1 h
  unfold withoutDots
  rw [List.filter_eq_self]
  intro a ha
  simp only [ne_eq, decide_eq_true_eq]
  intro e
  exact hn (e ▸ ha)

theorem withoutDots_no_dot (l : List Char) : '.' ∉ withoutDots l := by
  simp [withoutDots]

theorem withoutDots_mem_comma (l : List Char) : ',' ∈ withoutDots l ↔ ',' ∈ l := by
  simp [withoutDots]

theorem withoutDots_append (l₁ l₂ : List Char) :
    withoutDots (l₁ ++ l₂) = withoutDots l₁ ++ withoutDots l₂ := by
  simp [withoutDots]

theorem replaceFirstComma_split (pre post : List Char) (h : ',' ∉ pre) :
    replaceFirstComma (pre ++ ',' :: post) = pre ++ '.' :: post := by
  induction pre with
  | nil => simp [replaceFirstComma]
  | cons c rest ih =>
    simp only [List.mem_cons, not_or] at h
    have hc : ¬ c = ',' := fun e => h.1 e.symm
    simp [replaceFirstComma, hc, ih h.2]

theorem replaceFirstComma_length (l : List Char) : (replaceFirstComma l).length = l.length := by
  induction l with
  | nil => rfl
  | cons c rest ih =>
    by_cases h : c = ','
    · simp [replaceFirstComma, h]
    · simp [replaceFirstComma, h, ih]

/-- The result of `deEuropeanise`, loop by loop: with a comma, every dot is dropped
and then the first comma is made a dot. -/
theorem deEuropeanise_data (value : String) :
    (deEuropeanise value).data
      = if ',' ∈ value.data then replaceFirstComma (withoutDots value.data) else value.data := by
  have hc := countDotsCommas_eq value.data 0 0
  simp only [Nat.zero_add] at hc
  unfold deEuropeanise
  simp only [hc, gt_iff_lt, List.count_pos_iff]
  by_cases hcomma : ',' ∈ value.data
  · rw [if_pos hcomma, if_pos hcomma]
    by_cases hdot : '.' ∈ value.data
    · rw [if_pos hdot, copyWithoutDots_eq]
    · rw [if_neg hdot, withoutDots_of_no_dot _ (List.count_eq_zero.2 hdot)]
  · rw [if_neg hcomma, if_neg hcomma]

theorem string_eq_of_data (s t : String) (h : s.data = t.data) : s = t := by
  cases s
  cases t
  simp_all

theorem split_at_only_comma (l : List Char) (h : l.count ',' = 1) :
    ∃ pre post, l = pre ++ ',' :: post ∧ ',' ∉ pre ∧ ',' ∉ post := by
  have hmem : ',' ∈ l := List.count_pos_iff.1 (by omega)
  obtain ⟨pre, post, hl, hpre⟩ := List.eq_append_cons_of_mem hmem
  refine ⟨pre, post, hl, hpre, ?_⟩
  rw [hl, List.count_append, List.count_cons_self, List.count_eq_zero.2 hpre] at h
  exact List.count_eq_zero.1 (by omega)

/-- With a comma in the string, `deEuropeanise` drops every dot and puts a dot in
the place of the first comma. -/
theorem deEuropeanise_split (value : String) (pre post : List Char)
    (hl : value.data = pre ++ ',' :: post) (hpre : ',' ∉ pre) :
    (deEuropeanise value).data = withoutDots pre ++ '.' :: withoutDots post := by
  have hmem : ',' ∈ value.data := by
    rw [hl]
    simp
  rw [deEuropeanise_data, if_pos hmem, hl, withoutDots_append]
  have hcons : withoutDots (',' :: post) = ',' :: withoutDots post := by
    simp [withoutDots]
  rw [hcons]
  exact replaceFirstComma_split _ _ (fun hm => hpre ((withoutDots_mem_comma pre).1 hm))

/-- C22 (as stated, refuted): "1,5.3" holds exactly one comma and a dot after it;
`deEuropeanise` gives "1.53", dropping that dot too, and not "1.5.3". -/
theorem deEuropeanise_drops_dot_after_comma :
    "1,5.3".data.count ',' = 1
      ∧ deEuropeanise "1,5.3" = "1.53"
      ∧ deEuropeanise "1,5.3" ≠ "1.5.3" := by
  refine ⟨by decide, by decide, by decide⟩

/-- C22 (amended): for a string with exactly one comma, `deEuropeanise` returns the
text before the comma without its dots, then a dot in place of the comma, then the
text after the comma without its dots; so the text after the comma is unchanged
when it holds no dot. -/
theorem deEuropeanise_one_comma (value : String) (h : value.data.count ',' = 1) :
    ∃ pre post,
      value.data = pre ++ ',' :: post ∧ ',' ∉ pre ∧ ',' ∉ post
      ∧ (deEuropeanise value).data = withoutDots pre ++ '.' :: withoutDots post
      ∧ ('.' ∉ post → (deEuropeanise value).data = withoutDots pre ++ '.' :: post) := by
  obtain ⟨pre, post, hl, hpre, hpost⟩ := split_at_only_comma value.data h
  have hres := deEuropeanise_split value pre post hl hpre
  refine ⟨pre, post, hl, hpre, hpost, hres, ?_⟩
  intro hdot
  rw [hres, withoutDots_of_no_dot post (List.count_eq_zero.2 hdot)]

theorem deEuropeanise_one_comma_witness :
    ∃ pre post,
      "1.234,56".data = pre ++ ',' :: post ∧ ',' ∉ pre ∧ ',' ∉ post
      ∧ (deEuropeanise "1.234,56").data = withoutDots pre ++ '.' :: withoutDots post
      ∧ ('.' ∉ post → (deEuropeanise "1.234,56").data = withoutDots pre ++ '.' :: post)
      ∧ deEuropeanise "1.234,56" = "1234.56" := by
  obtain ⟨pre, post, h1, h2, h3, h4, h5⟩ := deEuropeanise_one_comma "1.234,56" (by decide)
  exact ⟨pre, post, h1, h2, h3, h4, h5, by decide⟩

/-- C23: a string without a comma is returned unchanged, however many dots it
holds, and so is a fixed point: applying `deEuropeanise` twice gives what applying
it once gives. -/
theorem deEuropeanise_dot_decimal (value : String) (h : ',' ∉ value.data) :
    deEuropeanise value = value
      ∧ deEuropeanise (deEuropeanise value) = deEuropeanise value := by
  have h1 := deEuropeanise_of_no_comma value h
  exact ⟨h1, by rw [h1, h1]⟩

theorem deEuropeanise_dot_decimal_witness :
    deEuropeanise "1.234.567" = "1.234.567"
      ∧ deEuropeanise (deEuropeanise "1.234.567") = deEuropeanise "1.234.567" :=
  deEuropeanise_dot_decimal "1.234.567" (by decide)

/-- C27 (as stated, refuted): "1,2,3" becomes "1.2,3", and that becomes "12.3". -/
theorem deEuropeanise_not_idempotent :
    deEuropeanise "1,2,3" = "1.2,3"
      ∧ deEuropeanise (deEuropeanise "1,2,3") = "12.3"
      ∧ deEuropeanise (deEuropeanise "1,2,3") ≠ deEuropeanise "1,2,3" := by
  refine ⟨by decide, by decide, by decide⟩

/-- C27 (amended): applying `deEuropeanise` twice gives what applying it once gives
exactly for the strings with at most one comma. -/
theorem deEuropeanise_idempotent_iff (value : String) :
    deEuropeanise (deEuropeanise value) = deEuropeanise value ↔ value.data.count ',' ≤ 1 := by
  constructor
  · intro hidem
    by_contra hmany
    have hmem : ',' ∈ value.data := List.count_pos_iff.1 (by omega)
    obtain ⟨pre, post, hl, hpre⟩ := List.eq_append_cons_of_mem hmem
    have hpostc : ',' ∈ post := by
      have hc : value.data.count ',' = 1 + post.count ',' := by
        rw [hl, List.count_append, List.count_cons_self, List.count_eq_zero.2 hpre]
        omega
      exact List.count_pos_iff.1 (by omega)
    have hfirst := deEuropeanise_split value pre post hl hpre
    have hmem2 : ',' ∈ (deEuropeanise value).data := by
      rw [hfirst]
      simp [(withoutDots_mem_comma post).2 hpostc]
    have hsecond := deEuropeanise_data (deEuropeanise value)
    rw [if_pos hmem2] at hsecond
    have hlen := congrArg List.length hsecond
    rw [replaceFirstComma_length, hidem] at hlen
    have hwd : withoutDots (deEuropeanise value).data
        = withoutDots pre ++ withoutDots post := by
      rw [hfirst, withoutDots_append]
      have e1 : withoutDots ('.' :: withoutDots post) = withoutDots post := by
        have := withoutDots_of_no_dot (withoutDots post)
          (List.count_eq_zero.2 (withoutDots_no_dot post))
        simp only [withoutDots] at this ⊢
        simp [this]
      have e2 : withoutDots (withoutDots pre) = withoutDots pre :=
        withoutDots_of_no_dot _ (List.count_eq_zero.2 (withoutDots_no_dot pre))
      rw [e1, e2]
    rw [hwd, hfirst] at hlen
    simp at hlen
  · intro hle
    by_cases hzero : value.data.count ',' = 0
    · have h1 := deEuropeanise_of_no_comma value (List.count_eq_zero.1 hzero)
      rw [h1, h1]
    · obtain ⟨pre, post, hl, hpre, hpost⟩ := split_at_only_comma value.data (by omega)
      have hres := deEuropeanise_split value pre post hl hpre
      apply deEuropeanise_of_no_comma
      rw [hres]
      simp only [List.mem_append, List.mem_cons, not_or]
      refine ⟨fun hm => hpre ((withoutDots_mem_comma pre).1 hm), by decide,
        fun hm => hpost ((withoutDots_mem_comma post).1 hm)⟩

theorem deEuropeanise_idempotent_witness :
    (deEuropeanise (deEuropeanise "1.234,56") = deEuropeanise "1.234,56"
        ↔ "1.234,56".data.count ',' ≤ 1)
      ∧ "1.234,56".data.count ',' ≤ 1
      ∧ deEuropeanise (deEuropeanise "1.234,56") = "1234.56" :=
  ⟨deEuropeanise_idempotent_iff "1.234,56", by decide, by decide⟩

/-! ## `initColumn` always ends in one call -/

theorem replaceFirstComma_mem_dot (l : List Char) (h : ',' ∈ l) : '.' ∈ replaceFirstComma l := by
  obtain ⟨pre, post, hl, hpre⟩ := List.eq_append_cons_of_mem h
  rw [hl, replaceFirstComma_split pre post hpre]
  simp

/-- The blank strings are the only ones that `deEuropeanise` makes blank. -/
theorem deEuropeanise_blank_iff (c : String) :
    (deEuropeanise c = "" ∨ deEuropeanise c = " ") ↔ (c = "" ∨ c = " ") := by
  by_cases hcomma : ',' ∈ c.data
  · have hdot : '.' ∈ (deEuropeanise c).data := by
      rw [deEuropeanise_data, if_pos hcomma]
      exact replaceFirstComma_mem_dot _ ((withoutDots_mem_comma c.data).2 hcomma)
    constructor
    · rintro (h | h)
      · rw [h] at hdot
        exact absurd hdot (by decide)
      · rw [h] at hdot
        exact absurd hdot (by decide)
    · rintro (h | h)
      · rw [h] at hcomma
        exact absurd hcomma (by decide)
      · rw [h] at hcomma
        exact absurd hcomma (by decide)
  · rw [deEuropeanise_of_no_comma c hcomma]

/-- The first loop of `initColumn` succeeds only on cells that are all missing or
integers. -/
theorem readIntCells_success (lc : LexicalCast) :
    ∀ (cells : List String) (u v : List Int),
      (readIntCells lc cells u v).1 = true → allIntegerCells lc cells := by
  intro cells
  induction cells with
  | nil =>
    intro u v _ c hc
    simp at hc
  | cons c rest ih =>
    intro u v h
    by_cases hm : isMissingToken c = true
    · have hcond : ¬ (c ≠ "NaN" ∧ c ≠ "nan" ∧ c ≠ "" ∧ c ≠ " ") := by
        have := (isMissingToken_iff c).1 hm
        tauto
      rw [readIntCells, if_neg hcond] at h
      have hrest := ih _ _ h
      intro x hx
      rcases List.mem_cons.1 hx with rfl | hx
      · exact Or.inl hm
      · exact hrest x hx
    · have hm2 : isMissingToken c = false := by simpa using hm
      have hcond : c ≠ "NaN" ∧ c ≠ "nan" ∧ c ≠ "" ∧ c ≠ " " := (isMissingToken_false_iff c).1 hm2
      rw [readIntCells, if_pos hcond] at h
      cases hn : lc.toInt c with
      | none =>
        simp only [hn] at h
        exact absurd h (by decide)
      | some n =>
        simp only [hn] at h
        have hrest := ih _ _ h
        intro x hx
        rcases List.mem_cons.1 hx with rfl | hx
        · exact Or.inr (by simp [hn])
        · exact hrest x hx

/-- The second loop of `initColumn` succeeds exactly when it gives up on no cell. -/
theorem readDoubleCells_success_iff (lc : LexicalCast) :
    ∀ (cells : List String) (acc : List Dbl),
      (readDoubleCells lc cells acc).1 = true ↔ ∀ c ∈ cells, ¬ doubleCastFails lc c := by
  intro cells
  induction cells with
  | nil => intro acc; simp [readDoubleCells]
  | cons c rest ih =>
    intro acc
    by_cases hcond : deEuropeanise c ≠ "" ∧ deEuropeanise c ≠ " "
    · cases hd : lc.toDouble (deEuropeanise c) with
      | none =>
        have hfail : doubleCastFails lc c := ⟨hcond, hd⟩
        rw [readDoubleCells]
        simp only [hcond, ne_eq, not_false_eq_true, and_self, if_true, hd]
        constructor
        · intro h
          exact absurd h (by decide)
        · intro h
          exact absurd hfail (h c (by simp))
      | some d =>
        have hok : ¬ doubleCastFails lc c := by
          rintro ⟨_, hnone⟩
          rw [hd] at hnone
          exact absurd hnone (by simp)
        rw [readDoubleCells]
        simp only [hcond, ne_eq, not_false_eq_true, and_self, if_true, hd]
        rw [ih]
        constructor
        · intro h x hx
          rcases List.mem_cons.1 hx with rfl | hx
          · exact hok
          · exact h x hx
        · intro h x hx
          exact h x (by simp [hx])
    · have hok : ¬ doubleCastFails lc c := fun hf => hcond hf.1
      rw [readDoubleCells]
      simp only [hcond, if_false]
      rw [ih]
      constructor
      · intro h x hx
        rcases List.mem_cons.1 hx with rfl | hx
        · exact hok
        · exact h x hx
      · intro h x hx
        exact h x (by simp [hx])

theorem initColumn_integer_attempt (lc : LexicalCast) (cells : List String) :
    ((readIntCells lc cells [] []).1 = true ∧ (readIntCells lc cells [] []).2.1.length ≤ 24)
      ↔ (allIntegerCells lc cells ∧ (distinctInts lc cells).length ≤ 24) := by
  constructor
  · rintro ⟨h1, h2⟩
    have hall := readIntCells_success lc cells [] [] h1
    obtain ⟨_, _, hlen⟩ := readIntCells_unique lc cells hall
    exact ⟨hall, by rw [← hlen]; exact h2⟩
  · rintro ⟨hall, h2⟩
    obtain ⟨h1, _, _, _⟩ := readIntCells_ok lc cells [] [] hall
    obtain ⟨_, _, hlen⟩ := readIntCells_unique lc cells hall
    exact ⟨h1, by rw [hlen]; exact h2⟩

/-- The three ways through `initColumn`. -/
theorem initColumn_cases (lc : LexicalCast) (name : String) (cells : List String) :
    (((readIntCells lc cells [] []).1 = true ∧ (readIntCells lc cells [] []).2.1.length ≤ 24) →
        initColumn lc name cells
          = (name, ColumnCall.setColumnAsNominalOrOrdinal (readIntCells lc cells [] []).2.2
              (readIntCells lc cells [] []).2.1))
      ∧ (¬ ((readIntCells lc cells [] []).1 = true
            ∧ (readIntCells lc cells [] []).2.1.length ≤ 24) →
          (readDoubleCells lc cells []).1 = true →
          initColumn lc name cells
            = (name, ColumnCall.setColumnAsScale (readDoubleCells lc cells []).2))
      ∧ (¬ ((readIntCells lc cells [] []).1 = true
            ∧ (readIntCells lc cells [] []).2.1.length ≤ 24) →
          ¬ (readDoubleCells lc cells []).1 = true →
          initColumn lc name cells = (name, ColumnCall.setColumnAsNominalString cells)) := by
  refine ⟨?_, ?_, ?_⟩
  · intro h1
    unfold initColumn
    simp only []
    rw [if_pos h1]
  · intro h1 h2
    unfold initColumn
    simp only []
    rw [if_neg h1, if_pos h2]
  · intro h1 h2
    unfold initColumn
    simp only []
    rw [if_neg h1, if_neg h2]

/-- C21: for every name and every list of cells, `initColumn` returns, having named
the column and made exactly one of the three calls. The call is the nominal-text
call exactly when the integer attempt does not succeed with at most 24 distinct
values and the double cast throws on the de-europeanised text of some cell that is
neither empty nor a single space; the nominal-text call is passed the cells as they
came. When the double cast reads "NaN" and "nan", as `boost::lexical_cast` does,
that cell is one the first loop does not treat as missing either. -/
theorem initColumn_total (lc : LexicalCast) (name : String) (cells : List String) :
    (initColumn lc name cells).1 = name
      ∧ ((∃ intValues uniqueValues, (initColumn lc name cells).2
            = ColumnCall.setColumnAsNominalOrOrdinal intValues uniqueValues)
          ∨ (∃ doubleValues, (initColumn lc name cells).2
            = ColumnCall.setColumnAsScale doubleValues)
          ∨ (initColumn lc name cells).2 = ColumnCall.setColumnAsNominalString cells)
      ∧ (∀ strings, (initColumn lc name cells).2 = ColumnCall.setColumnAsNominalString strings →
          strings = cells)
      ∧ ((initColumn lc name cells).2 = ColumnCall.setColumnAsNominalString cells
          ↔ (¬ (allIntegerCells lc cells ∧ (distinctInts lc cells).length ≤ 24)
              ∧ ∃ c ∈ cells, (c ≠ "" ∧ c ≠ " ") ∧ lc.toDouble (deEuropeanise c) = none))
      ∧ ((∀ c, c = "NaN" ∨ c = "nan" → (lc.toDouble c).isSome = true) →
          ((initColumn lc name cells).2 = ColumnCall.setColumnAsNominalString cells
            ↔ (¬ (allIntegerCells lc cells ∧ (distinctInts lc cells).length ≤ 24)
                ∧ ∃ c ∈ cells, isMissingToken c = false
                    ∧ lc.toDouble (deEuropeanise c) = none))) := by
  have hint := initColumn_integer_attempt lc cells
  obtain ⟨hc1, hc2, hc3⟩ := initColumn_cases lc name cells
  have hdbl := readDoubleCells_success_iff lc cells []
  have hfail : ∀ c, doubleCastFails lc c
      ↔ ((c ≠ "" ∧ c ≠ " ") ∧ lc.toDouble (deEuropeanise c) = none) := by
    intro c
    have hb := deEuropeanise_blank_iff c
    unfold doubleCastFails
    constructor
    · rintro ⟨⟨h1, h2⟩, h3⟩
      exact ⟨⟨fun e => (not_or.2 ⟨h1, h2⟩) (hb.2 (Or.inl e)),
        fun e => (not_or.2 ⟨h1, h2⟩) (hb.2 (Or.inr e))⟩, h3⟩
    · rintro ⟨⟨h1, h2⟩, h3⟩
      have hnb : ¬ (deEuropeanise c = "" ∨ deEuropeanise c = " ") :=
        fun e => (not_or.2 ⟨h1, h2⟩) (hb.1 e)
      exact ⟨not_or.1 hnb, h3⟩
  have hmain : (initColumn lc name cells).2 = ColumnCall.setColumnAsNominalString cells
      ↔ (¬ (allIntegerCells lc cells ∧ (distinctInts lc cells).length ≤ 24)
          ∧ ∃ c ∈ cells, (c ≠ "" ∧ c ≠ " ") ∧ lc.toDouble (deEuropeanise c) = none) := by
    by_cases h1 : (readIntCells lc cells [] []).1 = true
        ∧ (readIntCells lc cells [] []).2.1.length ≤ 24
    · rw [hc1 h1]
      constructor
      · intro h
        exact absurd h (by simp)
      · rintro ⟨h, _⟩
        exact absurd (hint.1 h1) h
    · by_cases h2 : (readDoubleCells lc cells []).1 = true
      · rw [hc2 h1 h2]
        constructor
        · intro h
          exact absurd h (by simp)
        · rintro ⟨_, c, hc, hcf⟩
          exact absurd ((hfail c).2 hcf) (hdbl.1 h2 c hc)
      · have hL : (initColumn lc name cells).2 = ColumnCall.setColumnAsNominalString cells := by
          rw [hc3 h1 h2]
        constructor
        · intro _
          refine ⟨fun h => h1 (hint.2 h), ?_⟩
          by_contra hnone
          apply h2
          rw [hdbl]
          intro c hc hcf
          exact hnone ⟨c, hc, (hfail c).1 hcf⟩
        · intro _
          exact hL
  have hcases : (∃ intValues uniqueValues, (initColumn lc name cells).2
            = ColumnCall.setColumnAsNominalOrOrdinal intValues uniqueValues)
          ∨ (∃ doubleValues, (initColumn lc name cells).2
            = ColumnCall.setColumnAsScale doubleValues)
          ∨ (initColumn lc name cells).2 = ColumnCall.setColumnAsNominalString cells := by
    by_cases h1 : (readIntCells lc cells [] []).1 = true
        ∧ (readIntCells lc cells [] []).2.1.length ≤ 24
    · exact Or.inl ⟨_, _, by rw [hc1 h1]⟩
    · by_cases h2 : (readDoubleCells lc cells []).1 = true
      · exact Or.inr (Or.inl ⟨_, by rw [hc2 h1 h2]⟩)
      · exact Or.inr (Or.inr (by rw [hc3 h1 h2]))
  refine ⟨?_, hcases, ?_, hmain, ?_⟩
  · by_cases h1 : (readIntCells lc cells [] []).1 = true
        ∧ (readIntCells lc cells [] []).2.1.length ≤ 24
    · rw [hc1 h1]
    · by_cases h2 : (readDoubleCells lc cells []).1 = true
      · rw [hc2 h1 h2]
      · rw [hc3 h1 h2]
  · intro strings h
    rcases hcases with ⟨a, b, e⟩ | ⟨a, e⟩ | e
    · rw [e] at h
      exact absurd h (by simp)
    · rw [e] at h
      exact absurd h (by simp)
    · rw [e] at h
      injection h with h
      exact h.symm
  · intro hnan
    rw [hmain]
    constructor
    · rintro ⟨h, c, hc, ⟨hb1, hb2⟩, hnone⟩
      refine ⟨h, c, hc, ?_, hnone⟩
      rw [isMissingToken_false_iff]
      have hnn : ∀ s, (s = "NaN" ∨ s = "nan") → c ≠ s := by
        intro s hs e
        have hcomma : ',' ∉ c.data := by
          rcases hs with rfl | rfl
          · rw [e]; decide
          · rw [e]; decide
        rw [deEuropeanise_of_no_comma c hcomma, e] at hnone
        have := hnan s hs
        rw [hnone] at this
        exact absurd this (by simp)
      exact ⟨hnn "NaN" (Or.inl rfl), hnn "nan" (Or.inr rfl), hb1, hb2⟩
    · rintro ⟨h, c, hc, hm, hnone⟩
      have := (isMissingToken_false_iff c).1 hm
      exact ⟨h, c, hc, ⟨this.2.2.1, this.2.2.2⟩, hnone⟩

/-! ## Column names across the boundary -/

theorem sample_encodersLawful : encodersLawful sampleExtraEncoder sampleColumnEncoder := by
  refine ⟨?_, ?_, ?_, ?_⟩
  · intro n hn
    have : n = "reserved" := by simpa [sampleExtraEncoder] using hn
    subst this
    exact ⟨by decide, by decide⟩
  · intro n _
    simp [sampleColumnEncoder]
  · intro e he
    have : e = "JaspExtra_0_Encoded" := by simpa [sampleExtraEncoder] using he
    subst this
    exact ⟨"reserved", by decide, by decide⟩
  · intro m n _ _ h
    have hd := congrArg String.data h
    simp only [sampleExtraEncoder, sampleColumnEncoder] at hd
    have hh := congrArg List.head? hd
    simp only [List.head?_cons] at hh
    exact absurd hh (by decide)

/-- C24: when the two encoders keep the contract of the name encoding, decoding an
encoded name gives the name back, for every name, and two distinct names get
distinct identifiers. Each direction asks the extra encoder first and falls back on
the default encoder. -/
theorem encodeColumnName_round_trip (extraEncodings columnEncoder : ColumnEncoder)
    (hlaw : encodersLawful extraEncodings columnEncoder) :
    (∀ n, rbridge_decodeColumnName extraEncodings columnEncoder
        (rbridge_encodeColumnName extraEncodings columnEncoder n) = n)
      ∧ (∀ n1 n2, n1 ≠ n2 →
          rbridge_encodeColumnName extraEncodings columnEncoder n1
            ≠ rbridge_encodeColumnName extraEncodings columnEncoder n2)
      ∧ (∀ n, rbridge_encodeColumnName extraEncodings columnEncoder n
          = if extraEncodings.shouldEncode n = true then extraEncodings.encode n
            else columnEncoder.encode n)
      ∧ (∀ e, rbridge_decodeColumnName extraEncodings columnEncoder e
          = if extraEncodings.shouldDecode e = true then extraEncodings.decode e
            else columnEncoder.decode e) := by
  obtain ⟨h1, h2, h3, h4⟩ := hlaw
  have hround : ∀ n, rbridge_decodeColumnName extraEncodings columnEncoder
      (rbridge_encodeColumnName extraEncodings columnEncoder n) = n := by
    intro n
    by_cases hn : extraEncodings.shouldEncode n = true
    · obtain ⟨ha, hb⟩ := h1 n hn
      simp only [rbridge_encodeColumnName, rbridge_decodeColumnName, hn, if_true, ha, hb]
    · have hn2 : extraEncodings.shouldEncode n = false := by simpa using hn
      have hnot : extraEncodings.shouldDecode (columnEncoder.encode n) = false := by
        by_contra hd
        have hd2 : extraEncodings.shouldDecode (columnEncoder.encode n) = true := by
          simpa using hd
        obtain ⟨m, hm, he⟩ := h3 _ hd2
        exact h4 m n hm hn2 he
      simp only [rbridge_encodeColumnName, rbridge_decodeColumnName, hn2, Bool.false_eq_true,
        if_false, hnot, h2 n hn2]
  refine ⟨hround, ?_, fun _ => rfl, fun _ => rfl⟩
  intro n1 n2 hne heq
  apply hne
  rw [← hround n1, ← hround n2, heq]

theorem encodeColumnName_round_trip_witness :
    rbridge_encodeColumnName sampleExtraEncoder sampleColumnEncoder "height" = "cheight"
      ∧ rbridge_encodeColumnName sampleExtraEncoder sampleColumnEncoder "reserved"
        = "JaspExtra_0_Encoded"
      ∧ rbridge_decodeColumnName sampleExtraEncoder sampleColumnEncoder
          (rbridge_encodeColumnName sampleExtraEncoder sampleColumnEncoder "height") = "height"
      ∧ rbridge_decodeColumnName sampleExtraEncoder sampleColumnEncoder
          (rbridge_encodeColumnName sampleExtraEncoder sampleColumnEncoder "reserved") = "reserved"
      ∧ rbridge_encodeColumnName sampleExtraEncoder sampleColumnEncoder "height"
          ≠ rbridge_encodeColumnName sampleExtraEncoder sampleColumnEncoder "reserved" :=
  ⟨by decide, by decide,
    (encodeColumnName_round_trip sampleExtraEncoder sampleColumnEncoder
      sample_encodersLawful).1 "height",
    (encodeColumnName_round_trip sampleExtraEncoder sampleColumnEncoder
      sample_encodersLawful).1 "reserved",
    (encodeColumnName_round_trip sampleExtraEncoder sampleColumnEncoder
      sample_encodersLawful).2.1 "height" "reserved" (by decide)⟩

/-! ## The messages of a failed filter -/

/-- The message of every failure of `rbridge_applyFilter` on a filter that is
neither `*` nor empty: what the whitelist threw, as it was thrown; or the decoded
message of the runtime, or the fixed text when that is empty; or one of the two
texts about the returned vector. -/
theorem applyFilter_failure_messages (rt : Runtime) (n : Nat) (filterCode g msg : String)
    (hne : filterCode ≠ "*" ∧ filterCode ≠ "")
    (h : (rbridge_applyFilter rt (some n) filterCode g).result = .error msg) :
    rt.scriptIsSafe (filter64 rt filterCode g) = some msg
      ∨ (rt.scriptIsSafe (filter64 rt filterCode g) = none
          ∧ (rt.runFilter (filter64 rt filterCode g)).arrayLength < 0
          ∧ ((rt.decodeAll rt.lastErrorMsg ≠ "" ∧ msg = rt.decodeAll rt.lastErrorMsg)
              ∨ (rt.decodeAll rt.lastErrorMsg = "" ∧ msg = incomprehensibleMsg)))
      ∨ (rt.scriptIsSafe (filter64 rt filterCode g) = none
          ∧ 0 ≤ (rt.runFilter (filter64 rt filterCode g)).arrayLength
          ∧ (msg = filteredOutAllMsg
              ∨ msg = shapeMismatchMsg n (rt.runFilter (filter64 rt filterCode g)).arrayLength)) := by
  obtain ⟨h1, h2⟩ := hne
  have htriv : ¬ (filterCode = "*" ∨ filterCode = "") := by tauto
  simp only [rbridge_applyFilter, htriv, if_false] at h
  cases hs : rt.scriptIsSafe (filter64 rt filterCode g) with
  | some w =>
    simp only [hs] at h
    injection h with h
    exact Or.inl (by rw [h])
  | none =>
    simp only [hs] at h
    by_cases hneg : (rt.runFilter (filter64 rt filterCode g)).arrayLength < 0
    · simp only [hneg, if_true] at h
      injection h with h
      refine Or.inr (Or.inl ⟨rfl, hneg, ?_⟩)
      by_cases he : rt.decodeAll rt.lastErrorMsg = ""
      · rw [if_pos he] at h
        exact Or.inr ⟨he, h.symm⟩
      · rw [if_neg he] at h
        exact Or.inl ⟨he, h.symm⟩
    · simp only [hneg, if_false] at h
      refine Or.inr (Or.inr ⟨rfl, by omega, ?_⟩)
      split_ifs at h
      · injection h with h
        exact Or.inl h.symm
      · injection h with h
        exact Or.inr h.symm
      · injection h with h
        exact Or.inl h.symm
      · injection h with h
        exact Or.inr h.symm

/-- C25 (code defect): with the column `height` encoded as `JaspColumn_0_Encoded`,
the filter `height(1)` is rejected by the whitelist, and the failure of
`rbridge_applyFilter` carries the whitelist's words unchanged, encoded name
included, although `decodeAll` would have restored the name; the failure of the
filter `height > 1` in the R runtime, raised a few lines further down, is decoded. -/
theorem safety_failure_message_is_not_decoded :
    (rbridge_applyFilter leakingRuntime (some 3) "height(1)" "").result
        = .error "Your filter uses R functions that are not allowed: JaspColumn_0_Encoded"
      ∧ leakingRuntime.decodeAll
          "Your filter uses R functions that are not allowed: JaspColumn_0_Encoded"
        = "Your filter uses R functions that are not allowed: height"
      ∧ (rbridge_applyFilter leakingRuntime (some 3) "height > 1" "").result
        = .error "object height not found"
      ∧ leakingRuntime.lastErrorMsg = "object JaspColumn_0_Encoded not found" := by
  refine ⟨by rfl, by decide, by rfl, by rfl⟩

/-! ## No dataset -/

/-- Without a dataset, `rbridge_readDataSetForFiltering` and
`rbridge_readDataSetDescription` reach `rbridge_dataSet->columns()` whatever their
arguments, the latter after it has replaced its static array; `rbridge_readDataSet`
returns null on the same bridge. -/
theorem no_dataset_dereferences (b : DataBridge) (hsrc : b.dataSetSource = none)
    (encode : String → String) (filterColumnsUsed : List String) (colMax : Nat) (slot : Slot)
    (headers : List RBridgeColumnType) (descriptionSlot : DescriptionSlot) (o : Bool) :
    rbridge_readDataSetForFiltering b encode filterColumnsUsed colMax slot
        = ((FilteringResult.nullDereference, colMax), slot)
      ∧ rbridge_readDataSetDescription b (some headers) descriptionSlot
        = (DescriptionResult.nullDereference,
            ⟨some (List.replicate headers.length RBridgeColumnDescription.zeroed),
              headers.length⟩)
      ∧ rbridge_readDataSet b (some headers) o slot = (ReadResult.null, slot) := by
  refine ⟨?_, ?_, ?_⟩
  · simp only [rbridge_readDataSetForFiltering, hsrc]
  · simp only [rbridge_readDataSetDescription, hsrc]
  · simp only [rbridge_readDataSet, hsrc]

/-- Without a dataset, `rbridge_evalRCodeWhiteListed` does what it does for a
dataset of zero rows, as its `rbridge_dataSet == nullptr ? 0 : ...` says: when the
code passes the safety check it binds `rowcount` to 0, attaches the data, evaluates
the code, detaches, and returns the result of the evaluation; when the check rejects
the code it returns the message of the rejection. -/
theorem evalRCode_without_dataset (rt : Runtime) (rCode : String) (setWd : Bool) :
    rbridge_evalRCodeWhiteListed rt none rCode setWd
        = rbridge_evalRCodeWhiteListed rt (some 0) rCode setWd
      ∧ (rt.scriptIsSafe (rCode64 rt rCode) = none →
          (rbridge_evalRCodeWhiteListed rt none rCode setWd).trace
              = [RCall.resetErrorMsg, RCall.scriptIsSafe (rCode64 rt rCode),
                  RCall.runScript "rowcount    <- 0;",
                  RCall.runScript (setupReadDataScript "data" ".readFilterDatasetToEnd()"),
                  RCall.evalRCode (rCode64 rt rCode) setWd, RCall.runScript "detach(data)",
                  RCall.getLastErrorMsg, RCall.setErrorMsg (rt.decodeAll rt.lastErrorMsg)]
            ∧ (rbridge_evalRCodeWhiteListed rt none rCode setWd).result
              = .ok (rt.evalRCode (rCode64 rt rCode) setWd))
      ∧ (∀ what, rt.scriptIsSafe (rCode64 rt rCode) = some what →
          (rbridge_evalRCodeWhiteListed rt none rCode setWd).result
            = .ok ("R code is not safe because of: " ++ what)) := by
  refine ⟨rfl, ?_, ?_⟩
  · intro h
    constructor
    · simp only [rbridge_evalRCodeWhiteListed, h]
      rfl
    · simp only [rbridge_evalRCodeWhiteListed, h]
  · intro what h
    simp only [rbridge_evalRCodeWhiteListed, h]

/-- C26 (code defect): when the dataset provider yields no dataset,
`rbridge_readDataSetForFiltering` with the filter column `x` and
`rbridge_readDataSetDescription` with a header for `x` do not return null: both call
`rbridge_dataSet->columns()` on the null dataset, the second after it has put a new
array in its statics. On the same bridge `rbridge_readDataSet` and
`rbridge_readFullDataSetHelper` return null and leave their slot alone. And
`rbridge_evalRCodeWhiteListed` binds `rowcount` to 0 and evaluates the code. -/
theorem no_dataset_is_not_a_clean_failure :
    bridgeWithoutDataSet.dataSetSource = none
      ∧ (rbridge_readDataSetForFiltering bridgeWithoutDataSet id ["x"] 0 ⟨none, 0⟩).1.1
        = FilteringResult.nullDereference
      ∧ (rbridge_readDataSetForFiltering bridgeWithoutDataSet id ["x"] 0 ⟨none, 0⟩).1.1
        ≠ FilteringResult.null
      ∧ (rbridge_readDataSetDescription bridgeWithoutDataSet (some nominalHeaderX) ⟨none, 0⟩).1
        = DescriptionResult.nullDereference
      ∧ (rbridge_readDataSetDescription bridgeWithoutDataSet (some nominalHeaderX) ⟨none, 0⟩).1
        ≠ DescriptionResult.null
      ∧ (rbridge_readDataSetDescription bridgeWithoutDataSet (some nominalHeaderX) ⟨none, 0⟩).2
        = ⟨some [RBridgeColumnDescription.zeroed], 1⟩
      ∧ rbridge_readDataSet bridgeWithoutDataSet (some nominalHeaderX) false ⟨none, 0⟩
        = (ReadResult.null, ⟨none, 0⟩)
      ∧ rbridge_readFullDataSetHelper bridgeWithoutDataSet id 0 false ⟨none, 0⟩
        = ((ReadResult.null, 0), ⟨none, 0⟩)
      ∧ RCall.runScript "rowcount    <- 0;"
          ∈ (rbridge_evalRCodeWhiteListed (sampleRuntime ⟨0, []⟩) none "1 + 1" false).trace
      ∧ RCall.evalRCode "local(\x7b1 + 1\x7d)" false
          ∈ (rbridge_evalRCodeWhiteListed (sampleRuntime ⟨0, []⟩) none "1 + 1" false).trace := by
  refine ⟨rfl, rfl, by decide, rfl, by decide, rfl, rfl, rfl, by decide, by decide⟩

/-! ## The description of a column and its record -/

/-- The flags and labels of a description, next to those of the record of the same
column and header. -/
theorem describeColumn_readColumn (b : DataBridge) (dataSet : DataSet) (o : Bool) (n : Nat)
    (columnInfo : RBridgeColumnType) (column : Column) :
    (describeColumn b columnInfo column).name = (readColumn b dataSet o n columnInfo column).name
      ∧ (describeColumn b columnInfo column).isScale
        = (readColumn b dataSet o n columnInfo column).isScale
      ∧ ((describeColumn b columnInfo column).hasLabels
            = (readColumn b dataSet o n columnInfo column).hasLabels
          ↔ ¬ (resolveRequestedType columnInfo column = columnType.scale
                ∧ column.type = columnType.unknown))
      ∧ ((describeColumn b columnInfo column).isOrdinal
            = (readColumn b dataSet o n columnInfo column).isOrdinal
          ↔ ¬ ((resolveRequestedType columnInfo column = columnType.scale
                  ∧ column.type = columnType.ordinal)
                ∨ (resolveRequestedType columnInfo column = columnType.ordinal
                  ∧ column.type = columnType.scale)))
      ∧ ((describeColumn b columnInfo column).hasLabels = true →
          (readColumn b dataSet o n columnInfo column).hasLabels = true
            ∧ (describeColumn b columnInfo column).labels
              = (readColumn b dataSet o n columnInfo column).labels
            ∧ (describeColumn b columnInfo column).nbLabels
              = (readColumn b dataSet o n columnInfo column).nbLabels) := by
  have hlab := indexBuckets_labels b (collectUniqueValues b column.dbls []) 0 ([], [])
  simp only [List.nil_append] at hlab
  unfold describeColumn readColumn
  simp only []
  generalize resolveRequestedType columnInfo column = req
  cases req <;> cases hct : column.type <;>
    simp [setResultColIntsLabels, scaleToNominal, RBridgeColumnDescription.zeroed,
      RBridgeColumn.zeroed, hlab]

theorem describeColumns_all_found (b : DataBridge) (dataSet : DataSet) :
    ∀ (headers : List RBridgeColumnType) (done rest : List RBridgeColumnDescription),
      allFound b dataSet headers →
      describeColumns b dataSet headers done.length
          (done ++ List.replicate headers.length RBridgeColumnDescription.zeroed ++ rest)
        = (none, done ++ headers.map (descriptionFor b dataSet) ++ rest) := by
  intro headers
  induction headers with
  | nil => intro done rest _; simp [describeColumns]
  | cons h hs ih =>
    intro done rest hfound
    have hh : (dataSet.column (b.decode h.name)).isSome = true := hfound h (by simp)
    obtain ⟨column, hcol⟩ := Option.isSome_iff_exists.1 hh
    have hrest : allFound b dataSet hs := fun x hx => hfound x (by simp [hx])
    simp only [describeColumns, hcol]
    have hset : (done ++ List.replicate (h :: hs).length RBridgeColumnDescription.zeroed
          ++ rest).set done.length (describeColumn b h column)
        = (done ++ [describeColumn b h column])
            ++ List.replicate hs.length RBridgeColumnDescription.zeroed ++ rest := by
      rw [List.append_assoc, List.length_cons, List.replicate_succ]
      simp [List.set_append]
    rw [hset]
    have := ih (done ++ [describeColumn b h column]) rest hrest
    rw [List.length_append, List.length_singleton] at this
    rw [this]
    simp [descriptionFor, hcol]

/-- With a dataset and every requested column present,
`rbridge_readDataSetDescription` returns one description per header. -/
theorem readDataSetDescription_descriptions (b : DataBridge) (dataSet : DataSet)
    (headers : List RBridgeColumnType) (slot : DescriptionSlot)
    (hsrc : b.dataSetSource = some dataSet) (hfound : allFound b dataSet headers) :
    (rbridge_readDataSetDescription b (some headers) slot).1
      = DescriptionResult.descriptions (headers.map (descriptionFor b dataSet)) := by
  have hcols := describeColumns_all_found b dataSet headers [] [] hfound
  simp only [List.length_nil, List.nil_append, List.append_nil] at hcols
  simp only [rbridge_readDataSetDescription, hsrc, hcols]

theorem ranked_allFound_nominal :
    allFound (ieeeBridge (some rankedDataSet)) rankedDataSet rankedHeadersNominal := by
  intro h hh
  simp only [rankedHeadersNominal, List.mem_cons, List.mem_singleton, List.not_mem_nil,
    or_false] at hh
  rcases hh with rfl | rfl <;> rfl

/-- C28 (as stated, refuted): for the ordinal column `r` requested as scale and the
scale column `x` requested as ordinal, `rbridge_readDataSetDescription` reports
`isOrdinal = true` and `rbridge_readDataSet` reports `isOrdinal = false`. -/
theorem description_isOrdinal_differs :
    ∃ records resultCols recordR recordX descriptionR descriptionX,
      (rbridge_readDataSet (ieeeBridge (some rankedDataSet)) (some rankedHeadersCrossed) false
          ⟨none, 0⟩).1 = ReadResult.buffer records
      ∧ (rbridge_readDataSetDescription (ieeeBridge (some rankedDataSet))
          (some rankedHeadersCrossed) ⟨none, 0⟩).1 = DescriptionResult.descriptions resultCols
      ∧ records[0]? = some recordR ∧ resultCols[0]? = some descriptionR
      ∧ records[1]? = some recordX ∧ resultCols[1]? = some descriptionX
      ∧ descriptionR.isOrdinal = true ∧ recordR.isOrdinal = false
      ∧ descriptionX.isOrdinal = true ∧ recordX.isOrdinal = false :=
  ⟨_, _, _, _, _, _, rfl, rfl, rfl, rfl, rfl, rfl, rfl, rfl, rfl, rfl⟩

/-- C28 (amended): for a column of the dataset and a requested type,
`rbridge_readDataSetDescription` and `rbridge_readDataSet` report the same name and
the same `isScale`; whenever the description has `hasLabels`, the record has it too,
with the same label list and label count; `hasLabels` is the same except for a
column of type unknown requested as scale; `isOrdinal` is the same except for an
ordinal column requested as scale and a scale column requested as ordinal. -/
theorem description_agrees_with_record (b : DataBridge) (dataSet : DataSet)
    (headers : List RBridgeColumnType) (o : Bool) (slot : Slot) (descriptionSlot : DescriptionSlot)
    (j : Nat) (hj : j < headers.length) (column : Column)
    (hsrc : b.dataSetSource = some dataSet) (hfound : allFound b dataSet headers)
    (hcol : dataSet.column (b.decode headers[j].name) = some column) :
    ∃ records record resultCols description,
      (rbridge_readDataSet b (some headers) o slot).1 = ReadResult.buffer records
      ∧ records[j]? = some record
      ∧ (rbridge_readDataSetDescription b (some headers) descriptionSlot).1
        = DescriptionResult.descriptions resultCols
      ∧ resultCols[j]? = some description
      ∧ description.name = record.name
      ∧ description.isScale = record.isScale
      ∧ (description.hasLabels = true →
          record.hasLabels = true ∧ description.labels = record.labels
            ∧ description.nbLabels = record.nbLabels)
      ∧ (description.hasLabels = record.hasLabels
          ↔ ¬ (resolveRequestedType headers[j] column = columnType.scale
                ∧ column.type = columnType.unknown))
      ∧ (description.isOrdinal = record.isOrdinal
          ↔ ¬ ((resolveRequestedType headers[j] column = columnType.scale
                  ∧ column.type = columnType.ordinal)
                ∨ (resolveRequestedType headers[j] column = columnType.ordinal
                  ∧ column.type = columnType.scale))) := by
  have hrec : recordFor b dataSet o headers[j]
      = readColumn b dataSet o (effectiveRowCount dataSet o) headers[j] column := by
    simp [recordFor, hcol]
  have hdes : descriptionFor b dataSet headers[j] = describeColumn b headers[j] column := by
    simp [descriptionFor, hcol]
  obtain ⟨h1, h2, h3, h4, h5⟩ :=
    describeColumn_readColumn b dataSet o (effectiveRowCount dataSet o) headers[j] column
  refine ⟨_, recordFor b dataSet o headers[j], _, descriptionFor b dataSet headers[j],
    readDataSet_buffer b dataSet headers o slot hsrc hfound, buffer_record _ _ _ j hj,
    readDataSetDescription_descriptions b dataSet headers descriptionSlot hsrc hfound, ?_,
    ?_, ?_, ?_, ?_, ?_⟩
  · simp [hj]
  · rw [hrec, hdes]
    exact h1
  · rw [hrec, hdes]
    exact h2
  · rw [hrec, hdes]
    exact h5
  · rw [hrec, hdes]
    exact h3
  · rw [hrec, hdes]
    exact h4

theorem description_agrees_with_record_witness :
    ∃ records record resultCols description,
      (rbridge_readDataSet (ieeeBridge (some rankedDataSet)) (some rankedHeadersNominal) false
          ⟨none, 0⟩).1 = ReadResult.buffer records
      ∧ records[1]? = some record
      ∧ (rbridge_readDataSetDescription (ieeeBridge (some rankedDataSet))
          (some rankedHeadersNominal) ⟨none, 0⟩).1 = DescriptionResult.descriptions resultCols
      ∧ resultCols[1]? = some description
      ∧ description.isScale = record.isScale
      ∧ description.hasLabels = record.hasLabels
      ∧ description.isOrdinal = record.isOrdinal
      ∧ description.labels = record.labels
      ∧ description.labels = some ["1.000000", "2.500000"] := by
  obtain ⟨records, record, resultCols, description, h1, h2, h3, h4, _, h6, h7, h8, h9⟩ :=
    description_agrees_with_record (ieeeBridge (some rankedDataSet)) rankedDataSet
      rankedHeadersNominal false ⟨none, 0⟩ ⟨none, 0⟩ 1 (by decide)
      ⟨"x", columnType.scale, [], [dblOne, dblTwoAndHalf], []⟩ rfl ranked_allFound_nominal rfl
  have hd : description
      = descriptionFor (ieeeBridge (some rankedDataSet)) rankedDataSet ⟨"x", columnType.nominal⟩ := by
    have hr : (rbridge_readDataSetDescription (ieeeBridge (some rankedDataSet))
        (some rankedHeadersNominal) ⟨none, 0⟩).1
        = DescriptionResult.descriptions
            (rankedHeadersNominal.map
              (descriptionFor (ieeeBridge (some rankedDataSet)) rankedDataSet)) := rfl
    rw [hr] at h3
    injection h3 with h3
    subst h3
    exact (Option.some.inj h4).symm
  have hl : description.labels = some ["1.000000", "2.500000"] := by
    rw [hd]
    rfl
  have hlabels : description.hasLabels = true := by
    rw [hd]
    rfl
  exact ⟨records, record, resultCols, description, h1, h2, h3, h4, h6,
    h8.2 (by decide), h9.2 (by decide), (h7 hlabels).2.1, hl⟩

/-! ## The quantisation fallback under a filter -/

theorem collectUniqueValues_withDataSet (b : DataBridge) (dataSet : DataSet) :
    ∀ (dbls : List Dbl) (acc : List Int),
      collectUniqueValues (b.withDataSet dataSet) dbls acc = collectUniqueValues b dbls acc := by
  intro dbls
  induction dbls with
  | nil => intro acc; rfl
  | cons v rest ih =>
    intro acc
    simp only [collectUniqueValues]
    rw [ih, ih]
    rfl

/-- The labels of the quantisation fallback come from the column alone. -/
theorem scaleToNominal_labels (b : DataBridge) (dataSet : DataSet) (o : Bool) (n : Nat)
    (column : Column) (resultCol : RBridgeColumn) :
    (scaleToNominal (b.withDataSet dataSet) dataSet o n column resultCol).labels
        = some (rbridge_getLabelsOfStrings
            ((collectUniqueValues b column.dbls []).map (bucketLabel b))).1
      ∧ (scaleToNominal (b.withDataSet dataSet) dataSet o n column resultCol).nbLabels
        = (rbridge_getLabelsOfStrings
            ((collectUniqueValues b column.dbls []).map (bucketLabel b))).2
      ∧ (scaleToNominal (b.withDataSet dataSet) dataSet o n column resultCol).hasLabels = true := by
  have hlab := indexBuckets_labels (b.withDataSet dataSet)
    (collectUniqueValues (b.withDataSet dataSet) column.dbls []) 0 ([], [])
  simp only [List.nil_append, collectUniqueValues_withDataSet] at hlab
  have hb : bucketLabel (b.withDataSet dataSet) = bucketLabel b := rfl
  rw [hb] at hlab
  refine ⟨?_, ?_, ?_⟩
  · simp only [scaleToNominal, collectUniqueValues_withDataSet, hlab]
  · simp only [scaleToNominal, collectUniqueValues_withDataSet, hlab]
  · simp only [scaleToNominal]

/-- The payload of the quantisation fallback: the index of every surviving row. -/
theorem scaleToNominal_intCells (b : DataBridge) (dataSet : DataSet) (o : Bool)
    (column : Column) (resultCol : RBridgeColumn)
    (hmask : o = true → dataSet.maskConsistent) (hrows : column.dbls.length = dataSet.rowCount) :
    (scaleToNominal b dataSet o (effectiveRowCount dataSet o) column resultCol).intCells
      = (survivingRows dataSet o).map (fun i =>
          bucketIndexOf b (indexBuckets b (collectUniqueValues b column.dbls []) 0 ([], [])).1
            (column.dbls.getD i Dbl.zero)) := by
  have hlen := survivingRows_length dataSet o hmask
  simp only [scaleToNominal, RBridgeColumn.intCells]
  rw [copiedPayload_eq dataSet o (0 : Int) Dbl.zero _ column.dbls hmask hrows]
  exact intArray_cells _ _ (by simp [hlen])

/-- C29: for a scale column requested as a coded type, the label list and the label
count that `rbridge_readDataSet` emits are the same under any two filters and
settings of `obeyFilter`, and under a filter every surviving row is emitted with the
index that the row has in the reading without the filter. -/
theorem readDataSet_quantised_under_filter (b : DataBridge) (dataSet : DataSet)
    (filter₁ filter₂ : Filter) (o₁ o₂ : Bool) (headers : List RBridgeColumnType)
    (slot₁ slot₂ slot₀ : Slot) (j : Nat) (hj : j < headers.length) (column : Column)
    (hfound : allFound b dataSet headers)
    (hmask : o₁ = true → (dataSet.withFilter filter₁).maskConsistent)
    (hrows : column.dbls.length = dataSet.rowCount)
    (hcol : dataSet.column (b.decode headers[j].name) = some column)
    (htype : column.type = columnType.scale)
    (hreq : resolveRequestedType headers[j] column ≠ columnType.scale) :
    ∃ records₁ record₁ records₂ record₂ records₀ record₀,
      (rbridge_readDataSet (b.withDataSet (dataSet.withFilter filter₁)) (some headers) o₁ slot₁).1
          = ReadResult.buffer records₁
      ∧ records₁[j]? = some record₁
      ∧ (rbridge_readDataSet (b.withDataSet (dataSet.withFilter filter₂)) (some headers) o₂ slot₂).1
          = ReadResult.buffer records₂
      ∧ records₂[j]? = some record₂
      ∧ (rbridge_readDataSet (b.withDataSet (dataSet.withFilter filter₁)) (some headers) false
          slot₀).1 = ReadResult.buffer records₀
      ∧ records₀[j]? = some record₀
      ∧ record₁.hasLabels = true
      ∧ record₁.labels = record₂.labels ∧ record₁.nbLabels = record₂.nbLabels
      ∧ record₁.labels = record₀.labels ∧ record₁.nbLabels = record₀.nbLabels
      ∧ record₀.intCells.length = dataSet.rowCount
      ∧ record₁.intCells.length = (survivingRows (dataSet.withFilter filter₁) o₁).length
      ∧ ∀ (k i : Nat), (survivingRows (dataSet.withFilter filter₁) o₁)[k]? = some i →
          i < dataSet.rowCount ∧ record₁.intCells[k]? = record₀.intCells[i]? := by
  have hrec : ∀ (filter : Filter) (o : Bool),
      recordFor (b.withDataSet (dataSet.withFilter filter)) (dataSet.withFilter filter) o headers[j]
        = scaleToNominal (b.withDataSet (dataSet.withFilter filter)) (dataSet.withFilter filter) o
            (effectiveRowCount (dataSet.withFilter filter) o) column
            { RBridgeColumn.zeroed with
              name := some headers[j].name
              nbRows := effectiveRowCount (dataSet.withFilter filter) o } :=
    fun filter o => recordFor_scaleToNominal (b.withDataSet (dataSet.withFilter filter))
      (dataSet.withFilter filter) o headers[j] column hcol htype hreq
  have hread : ∀ (filter : Filter) (o : Bool) (slot : Slot),
      (rbridge_readDataSet (b.withDataSet (dataSet.withFilter filter)) (some headers) o slot).1
        = ReadResult.buffer (headers.map (recordFor (b.withDataSet (dataSet.withFilter filter))
            (dataSet.withFilter filter) o) ++ [rowNumberRecord (dataSet.withFilter filter) o]) :=
    fun filter o slot => readDataSet_buffer (b.withDataSet (dataSet.withFilter filter))
      (dataSet.withFilter filter) headers o slot rfl hfound
  have hlabels : ∀ (filter : Filter) (o : Bool), _ :=
    fun filter o => scaleToNominal_labels b (dataSet.withFilter filter) o
      (effectiveRowCount (dataSet.withFilter filter) o) column
      { RBridgeColumn.zeroed with
        name := some headers[j].name
        nbRows := effectiveRowCount (dataSet.withFilter filter) o }
  have hcells₁ := scaleToNominal_intCells (b.withDataSet (dataSet.withFilter filter₁))
    (dataSet.withFilter filter₁) o₁ column
    { RBridgeColumn.zeroed with
      name := some headers[j].name
      nbRows := effectiveRowCount (dataSet.withFilter filter₁) o₁ } hmask hrows
  have hcells₀ := scaleToNominal_intCells (b.withDataSet (dataSet.withFilter filter₁))
    (dataSet.withFilter filter₁) false column
    { RBridgeColumn.zeroed with
      name := some headers[j].name
      nbRows := effectiveRowCount (dataSet.withFilter filter₁) false }
    (fun h => by cases h) hrows
  rw [← hrec] at hcells₁ hcells₀
  have hall : survivingRows (dataSet.withFilter filter₁) false = List.range dataSet.rowCount := by
    simp only [survivingRows, keptRows_no_filter]
    rfl
  rw [hall] at hcells₀
  refine ⟨_, recordFor (b.withDataSet (dataSet.withFilter filter₁)) (dataSet.withFilter filter₁)
      o₁ headers[j],
    _, recordFor (b.withDataSet (dataSet.withFilter filter₂)) (dataSet.withFilter filter₂)
      o₂ headers[j],
    _, recordFor (b.withDataSet (dataSet.withFilter filter₁)) (dataSet.withFilter filter₁)
      false headers[j],
    hread filter₁ o₁ slot₁, buffer_record _ _ _ j hj,
    hread filter₂ o₂ slot₂, buffer_record _ _ _ j hj,
    hread filter₁ false slot₀, buffer_record _ _ _ j hj, ?_, ?_, ?_, ?_, ?_, ?_, ?_, ?_⟩
  · rw [hrec]
    exact (hlabels filter₁ o₁).2.2
  · rw [hrec, hrec, (hlabels filter₁ o₁).1, (hlabels filter₂ o₂).1]
  · rw [hrec, hrec, (hlabels filter₁ o₁).2.1, (hlabels filter₂ o₂).2.1]
  · rw [hrec, hrec, (hlabels filter₁ o₁).1, (hlabels filter₁ false).1]
  · rw [hrec, hrec, (hlabels filter₁ o₁).2.1, (hlabels filter₁ false).2.1]
  · rw [hcells₀]
    simp
  · rw [hcells₁, List.length_map]
  · intro k i hk
    have hi : i < dataSet.rowCount :=
      survivingRows_lt (dataSet.withFilter filter₁) o₁ k i hk
    refine ⟨hi, ?_⟩
    rw [hcells₁, hcells₀, map_getElem?_of_some _ _ k i hk]
    simp [List.getElem?_map, List.getElem?_range hi]

theorem twoValue_allFound (filter : Filter) :
    allFound ((ieeeBridge none).withDataSet (twoValueDataSet.withFilter filter))
      (twoValueDataSet.withFilter filter) nominalHeaderX := by
  intro h hh
  simp only [nominalHeaderX, List.mem_singleton] at hh
  subst hh
  rfl

theorem readDataSet_quantised_under_filter_witness :
    ∃ records₁ record₁ records₂ record₂,
      (rbridge_readDataSet ((ieeeBridge none).withDataSet (twoValueDataSet.withFilter secondRowOnly))
          (some nominalHeaderX) true ⟨none, 0⟩).1 = ReadResult.buffer records₁
      ∧ records₁[0]? = some record₁
      ∧ (rbridge_readDataSet ((ieeeBridge none).withDataSet (twoValueDataSet.withFilter bothRows))
          (some nominalHeaderX) true ⟨none, 0⟩).1 = ReadResult.buffer records₂
      ∧ records₂[0]? = some record₂
      ∧ record₁.labels = record₂.labels ∧ record₁.nbLabels = record₂.nbLabels
      ∧ record₁.labelTexts = ["1.000000", "2.500000"] ∧ record₁.nbLabels = 2
      ∧ record₁.intCells = [2] ∧ record₂.intCells = [1, 2] := by
  obtain ⟨records₁, record₁, records₂, record₂, _, _, h1, h2, h3, h4, _, _, _, h8, h9, _⟩ :=
    readDataSet_quantised_under_filter (ieeeBridge none) twoValueDataSet secondRowOnly bothRows
      true true nominalHeaderX ⟨none, 0⟩ ⟨none, 0⟩ ⟨none, 0⟩ 0 (by decide)
      ⟨"x", columnType.scale, [], [dbl1_0001, dblTwoAndHalf], []⟩
      (twoValue_allFound twoValueDataSet.filter) (fun _ => ⟨rfl, rfl⟩) rfl rfl rfl (by decide)
  refine ⟨records₁, record₁, records₂, record₂, h1, h2, h3, h4, h8, h9, ?_, ?_, ?_, ?_⟩
  all_goals
    have hr1 := readDataSet_buffer_unique
      ((ieeeBridge none).withDataSet (twoValueDataSet.withFilter secondRowOnly))
      (twoValueDataSet.withFilter secondRowOnly) nominalHeaderX true ⟨none, 0⟩ records₁ rfl
      (twoValue_allFound secondRowOnly) h1
    have hr2 := readDataSet_buffer_unique
      ((ieeeBridge none).withDataSet (twoValueDataSet.withFilter bothRows))
      (twoValueDataSet.withFilter bothRows) nominalHeaderX true ⟨none, 0⟩ records₂ rfl
      (twoValue_allFound bothRows) h3
    subst hr1
    subst hr2
    have e1 : record₁ = recordFor
        ((ieeeBridge none).withDataSet (twoValueDataSet.withFilter secondRowOnly))
        (twoValueDataSet.withFilter secondRowOnly) true ⟨"x", columnType.nominal⟩ :=
      (Option.some.inj h2).symm
    have e2 : record₂ = recordFor
        ((ieeeBridge none).withDataSet (twoValueDataSet.withFilter bothRows))
        (twoValueDataSet.withFilter bothRows) true ⟨"x", columnType.nominal⟩ :=
      (Option.some.inj h4).symm
    subst e1
    subst e2
    rfl

/-! ## A nominalText column requested as scale -/

theorem allFound_set (b : DataBridge) (dataSet : DataSet) (headers : List RBridgeColumnType)
    (j : Nat) (hj : j < headers.length) (type : columnType)
    (hfound : allFound b dataSet headers) :
    allFound b dataSet (headers.set j ⟨headers[j].name, type⟩) := by
  intro h hh
  rcases List.mem_or_eq_of_mem_set hh with hmem | heq
  · exact hfound h hmem
  · subst heq
    exact hfound headers[j] (List.getElem_mem hj)

/-- For a nominalText column the record does not depend on whether the header asks
for scale or for nominal. -/
theorem readColumn_text_as_scale (b : DataBridge) (dataSet : DataSet) (o : Bool) (n : Nat)
    (name : String) (column : Column) (htype : column.type = columnType.nominalText) :
    readColumn b dataSet o n ⟨name, columnType.scale⟩ column
      = readColumn b dataSet o n ⟨name, columnType.nominal⟩ column := by
  simp [readColumn, resolveRequestedType, htype, setResultColIntsLabels, labelIndices]

/-- C30: a nominalText column requested as scale is emitted with `isScale = false`,
`hasLabels = true`, no doubles and the column's label texts; at every emitted
position the sentinel stays the sentinel and any other code is replaced by the
1-based position of its label, for a column in which every stored code is the
sentinel or the code of exactly one label; and the record is the one that is emitted
when the header asks for nominal. -/
theorem readDataSet_text_as_scale (b : DataBridge) (dataSet : DataSet)
    (headers : List RBridgeColumnType) (o : Bool) (slot slot₂ : Slot) (j : Nat)
    (hj : j < headers.length) (column : Column)
    (hsrc : b.dataSetSource = some dataSet) (hfound : allFound b dataSet headers)
    (hmask : o = true → dataSet.maskConsistent) (hrows : column.ints.length = dataSet.rowCount)
    (hcol : dataSet.column (b.decode headers[j].name) = some column)
    (htype : column.type = columnType.nominalText)
    (hreq : headers[j].type = columnType.scale)
    (hinv : ∀ v ∈ column.ints, v = intLowest ∨ (column.labels.map Label.value).count v = 1) :
    ∃ records record nominalRecords,
      (rbridge_readDataSet b (some headers) o slot).1 = ReadResult.buffer records
      ∧ records[j]? = some record
      ∧ (rbridge_readDataSet b (some (headers.set j ⟨headers[j].name, columnType.nominal⟩)) o
          slot₂).1 = ReadResult.buffer nominalRecords
      ∧ nominalRecords[j]? = some record
      ∧ record.isScale = false ∧ record.hasLabels = true ∧ record.isOrdinal = false
      ∧ record.doubles = none
      ∧ (column.labels ≠ [] → record.labelTexts = column.labels.map Label.label
          ∧ record.nbLabels = column.labels.length)
      ∧ record.intCells.length = (survivingRows dataSet o).length
      ∧ ∀ (k i : Nat), (survivingRows dataSet o)[k]? = some i →
          ∃ v, column.ints[i]? = some v
            ∧ (v = intLowest → record.intCells[k]? = some intLowest)
            ∧ (v ≠ intLowest → ∃ p, p < column.labels.length
                ∧ column.labels[p]?.map Label.value = some v
                ∧ record.intCells[k]? = some ((p : Int) + 1)
                ∧ record.labelTexts[p]? = column.labels[p]?.map Label.label) := by
  have hlen := survivingRows_length dataSet o hmask
  have hheader : headers[j] = ⟨headers[j].name, columnType.scale⟩ := by
    rw [← hreq]
  have hrec : recordFor b dataSet o headers[j]
      = setResultColIntsLabels dataSet o (effectiveRowCount dataSet o) columnType.scale column
          { RBridgeColumn.zeroed with
            name := some headers[j].name, nbRows := effectiveRowCount dataSet o } := by
    simp [recordFor, hcol, readColumn, resolveRequestedType, hreq, htype]
  have hnominal : recordFor b dataSet o ⟨headers[j].name, columnType.nominal⟩
      = recordFor b dataSet o headers[j] := by
    have h1 : recordFor b dataSet o ⟨headers[j].name, columnType.nominal⟩
        = readColumn b dataSet o (effectiveRowCount dataSet o)
            ⟨headers[j].name, columnType.nominal⟩ column := by
      simp [recordFor, hcol]
    have h2 : recordFor b dataSet o headers[j]
        = readColumn b dataSet o (effectiveRowCount dataSet o)
            ⟨headers[j].name, columnType.scale⟩ column := by
      rw [← hheader]
      simp [recordFor, hcol]
    rw [h1, h2, readColumn_text_as_scale b dataSet o _ _ column htype]
  have hpay : (recordFor b dataSet o headers[j]).intCells
      = (survivingRows dataSet o).map (fun i =>
          labelIndexOf (labelIndices columnType.scale column) (column.ints.getD i 0)) := by
    rw [hrec]
    simp only [setResultColIntsLabels, RBridgeColumn.intCells]
    rw [copiedPayload_eq dataSet o (0 : Int) (0 : Int) _ column.ints hmask hrows]
    exact intArray_cells _ _ (by simp [hlen])
  have hlab : (recordFor b dataSet o headers[j]).labelTexts
      = (rbridge_getLabels column.labels).1 := by
    rw [hrec]
    simp [setResultColIntsLabels, RBridgeColumn.labelTexts]
  have hj2 : j < (headers.set j ⟨headers[j].name, columnType.nominal⟩).length := by
    simpa using hj
  have hnom : ((headers.set j ⟨headers[j].name, columnType.nominal⟩).map (recordFor b dataSet o)
      ++ [rowNumberRecord dataSet o])[j]? = some (recordFor b dataSet o headers[j]) := by
    rw [buffer_record _ _ _ j hj2, ← hnominal]
    simp
  refine ⟨_, recordFor b dataSet o headers[j], _,
    readDataSet_buffer b dataSet headers o slot hsrc hfound, buffer_record _ _ _ j hj,
    readDataSet_buffer b dataSet _ o slot₂ hsrc
      (allFound_set b dataSet headers j hj columnType.nominal hfound), hnom,
    ?_, ?_, ?_, ?_, ?_, ?_, ?_⟩
  · rw [hrec]
    simp [setResultColIntsLabels]
  · rw [hrec]
    simp [setResultColIntsLabels]
  · rw [hrec]
    simp [setResultColIntsLabels]
  · rw [hrec]
    simp [setResultColIntsLabels, RBridgeColumn.zeroed]
  · intro hne
    have hne2 : ¬ column.labels.length = 0 := by
      simpa [List.length_eq_zero] using hne
    constructor
    · rw [hlab]
      simp [rbridge_getLabels, hne2]
    · rw [hrec]
      simp [setResultColIntsLabels, rbridge_getLabels, hne2]
  · rw [hpay, List.length_map]
  · intro k i hk
    have hi : i < column.ints.length := by
      rw [hrows]
      exact survivingRows_lt dataSet o k i hk
    have hget : column.ints.getD i 0 = column.ints[i] := by
      rw [List.getD_eq_getElem?_getD, List.getElem?_eq_getElem hi]
      rfl
    have hcell : (recordFor b dataSet o headers[j]).intCells[k]?
        = some (labelIndexOf (labelIndices columnType.scale column) column.ints[i]) := by
      rw [hpay, map_getElem?_of_some _ _ k i hk, hget]
    refine ⟨column.ints[i], List.getElem?_eq_getElem hi, ?_, ?_⟩
    · intro hv
      rw [hcell, hv]
      simp [labelIndexOf]
    · intro hv
      have hone : (column.labels.map Label.value).count column.ints[i] = 1 := by
        rcases hinv column.ints[i] (List.getElem_mem hi) with h | h
        · exact absurd h hv
        · exact h
      obtain ⟨p, hp, hval, hat⟩ := buildIndices_at_unique column.labels 1 [] column.ints[i] hone
      refine ⟨p, hp, hval, ?_, ?_⟩
      · rw [hcell]
        simp only [labelIndexOf, hv, if_false, labelIndices, htype, or_true, if_true, hat]
        rw [Int.add_comm]
      · rw [hlab]
        have hne : ¬ column.labels.length = 0 := by omega
        simp [rbridge_getLabels, hne]

theorem text_allFound : allFound (ieeeBridge (some textDataSet)) textDataSet scaleHeaderT := by
  intro h hh
  simp only [scaleHeaderT, List.mem_singleton] at hh
  subst hh
  rfl

theorem readDataSet_text_as_scale_witness :
    ∃ records record nominalRecords,
      (rbridge_readDataSet (ieeeBridge (some textDataSet)) (some scaleHeaderT) true ⟨none, 0⟩).1
          = ReadResult.buffer records
      ∧ records[0]? = some record
      ∧ (rbridge_readDataSet (ieeeBridge (some textDataSet)) (some [⟨"t", columnType.nominal⟩])
          true ⟨none, 0⟩).1 = ReadResult.buffer nominalRecords
      ∧ nominalRecords[0]? = some record
      ∧ record.isScale = false ∧ record.hasLabels = true
      ∧ record.labelTexts = ["low", "high"]
      ∧ record.intCells = [2, 1] := by
  obtain ⟨records, record, nominalRecords, h1, h2, h3, h4, h5, h6, _, _, _, _, _⟩ :=
    readDataSet_text_as_scale (ieeeBridge (some textDataSet)) textDataSet scaleHeaderT true
      ⟨none, 0⟩ ⟨none, 0⟩ 0 (by decide)
      ⟨"t", columnType.nominalText, [7, intLowest, 5], [], [⟨5, "low"⟩, ⟨7, "high"⟩]⟩
      rfl text_allFound (fun _ => ⟨rfl, rfl⟩) rfl rfl rfl rfl (by decide)
  refine ⟨records, record, nominalRecords, h1, h2, h3, h4, h5, h6, ?_, ?_⟩
  all_goals
    have hr := readDataSet_buffer_unique (ieeeBridge (some textDataSet)) textDataSet scaleHeaderT
      true ⟨none, 0⟩ records rfl text_allFound h1
    subst hr
    have e1 : record
        = recordFor (ieeeBridge (some textDataSet)) textDataSet true ⟨"t", columnType.scale⟩ :=
      (Option.some.inj h2).symm
    subst e1
    rfl

end RBridge
